import Mathlib

/-!
# Job lifecycle of the slide generation backend

A shallow embedding of `backend/api/services/queue/job_queue.go` (the Producer:
`AddJob`, `triggerSlidesService`, `GetJob`, `GetResult`, `WatchJob`,
`updateJobStatus`) and of
`backend/slides-service/controllers/task_controller.go` (the Worker:
`ProcessSlides`, `updateJobStatus`, `setJobCompleted`, `storeResult`).

The document store, the shared volume, the clock and the HTTP client are external
capabilities.  They are embedded as an explicit `World` that is passed through every
operation, and every external call can fail: the outcome of each call site is read
from an environment record (`ProducerEnv`, `WorkerEnv`, `ReadEnv`), indexed by the
loop iteration where the call sits in a loop.  Every external call is also appended
to `World.trace`, so that statements about which calls were made can be phrased.
The snapshot iterator of `WatchJob` is external too: what it yields is read from a
list of notifications.
-/

namespace Slideitin

/-! ## Data model -/

/-- Raw bytes (`[]byte`). -/
abbrev Bytes := List Nat

/-- The type `models.File`: a submitted file (name, content, content type). -/
structure File where
  Filename : String
  Data : Bytes
  Typ : String
deriving DecidableEq, Repr

/-- The type `models.SlideSettings`, with the two fields the prompt service reads. -/
structure SlideSettings where
  SlideDetail : String
  Audience : String
deriving DecidableEq, Repr

/-- The constant `StatusQueued`. -/
abbrev StatusQueued : String := "queued"
/-- The constant `StatusProcessing`. -/
abbrev StatusProcessing : String := "processing"
/-- The constant `StatusCompleted`. -/
abbrev StatusCompleted : String := "completed"
/-- The constant `StatusFailed`. -/
abbrev StatusFailed : String := "failed"

/-- The Firestore representation of a job.  `ExpiresAt` is `omitempty`: an absent
field decodes to `0`. -/
structure FirestoreJob where
  ID : String
  Status : String
  Message : String
  CreatedAt : Int
  UpdatedAt : Int
  ExpiresAt : Int
deriving DecidableEq, Repr

/-- The Firestore representation of a job result. -/
structure FirestoreResult where
  ID : String
  ResultURL : String
  PDFData : Bytes
  HTMLData : Bytes
  CreatedAt : Int
  ExpiresAt : Int
deriving DecidableEq, Repr

/-- The in-memory job handle of the Producer. -/
structure Job where
  ID : String
  Theme : String
  Files : List File
  Settings : SlideSettings
  Status : String
  Message : String
  ResultURL : String
  CreatedAt : Int
  UpdatedAt : Int
deriving DecidableEq, Repr

/-- A reference to a staged file. -/
structure FileReference where
  Filename : String
  Typ : String
  LocalPath : String
deriving DecidableEq, Repr

/-- The dispatch payload sent from the Producer to the Worker. -/
structure TaskPayload where
  JobID : String
  Theme : String
  Files : List FileReference
  Settings : SlideSettings
deriving DecidableEq, Repr

/-- An HTTP response as the Producer sees it: status code and body text. -/
structure Response where
  StatusCode : Int
  Body : String
deriving DecidableEq, Repr

/-- Who issued a job-record update. -/
inductive Actor where
  | producer
  | worker
deriving DecidableEq, Repr

/-- One external call, as logged in `World.trace`.  `prev` is the status of the job
record at the moment of the write (`none` when there is no record), `ok` tells
whether the call succeeded. -/
inductive Event where
  | jobSet (rec : FirestoreJob) (prev : Option String) (ok : Bool)
  | jobUpdate (actor : Actor) (id status message : String) (updatedAt : Int)
      (expiresAt : Option Int) (prev : Option String) (ok : Bool)
  | jobDelete (id : String) (ok : Bool)
  | resultSet (rec : FirestoreResult) (ok : Bool)
  | resultDelete (id : String) (ok : Bool)
  | mkdirAll (dir : String) (ok : Bool)
  | writeFile (path : String) (data : Bytes) (ok : Bool)
  | httpPost (url : String) (payload : TaskPayload)
  | readFile (path : String) (ok : Bool)
  | generateSlides (theme : String) (files : List File) (settings : SlideSettings)
  | remove (path : String) (ok : Bool)
  | removeAll (dir : String) (ok : Bool)
deriving DecidableEq, Repr

/-- The state of everything outside the two processes: the two Firestore
collections, the shared volume, the clock and the log of external calls. -/
structure World where
  jobs : String → Option FirestoreJob
  results : String → Option FirestoreResult
  files : String → Option Bytes
  dirs : String → Bool
  clock : Nat → Int
  tick : Nat
  trace : List Event

/-- The value `time.Now().Unix()` would return now. -/
def World.now (w : World) : Int := w.clock w.tick

/-- The clock has been read once more. -/
def World.advance (w : World) : World := { w with tick := w.tick + 1 }

/-- Append one external call to the log. -/
def World.log (w : World) (e : Event) : World := { w with trace := w.trace ++ [e] }

/-- The status of the stored job record, if there is one. -/
def World.status (w : World) (id : String) : Option String :=
  (w.jobs id).map FirestoreJob.Status

/-- A keyed collection with one key rebound. -/
def setKey {α : Type} (m : String → Option α) (k : String) (v : Option α) :
    String → Option α :=
  fun k' => if k' = k then v else m k'

/-- A world with empty collections, an empty volume and an empty log. -/
def World.empty (clock : Nat → Int) : World :=
  { jobs := fun _ => none, results := fun _ => none, files := fun _ => none,
    dirs := fun _ => false, clock := clock, tick := 0, trace := [] }

/-! ## The document store -/

/-- The error Firestore reports for a document that does not exist. -/
def errNotFound : String := "rpc error: code = NotFound"

/-- The call `Collection("jobs").Doc(id).Set(ctx, rec)`: replaces the whole document. -/
def docSetJob (fault : Option String) (id : String) (rec : FirestoreJob) (w : World) :
    Option String × World :=
  match fault with
  | some e => (some e, w.log (.jobSet rec (w.status id) false))
  | none =>
    (none, { w with jobs := setKey w.jobs id (some rec),
                    trace := w.trace ++ [.jobSet rec (w.status id) true] })

/-- The call `Collection("jobs").Doc(id).Update(ctx, updates)` with the paths
`status`, `message`, `updatedAt` and, when given, `expiresAt`.  Updating a document
that does not exist is an error. -/
def docUpdateJob (actor : Actor) (fault : Option String) (id status message : String)
    (updatedAt : Int) (expiresAt : Option Int) (w : World) : Option String × World :=
  match fault with
  | some e =>
    (some e, w.log (.jobUpdate actor id status message updatedAt expiresAt (w.status id) false))
  | none =>
    match w.jobs id with
    | none =>
      (some errNotFound,
        w.log (.jobUpdate actor id status message updatedAt expiresAt (w.status id) false))
    | some j =>
      (none, { w with
        jobs := setKey w.jobs id (some { j with
          Status := status, Message := message, UpdatedAt := updatedAt,
          ExpiresAt := expiresAt.getD j.ExpiresAt }),
        trace := w.trace ++
          [.jobUpdate actor id status message updatedAt expiresAt (w.status id) true] })

/-- The call `Collection("jobs").Doc(id).Delete(ctx)`. -/
def docDeleteJob (fault : Option String) (id : String) (w : World) : Option String × World :=
  match fault with
  | some e => (some e, w.log (.jobDelete id false))
  | none => (none, { w with jobs := setKey w.jobs id none,
                            trace := w.trace ++ [.jobDelete id true] })

/-- The call `Collection("results").Doc(id).Set(ctx, rec)`. -/
def docSetResult (fault : Option String) (id : String) (rec : FirestoreResult) (w : World) :
    Option String × World :=
  match fault with
  | some e => (some e, w.log (.resultSet rec false))
  | none => (none, { w with results := setKey w.results id (some rec),
                            trace := w.trace ++ [.resultSet rec true] })

/-- The call `Collection("results").Doc(id).Delete(ctx)`. -/
def docDeleteResult (fault : Option String) (id : String) (w : World) :
    Option String × World :=
  match fault with
  | some e => (some e, w.log (.resultDelete id false))
  | none => (none, { w with results := setKey w.results id none,
                            trace := w.trace ++ [.resultDelete id true] })

/-! ## The shared volume -/

/-- Split a path at every slash. -/
def splitSlash : List Char → List (List Char)
  | [] => [[]]
  | c :: cs =>
    match splitSlash cs with
    | [] => [[]]
    | x :: xs => if c = '/' then [] :: x :: xs else (c :: x) :: xs

/-- One step of `filepath.Clean` over the components seen so far (innermost first). -/
def cleanStep (rooted : Bool) (stack : List (List Char)) (comp : List Char) :
    List (List Char) :=
  if comp = [] ∨ comp = ['.'] then stack
  else if comp = ['.', '.'] then
    match stack with
    | [] => if rooted then [] else [comp]
    | top :: rest => if top = ['.', '.'] then comp :: stack else rest
  else comp :: stack

/-- The function `filepath.Clean` for slash-separated paths. -/
def filepathClean (p : List Char) : List Char :=
  let rooted := p.head? = some '/'
  let comps := ((splitSlash p).foldl (cleanStep rooted) []).reverse
  let body := List.intercalate ['/'] comps
  let out := if rooted then '/' :: body else body
  if out = [] then ['.'] else out

/-- The function `filepath.Join`: empty elements are dropped, the rest joined by a
slash and cleaned; no element at all gives the empty string. -/
def filepathJoin (elems : List String) : String :=
  match (elems.map String.toList).filter (fun e => e ≠ []) with
  | [] => ""
  | es => String.mk (filepathClean (List.intercalate ['/'] es))

/-- Whether path `p` is directory `dir` or lies below it. -/
def isUnder (dir p : String) : Bool :=
  p = dir || (dir.toList ++ ['/']).isPrefixOf p.toList

/-- The call `os.MkdirAll(dir, 0755)`. -/
def osMkdirAll (fault : Option String) (dir : String) (w : World) : Option String × World :=
  match fault with
  | some e => (some e, w.log (.mkdirAll dir false))
  | none => (none, { w with dirs := fun p => if p = dir then true else w.dirs p,
                            trace := w.trace ++ [.mkdirAll dir true] })

/-- The call `os.WriteFile(path, data, 0644)`: creates or replaces the file. -/
def osWriteFile (fault : Option String) (path : String) (data : Bytes) (w : World) :
    Option String × World :=
  match fault with
  | some e => (some e, w.log (.writeFile path data false))
  | none => (none, { w with files := setKey w.files path (some data),
                            trace := w.trace ++ [.writeFile path data true] })

/-- The call `os.ReadFile(path)`: fails on a missing file. -/
def osReadFile (fault : Option String) (path : String) (w : World) :
    Except String Bytes × World :=
  match fault with
  | some e => (.error e, w.log (.readFile path false))
  | none =>
    match w.files path with
    | none => (.error ("open " ++ path ++ ": no such file or directory"),
                w.log (.readFile path false))
    | some d => (.ok d, w.log (.readFile path true))

/-- The call `os.Remove(path)`: fails on a missing file. -/
def osRemove (fault : Option String) (path : String) (w : World) : Option String × World :=
  match fault with
  | some e => (some e, w.log (.remove path false))
  | none =>
    match w.files path with
    | none => (some ("remove " ++ path ++ ": no such file or directory"),
                w.log (.remove path false))
    | some _ => (none, { w with files := setKey w.files path none,
                                trace := w.trace ++ [.remove path true] })

/-- The call `os.RemoveAll(dir)`: removes the directory and everything below it. -/
def osRemoveAll (fault : Option String) (dir : String) (w : World) : Option String × World :=
  match fault with
  | some e => (some e, w.log (.removeAll dir false))
  | none => (none, { w with
      files := fun p => if isUnder dir p then none else w.files p,
      dirs := fun p => if isUnder dir p then false else w.dirs p,
      trace := w.trace ++ [.removeAll dir true] })

/-! ## The Producer (package queue) -/

/-- Outcomes of the Producer's external calls during one `AddJob`: the error of the
initial `Set`, of `os.MkdirAll` and `os.WriteFile` for the file at each index, of
`json.Marshal`, of `http.NewRequestWithContext`, and of the `Update` issued by
`updateJobStatus`; `serviceURL` is the configured base URL of the Worker. -/
structure ProducerEnv where
  setErr : Option String
  mkdirErr : Nat → Option String
  writeErr : Nat → Option String
  marshalErr : Option String
  requestErr : Option String
  updateErr : Option String
  serviceURL : String

/-- Outcomes of the external calls of the read paths `GetJob` and `GetResult`: a
failure of the job `Get` other than a missing document, of decoding the job document,
of the `Delete` of an expired record, and the same for the result document. -/
structure ReadEnv where
  getErr : Option String
  decodeErr : Option String
  deleteErr : Option String
  resultGetErr : Option String
  resultDecodeErr : Option String

/-- The call `s.httpClient.Do(req)`: given target URL and payload, either a transport
error or the response of the endpoint, together with whatever the endpoint did. -/
abbrev HttpDo := String → TaskPayload → World → Except String Response × World

namespace Queue

/-- The method `updateJobStatus` of the Producer: one `Update` whose failure is only
logged, then the in-memory handle is changed. -/
def updateJobStatus (env : ProducerEnv) (w : World) (job : Job)
    (status message resultURL : String) : Job × World :=
  let now := w.now
  let w1 := w.advance
  let w2 := (docUpdateJob .producer env.updateErr job.ID status message now none w1).2
  ({ job with
      Status := status, Message := message, UpdatedAt := now,
      ResultURL := if resultURL ≠ "" then resultURL else job.ResultURL }, w2)

/-- The method `saveFileLocally` for the file at index `i` of the submission. -/
def saveFileLocally (env : ProducerEnv) (i : Nat) (w : World) (jobID : String) (file : File) :
    Except String String × World :=
  let jobDir := filepathJoin ["/shared", jobID]
  match osMkdirAll (env.mkdirErr i) jobDir w with
  | (some err, w1) =>
    (.error ("failed to create job directory '" ++ jobDir ++ "': " ++ err), w1)
  | (none, w1) =>
    let localPath := filepathJoin [jobDir, file.Filename]
    match osWriteFile (env.writeErr i) localPath file.Data w1 with
    | (some err, w2) => (.error ("failed to write file to '" ++ localPath ++ "': " ++ err), w2)
    | (none, w2) => (.ok localPath, w2)

/-- The staging loop of `AddJob` from the file at index `i` on; `fileRefs` holds the
references built so far.  On a staging failure the job is marked failed and the loop
returns the handle and the error of `AddJob`. -/
def stageLoop (env : ProducerEnv) (id : String) (job : Job) :
    List File → Nat → List FileReference → World →
      Except (Job × String) (List FileReference) × World
  | [], _, fileRefs, w => (.ok fileRefs, w)
  | file :: rest, i, fileRefs, w =>
    match saveFileLocally env i w id file with
    | (.error err, w1) =>
      let r := updateJobStatus env w1 job StatusFailed
        ("Failed to save file " ++ file.Filename ++ " locally: " ++ err) ""
      (.error (r.1, "failed to save file locally: " ++ err), r.2)
    | (.ok localPath, w1) =>
      stageLoop env id job rest (i + 1)
        (fileRefs ++ [{ Filename := file.Filename, Typ := file.Typ, LocalPath := localPath }]) w1

/-- The method `triggerSlidesService`: POST the payload to the Worker; a transport
error or a status code of 300 or more is an error. -/
def triggerSlidesService (env : ProducerEnv) (post : HttpDo) (w : World) (job : Job)
    (fileRefs : List FileReference) : Option String × World :=
  let taskPayload : TaskPayload :=
    { JobID := job.ID, Theme := job.Theme, Files := fileRefs, Settings := job.Settings }
  match env.marshalErr with
  | some err => (some ("failed to marshal trigger payload: " ++ err), w)
  | none =>
    let targetURL := env.serviceURL ++ "/tasks/process-slides"
    match env.requestErr with
    | some err => (some ("failed to create http request: " ++ err), w)
    | none =>
      match post targetURL taskPayload (w.log (.httpPost targetURL taskPayload)) with
      | (.error err, w1) =>
        (some ("failed to send http request to slides service: " ++ err), w1)
      | (.ok resp, w1) =>
        if resp.StatusCode ≥ 300 then
          (some ("slides service returned non-success status " ++ toString resp.StatusCode
            ++ ": " ++ resp.Body), w1)
        else (none, w1)

/-- The record `AddJob` writes first. -/
def queuedRecord (id : String) (now : Int) : FirestoreJob :=
  { ID := id, Status := StatusQueued, Message := "Job added to queue",
    CreatedAt := now, UpdatedAt := now, ExpiresAt := 0 }

/-- The in-memory handle `AddJob` builds after the record is stored. -/
def queuedJob (id theme : String) (fileData : List File) (settings : SlideSettings)
    (now : Int) : Job :=
  { ID := id, Theme := theme, Files := fileData, Settings := settings,
    Status := StatusQueued, Message := "Job added to queue", ResultURL := "",
    CreatedAt := now, UpdatedAt := now }

/-- The method `AddJob`: store the queued record, stage the files, dispatch.  The
result is the pair (handle, error) of the Go function. -/
def AddJob (env : ProducerEnv) (post : HttpDo) (w : World) (id theme : String)
    (fileData : List File) (settings : SlideSettings) : (Option Job × Option String) × World :=
  let now := w.now
  let w0 := w.advance
  match docSetJob env.setErr id (queuedRecord id now) w0 with
  | (some err, w1) => ((none, some ("failed to store job: " ++ err)), w1)
  | (none, w1) =>
    let job := queuedJob id theme fileData settings now
    match stageLoop env id job fileData 0 [] w1 with
    | (.error (job1, err), w2) => ((some job1, some err), w2)
    | (.ok fileRefs, w2) =>
      match triggerSlidesService env post w2 job fileRefs with
      | (some err, w3) =>
        let r := updateJobStatus env w3 job StatusFailed
          ("Failed to trigger slides service: " ++ err) ""
        ((some r.1, some ("failed to trigger slides service: " ++ err)), r.2)
      | (none, w3) => ((some job, none), w3)

/-- The handle `GetJob` builds from a stored record. -/
def jobOfRecord (firestoreJob : FirestoreJob) (resultURL : String) : Job :=
  { ID := firestoreJob.ID, Theme := "", Files := [],
    Settings := { SlideDetail := "", Audience := "" },
    Status := firestoreJob.Status, Message := firestoreJob.Message,
    ResultURL := resultURL,
    CreatedAt := firestoreJob.CreatedAt, UpdatedAt := firestoreJob.UpdatedAt }

/-- The result lookup of `GetJob` and `WatchJob` for a completed job: the stored
`resultUrl` when the document is read and decoded, the empty string otherwise. -/
def lookupResultURL (env : ReadEnv) (w : World) (id : String) : String :=
  match env.resultGetErr with
  | some _ => ""
  | none =>
    match w.results id with
    | none => ""
    | some result =>
      match env.resultDecodeErr with
      | some _ => ""
      | none => result.ResultURL

/-- The method `GetJob`: `none` is the nil handle. -/
def GetJob (env : ReadEnv) (w : World) (id : String) : Option Job × World :=
  match env.getErr with
  | some _ => (none, w)
  | none =>
    match w.jobs id with
    | none => (none, w)
    | some firestoreJob =>
      match env.decodeErr with
      | some _ => (none, w)
      | none =>
        let now := w.now
        let w1 := w.advance
        if firestoreJob.ExpiresAt > 0 ∧ now > firestoreJob.ExpiresAt then
          (none, (docDeleteJob env.deleteErr id w1).2)
        else
          let resultURL :=
            if firestoreJob.Status = StatusCompleted then lookupResultURL env w1 id else ""
          (some (jobOfRecord firestoreJob resultURL), w1)

/-- The method `GetResult`. -/
def GetResult (env : ReadEnv) (w : World) (jobID : String) :
    Except String FirestoreResult × World :=
  match env.resultGetErr with
  | some err => (.error ("error retrieving result: " ++ err), w)
  | none =>
    match w.results jobID with
    | none => (.error "result not found", w)
    | some result =>
      match env.resultDecodeErr with
      | some err => (.error ("error parsing result data: " ++ err), w)
      | none =>
        let now := w.now
        let w1 := w.advance
        if result.ExpiresAt > 0 ∧ now > result.ExpiresAt then
          (.error "result has expired", (docDeleteResult env.deleteErr jobID w1).2)
        else (.ok result, w1)

end Queue

/-! ## The Worker (package controllers) -/

/-- The Content Renderer `GenerateSlides` as the Worker sees it: it reports progress
any number of times, is told each time whether the status update went through, and
ends with the two artifacts or an error. -/
inductive Render where
  | done (pdfData htmlData : Bytes) : Render
  | fail (err : String) : Render
  | progress (message : String) (next : Option String → Render) : Render

/-- Outcomes of the Worker's external calls during one `ProcessSlides`: the error of
the initial processing update, of `os.ReadFile` at each index, of the update behind
each progress report, of the update that marks the job failed, of the result `Set`,
of `os.Remove` at each index, of `os.RemoveAll` and of the completion update;
`render` is the renderer's behaviour and `json` the encoding of a response body. -/
structure WorkerEnv where
  processingErr : Option String
  readErr : Nat → Option String
  render : String → List File → SlideSettings → Render
  progressErr : Nat → Option String
  failedErr : Option String
  storeErr : Option String
  removeErr : Nat → Option String
  removeAllErr : Option String
  completedErr : Option String
  json : List (String × String) → String

namespace Controllers

/-- The method `updateJobStatus` of the Worker: one `Update`, whose error is returned. -/
def updateJobStatus (fault : Option String) (w : World)
    (jobID status message : String) (_resultURL : String) : Option String × World :=
  let now := w.now
  let w1 := w.advance
  docUpdateJob .worker fault jobID status message now none w1

/-- The method `setJobCompleted`: status completed, expiry five minutes from now. -/
def setJobCompleted (fault : Option String) (w : World)
    (jobID message : String) (_resultURL : String) : Option String × World :=
  let now := w.now
  let w1 := w.advance
  let expiresAt := now + 300
  docUpdateJob .worker fault jobID "completed" message now (some expiresAt) w1

/-- The method `storeResult`: the result record expires one hour from now. -/
def storeResult (fault : Option String) (w : World) (jobID resultURL : String)
    (pdfData htmlData : Bytes) : Option String × World :=
  let now := w.now
  let w1 := w.advance
  let expiresAt := now + 3600
  let result : FirestoreResult :=
    { ID := jobID, ResultURL := resultURL, PDFData := pdfData, HTMLData := htmlData,
      CreatedAt := now, ExpiresAt := expiresAt }
  match docSetResult fault jobID result w1 with
  | (some err, w2) => (some ("failed to store result: " ++ err), w2)
  | (none, w2) => (none, w2)

/-- The read loop of `ProcessSlides` from the reference at index `i` on; `files`
holds the files read so far.  On a read failure the job is marked failed and the
loop returns the error response of the handler. -/
def readLoop (env : WorkerEnv) (jobID : String) :
    List FileReference → Nat → List File → World → Except Response (List File) × World
  | [], _, files, w => (.ok files, w)
  | fileRef :: rest, i, files, w =>
    match osReadFile (env.readErr i) fileRef.LocalPath w with
    | (.error err, w1) =>
      let w2 := (updateJobStatus env.failedErr w1 jobID "failed"
        ("Failed to read local file " ++ fileRef.Filename ++ ": " ++ err) "").2
      (.error { StatusCode := 500,
                Body := env.json [("error", "Failed to read local file: " ++ err)] }, w2)
    | (.ok fileData, w1) =>
      readLoop env jobID rest (i + 1)
        (files ++ [{ Filename := fileRef.Filename, Data := fileData, Typ := fileRef.Typ }]) w1

/-- Run the renderer: the progress report number `n` is forwarded as a processing
update by the callback `statusUpdateFn`, whose result goes back to the renderer. -/
def runRender (env : WorkerEnv) (jobID : String) :
    Render → Nat → World → Except String (Bytes × Bytes) × World
  | .done pdfData htmlData, _, w => (.ok (pdfData, htmlData), w)
  | .fail err, _, w => (.error err, w)
  | .progress message next, n, w =>
    let r := updateJobStatus (env.progressErr n) w jobID "processing" message ""
    runRender env jobID (next r.1) (n + 1) r.2

/-- The cleanup loop of `ProcessSlides`: failures of `os.Remove` are only logged. -/
def cleanupLoop (env : WorkerEnv) : List FileReference → Nat → World → World
  | [], _, w => w
  | fileRef :: rest, i, w =>
    cleanupLoop env rest (i + 1) (osRemove (env.removeErr i) fileRef.LocalPath w).2

/-- The handler `ProcessSlides`; `body` is the outcome of binding the request body. -/
def ProcessSlides (env : WorkerEnv) (body : Except String TaskPayload) (w : World) :
    Response × World :=
  match body with
  | .error err =>
    ({ StatusCode := 400, Body := env.json [("error", "Invalid payload: " ++ err)] }, w)
  | .ok payload =>
    match updateJobStatus env.processingErr w payload.JobID "processing"
        "Processing slides" "" with
    | (some err, w1) =>
      ({ StatusCode := 500,
         Body := env.json [("error", "Failed to update job status: " ++ err)] }, w1)
    | (none, w1) =>
      match readLoop env payload.JobID payload.Files 0 [] w1 with
      | (.error resp, w2) => (resp, w2)
      | (.ok files, w2) =>
        match runRender env payload.JobID (env.render payload.Theme files payload.Settings) 0
            (w2.log (.generateSlides payload.Theme files payload.Settings)) with
        | (.error err, w3) =>
          let w4 := (updateJobStatus env.failedErr w3 payload.JobID "failed"
            ("Failed to generate slides: " ++ err) "").2
          ({ StatusCode := 500,
             Body := env.json [("error", "Failed to generate slides: " ++ err)] }, w4)
        | (.ok (pdfData, htmlData), w3) =>
          let resultURL := "/results/" ++ payload.JobID
          match storeResult env.storeErr w3 payload.JobID resultURL pdfData htmlData with
          | (some err, w4) =>
            let w5 := (updateJobStatus env.failedErr w4 payload.JobID "failed"
              ("Failed to store result: " ++ err) "").2
            ({ StatusCode := 500,
               Body := env.json [("error", "Failed to store result: " ++ err)] }, w5)
          | (none, w4) =>
            let w5 := cleanupLoop env payload.Files 0 w4
            let jobDir := filepathJoin ["/shared", payload.JobID]
            let w6 := (osRemoveAll env.removeAllErr jobDir w5).2
            match setJobCompleted env.completedErr w6 payload.JobID
                "Slides generated successfully" resultURL with
            | (some err, w7) =>
              ({ StatusCode := 500,
                 Body := env.json [("error", "Failed to mark job as completed: " ++ err)] }, w7)
            | (none, w7) =>
              ({ StatusCode := 200,
                 Body := env.json [("status", "success"), ("jobID", payload.JobID)] }, w7)

end Controllers

/-! ## The composed system -/

/-- The HTTP round trip of the composed system in the two cases in which the
Producer and the Worker do not write concurrently: with `doErr = some err` the
request does not reach the Worker and the client returns the transport error; with
`doErr = none` the Worker's handler runs on the payload and its response is what
the Producer receives.  The third case, a transport error returned to the Producer
(the client's timeout of 30 seconds) while or after the handler runs, is
`submitTimedOut` and `lateTimeoutDo`. -/
def workerDo (doErr : Option String) (wenv : WorkerEnv) : HttpDo :=
  fun _url payload w =>
    match doErr with
    | some err => (.error err, w)
    | none =>
      let r := Controllers.ProcessSlides wenv (.ok payload) w
      (.ok r.1, r.2)

/-- The method `AddJob` with the Worker behind a dispatch call that is answered or
does not reach the Worker. -/
def submit (env : ProducerEnv) (doErr : Option String) (wenv : WorkerEnv) (w : World)
    (id theme : String) (fileData : List File) (settings : SlideSettings) :
    (Option Job × Option String) × World :=
  Queue.AddJob env (workerDo doErr wenv) w id theme fileData settings

/-! ## Predicates on the log -/

/-- The moves of a job status that the Worker makes on a record it was handed as
queued: into processing, progress within processing, and from processing to a
terminal status. -/
def WAllowed (prev : Option String) (status : String) : Prop :=
  (prev = some "queued" ∧ status = "processing") ∨
  (prev = some "processing" ∧
    (status = "processing" ∨ status = "completed" ∨ status = "failed"))

/-- The moves of a job status that occur in the composed system: creation as queued,
the Worker's moves, a failure of a queued job, and failed written over failed. -/
def Allowed (prev : Option String) (status : String) : Prop :=
  (prev = none ∧ status = "queued") ∨ WAllowed prev status ∨
  (prev = some "queued" ∧ status = "failed") ∨
  (prev = some "failed" ∧ status = "failed")

instance (prev : Option String) (status : String) : Decidable (WAllowed prev status) := by
  unfold WAllowed; infer_instance

instance (prev : Option String) (status : String) : Decidable (Allowed prev status) := by
  unfold Allowed; infer_instance

/-- The move a logged job-record write makes: the status the record had and the
status written. -/
def Event.move : Event → Option (Option String × String)
  | .jobSet rec prev _ => some (prev, rec.Status)
  | .jobUpdate _ _ status _ _ _ prev _ => some (prev, status)
  | _ => none

/-- A logged call is forward when it is no job-record write or writes a status
that is an allowed move from the status the record had. -/
def Forward : Event → Prop
  | .jobSet rec prev _ => Allowed prev rec.Status
  | .jobUpdate _ _ status _ _ _ prev _ => Allowed prev status
  | _ => True

/-- The calls the Worker makes for job `id`: reads, the render, the result write,
cleanup, and status updates of that job along the Worker's moves. -/
def WorkerEv (id : String) : Event → Prop
  | .jobUpdate .worker id' status _ _ _ prev _ => id' = id ∧ WAllowed prev status
  | .readFile _ _ => True
  | .generateSlides _ _ _ => True
  | .resultSet _ _ => True
  | .remove _ _ => True
  | .removeAll _ _ => True
  | _ => False

/-- Whether a logged call is a job-record write issued by the Producer. -/
def Event.isProducerJobWrite : Event → Bool
  | .jobSet _ _ _ => true
  | .jobUpdate .producer _ _ _ _ _ _ _ => true
  | _ => false

/-- The job-record writes of the Producer in a log, in order. -/
def producerJobWrites (t : List Event) : List Event := t.filter Event.isProducerJobWrite

/-- The status a logged call has stored in the record of job `id`, if it is a
job-record write for that job that went through. -/
def Event.statusWritten (id : String) : Event → Option String
  | .jobSet rec _ true => if rec.ID = id then some rec.Status else none
  | .jobUpdate _ id' status _ _ _ _ true => if id' = id then some status else none
  | _ => none

/-- The statuses stored in the record of job `id`, in the order of the log. -/
def statusHistory (id : String) (t : List Event) : List String :=
  t.filterMap (Event.statusWritten id)

/-- The log holds a completion write for job `id` that the store rejected. -/
def CompletionFailed (id : String) (t : List Event) : Prop :=
  ∃ message updatedAt expiresAt prev,
    Event.jobUpdate .worker id "completed" message updatedAt expiresAt prev false ∈ t

/-! ## Concrete inputs -/

/-- A Producer environment in which no call fails. -/
def okProducerEnv : ProducerEnv :=
  { setErr := none, mkdirErr := fun _ => none, writeErr := fun _ => none,
    marshalErr := none, requestErr := none, updateErr := none,
    serviceURL := "http://slides-service:8080" }

/-- A Worker environment in which no call fails and the renderer reports progress
once before it returns two artifacts. -/
def okWorkerEnv : WorkerEnv :=
  { processingErr := none, readErr := fun _ => none,
    render := fun _ _ _ => .progress "Generating slides" (fun _ => .done [37, 80] [60, 104]),
    progressErr := fun _ => none, failedErr := none, storeErr := none,
    removeErr := fun _ => none, removeAllErr := none, completedErr := none,
    json := fun kv => String.intercalate "," (kv.map (fun p => p.1 ++ "=" ++ p.2)) }

/-- A Producer environment in which the store rejects the first write. -/
def storeDownEnv : ProducerEnv := { okProducerEnv with setErr := some "unavailable" }

/-- A Producer environment in which only the write of the file at index 1 fails. -/
def diskFullEnv : ProducerEnv :=
  { okProducerEnv with writeErr := fun i => if i = 1 then some "disk full" else none }

/-- A Worker environment in which every read of a staged file fails. -/
def unreadableEnv : WorkerEnv :=
  { okWorkerEnv with readErr := fun _ => some "input/output error" }

/-- A Worker environment in which only the final completion write fails. -/
def completionDownEnv : WorkerEnv := { okWorkerEnv with completedErr := some "unavailable" }

/-- A Worker endpoint that answers every request with HTTP 500. -/
def answer500 : HttpDo := fun _ _ w => (.ok { StatusCode := 500, Body := "boom" }, w)

/-- A Worker endpoint that answers every request with HTTP 101. -/
def answer101 : HttpDo := fun _ _ w => (.ok { StatusCode := 101, Body := "" }, w)

/-- A read environment in which no call fails. -/
def okReadEnv : ReadEnv :=
  { getErr := none, decodeErr := none, deleteErr := none,
    resultGetErr := none, resultDecodeErr := none }

/-- A read environment in which only the delete of an expired record fails. -/
def deleteDownEnv : ReadEnv := { okReadEnv with deleteErr := some "unavailable" }

/-- A submitted text file. -/
def notesFile : File := { Filename := "notes.txt", Data := [104, 105], Typ := "text/plain" }

/-- A second submitted file. -/
def paperFile : File :=
  { Filename := "paper.pdf", Data := [37, 80, 68, 70], Typ := "application/pdf" }

/-- Settings: medium detail for a general audience. -/
def mediumGeneral : SlideSettings := { SlideDetail := "medium", Audience := "general" }

/-- An empty world whose clock shows 1000 at the first reading and one second more
at each further reading. -/
def freshWorld : World := World.empty (fun n => 1000 + n)

/-- A world holding a completed job record with the given expiry and its result
record, which expired at 900; the clock shows 1000, then one second more at each
reading. -/
def staleWorld (jobExpiresAt : Int) : World :=
  { freshWorld with
    jobs := setKey (fun _ => none) "j1" (some
      { ID := "j1", Status := "completed", Message := "Slides generated successfully",
        CreatedAt := 100, UpdatedAt := 200, ExpiresAt := jobExpiresAt }),
    results := setKey (fun _ => none) "j1" (some
      { ID := "j1", ResultURL := "/results/j1", PDFData := [37, 80], HTMLData := [60, 104],
        CreatedAt := 150, ExpiresAt := 900 }) }

/-! ## Staging, spelled out -/

/-- The staging directory `saveFileLocally` uses for a job. -/
def jobDir (id : String) : String := filepathJoin ["/shared", id]

/-- The path `saveFileLocally` writes a file of a job to. -/
def stagedPath (id : String) (file : File) : String := filepathJoin [jobDir id, file.Filename]

/-- The file reference `AddJob` builds for a staged file. -/
def stagedRef (id : String) (file : File) : FileReference :=
  { Filename := file.Filename, Typ := file.Typ, LocalPath := stagedPath id file }

/-- The calls logged when each of the given files is staged successfully. -/
def stageEvents (id : String) : List File → List Event
  | [] => []
  | file :: rest =>
    .mkdirAll (jobDir id) true :: .writeFile (stagedPath id file) file.Data true ::
      stageEvents id rest

/-- How the staging of the file at index `i` fails, with the error of
`saveFileLocally` and the calls it logs: either `os.MkdirAll` fails, or it succeeds
and `os.WriteFile` fails. -/
def StagingFailure (env : ProducerEnv) (i : Nat) (id : String) (file : File)
    (err : String) (evs : List Event) : Prop :=
  (∃ e, env.mkdirErr i = some e ∧
    err = "failed to create job directory '" ++ jobDir id ++ "': " ++ e ∧
    evs = [.mkdirAll (jobDir id) false]) ∨
  (∃ e, env.mkdirErr i = none ∧ env.writeErr i = some e ∧
    err = "failed to write file to '" ++ stagedPath id file ++ "': " ++ e ∧
    evs = [.mkdirAll (jobDir id) true, .writeFile (stagedPath id file) file.Data false])

/-- The world in which `AddJob` makes its dispatch call: the queued record is
stored and the staging loop has run. -/
def stagedWorld (env : ProducerEnv) (w : World) (id theme : String) (fileData : List File)
    (settings : SlideSettings) : World :=
  (Queue.stageLoop env id (Queue.queuedJob id theme fileData settings w.now) fileData 0 []
    (docSetJob env.setErr id (Queue.queuedRecord id w.now) w.advance).2).2

/-- The dispatch call of `AddJob` once the record is stored and the files are staged:
its error and the world it leaves. -/
def dispatchOutcome (env : ProducerEnv) (post : HttpDo) (w : World) (id theme : String)
    (fileData : List File) (settings : SlideSettings) : Option String × World :=
  Queue.triggerSlidesService env post (stagedWorld env w id theme fileData settings)
    (Queue.queuedJob id theme fileData settings w.now) (fileData.map (stagedRef id))

/-- The calls made behind a dispatch for job `id`: the POST itself and the calls of
the Worker. -/
def DispatchEv (id : String) : Event → Prop
  | .httpPost _ _ => True
  | e => WorkerEv id e

/-! ## The stages of the Worker's handler -/

namespace Controllers

/-- The first step of `ProcessSlides`: the initial processing update, with its
error. -/
def markProcessing (env : WorkerEnv) (p : TaskPayload) (w : World) : Option String × World :=
  updateJobStatus env.processingErr w p.JobID "processing" "Processing slides" ""

/-- The read loop of `ProcessSlides`, run after the initial update. -/
def readAll (env : WorkerEnv) (p : TaskPayload) (w : World) :
    Except Response (List File) × World :=
  readLoop env p.JobID p.Files 0 [] (markProcessing env p w).2

/-- The call of the renderer on the files read, with its progress updates. -/
def rendered (env : WorkerEnv) (p : TaskPayload) (w : World) (files : List File) :
    Except String (Bytes × Bytes) × World :=
  runRender env p.JobID (env.render p.Theme files p.Settings) 0
    ((readAll env p w).2.log (.generateSlides p.Theme files p.Settings))

/-- The call of `storeResult` on the artifacts the renderer returned. -/
def persisted (env : WorkerEnv) (p : TaskPayload) (w : World) (files : List File)
    (pdfData htmlData : Bytes) : Option String × World :=
  storeResult env.storeErr (rendered env p w files).2 p.JobID ("/results/" ++ p.JobID)
    pdfData htmlData

/-- The world after the cleanup of the staged files and of the staging directory. -/
def cleanedUp (env : WorkerEnv) (p : TaskPayload) (w : World) (files : List File)
    (pdfData htmlData : Bytes) : World :=
  (osRemoveAll env.removeAllErr (filepathJoin ["/shared", p.JobID])
    (cleanupLoop env p.Files 0 (persisted env p w files pdfData htmlData).2)).2

/-- The last step of `ProcessSlides`: the completion write, with its error. -/
def markedCompleted (env : WorkerEnv) (p : TaskPayload) (w : World) (files : List File)
    (pdfData htmlData : Bytes) : Option String × World :=
  setJobCompleted env.completedErr (cleanedUp env p w files pdfData htmlData) p.JobID
    "Slides generated successfully" ("/results/" ++ p.JobID)

/-- The response of `ProcessSlides` for an internal error with the given text. -/
def errorResponse (env : WorkerEnv) (text : String) : Response :=
  { StatusCode := 500, Body := env.json [("error", text)] }

end Controllers

/-! ## Reads, spelled out -/

/-- The read of the reference at index `i` succeeds with the given bytes: no fault
and the file is on the volume. -/
def ReadSuccess (env : WorkerEnv) (files : String → Option Bytes) (i : Nat)
    (ref : FileReference) (data : Bytes) : Prop :=
  env.readErr i = none ∧ files ref.LocalPath = some data

/-- The read of the reference at index `i` fails with the given error: a fault, or
the file is not on the volume. -/
def ReadFailure (env : WorkerEnv) (files : String → Option Bytes) (i : Nat)
    (ref : FileReference) (err : String) : Prop :=
  env.readErr i = some err ∨
  (env.readErr i = none ∧ files ref.LocalPath = none ∧
    err = "open " ++ ref.LocalPath ++ ": no such file or directory")

/-- The calls logged when each of the given references is read successfully. -/
def readEvents (refs : List FileReference) : List Event :=
  refs.map (fun r => .readFile r.LocalPath true)

/-- The files the read loop builds from the given references on the given volume. -/
def filesRead (files : String → Option Bytes) (refs : List FileReference) : List File :=
  refs.map (fun r => { Filename := r.Filename, Data := (files r.LocalPath).getD [],
                       Typ := r.Typ })

/-- Whether a logged call is a job-record write. -/
def Event.isJobWrite : Event → Bool
  | .jobSet _ _ _ => true
  | .jobUpdate _ _ _ _ _ _ _ _ => true
  | _ => false

/-- The job-record writes in a log, in order. -/
def jobWrites (t : List Event) : List Event := t.filter Event.isJobWrite

/-- Whether a logged call is a file read. -/
def Event.isRead : Event → Bool
  | .readFile _ _ => true
  | _ => false

/-- Whether a logged call is an update to status failed issued by the Worker. -/
def Event.isWorkerFailedWrite : Event → Bool
  | .jobUpdate .worker _ status _ _ _ _ _ => status == "failed"
  | _ => false

/-- Whether a logged call is a call of the renderer or a write of a result record. -/
def Event.isRenderOrResult : Event → Bool
  | .generateSlides _ _ _ => true
  | .resultSet _ _ => true
  | _ => false

/-- A progress update: an update of job `id` to status processing by the Worker. -/
def IsProgressUpdate (id : String) (e : Event) : Prop :=
  ∃ message updatedAt prev ok,
    e = .jobUpdate .worker id "processing" message updatedAt none prev ok

/-- A cleanup call: `os.Remove`. -/
def IsRemove (e : Event) : Prop := ∃ path ok, e = .remove path ok

/-! ## The Watcher (method `WatchJob` of package queue)

The channel `updates` is embedded as the list of updates sent on it plus a flag for
`close`.  The snapshot iterator is external: what `snapshots.Next()` returns at each
iteration is read from a list of notifications, and when the list is exhausted the
call is still blocked in `Next()`.  A notification also fixes the store the result
lookup of that iteration reads and whether the `select` takes `ctx.Done()`. -/

namespace Queue

/-- The type `JobUpdate`. -/
structure JobUpdate where
  ID : String
  Status : String
  Message : String
  ResultURL : String
  UpdatedAt : Int
deriving DecidableEq, Repr

/-- What `snapshots.Next()` returns: an error, a snapshot of a document that does not
exist, a snapshot that `DataTo` cannot decode, or a snapshot decoded to a record. -/
inductive Snapshot where
  | streamError (err : String)
  | missing
  | undecodable (err : String)
  | doc (firestoreJob : FirestoreJob)

/-- One iteration of the watch loop as the environment determines it: the snapshot,
the store and the read outcomes at the time of the result lookup, and the error of
the context when the `select` takes `ctx.Done()` instead of the send. -/
structure Notification where
  snapshot : Snapshot
  env : ReadEnv
  world : World
  cancelled : Option String

/-- The observable outcome of `WatchJob`: the updates sent, whether the channel was
closed, whether `Snapshots` was called, how many notifications the loop took from
the iterator, and the returned error (`none`: still blocked in `Next()`,
`some none`: returned nil). -/
structure WatchResult where
  updates : List JobUpdate
  closed : Bool
  subscribed : Bool
  handled : Nat
  ret : Option (Option String)

/-- The update one iteration of the watch loop builds from the decoded record: the
result URL is looked up when the status is completed. -/
def watchUpdate (jobID : String) (n : Notification) (firestoreJob : FirestoreJob) :
    JobUpdate :=
  let resultURL :=
    if firestoreJob.Status = StatusCompleted then lookupResultURL n.env n.world jobID
    else ""
  { ID := firestoreJob.ID, Status := firestoreJob.Status, Message := firestoreJob.Message,
    ResultURL := resultURL, UpdatedAt := firestoreJob.UpdatedAt }

/-- The `for` loop of `WatchJob` over the notifications still to come. -/
def watchLoop (jobID : String) : List Notification → List JobUpdate → Nat → WatchResult
  | [], updates, handled =>
    { updates := updates, closed := false, subscribed := true, handled := handled,
      ret := none }
  | n :: rest, updates, handled =>
    match n.snapshot with
    | .streamError err =>
      { updates := updates, closed := false, subscribed := true, handled := handled + 1,
        ret := some (some err) }
    | .missing =>
      { updates := updates, closed := false, subscribed := true, handled := handled + 1,
        ret := some (some "job deleted") }
    | .undecodable _ => watchLoop jobID rest updates (handled + 1)
    | .doc firestoreJob =>
      let update := watchUpdate jobID n firestoreJob
      match n.cancelled with
      | some err =>
        { updates := updates, closed := false, subscribed := true, handled := handled + 1,
          ret := some (some err) }
      | none =>
        if update.Status = StatusCompleted ∨ update.Status = StatusFailed then
          { updates := updates ++ [update], closed := false, subscribed := true,
            handled := handled + 1, ret := some none }
        else watchLoop jobID rest (updates ++ [update]) (handled + 1)

/-- The first update `WatchJob` sends, built from the handle `GetJob` returned. -/
def initialUpdate (job : Job) : JobUpdate :=
  { ID := job.ID, Status := job.Status, Message := job.Message,
    ResultURL := job.ResultURL, UpdatedAt := job.UpdatedAt }

/-- The method `WatchJob`. -/
def WatchJob (env : ReadEnv) (w : World) (jobID : String) (feed : List Notification) :
    WatchResult × World :=
  match GetJob env w jobID with
  | (none, w1) =>
    ({ updates := [], closed := false, subscribed := false, handled := 0,
       ret := some (some "job not found") }, w1)
  | (some job, w1) =>
    let initial := initialUpdate job
    if job.Status = StatusCompleted ∨ job.Status = StatusFailed then
      ({ updates := [initial], closed := true, subscribed := false, handled := 0,
         ret := some none }, w1)
    else (watchLoop jobID feed [initial] 0, w1)

end Queue

/-! ## More predicates on logs and on delivered updates -/

/-- The calls logged between world `w` and a later world `w2`. -/
def eventsSince (w w2 : World) : List Event := w2.trace.drop w.trace.length

/-- Whether a logged call is a call of the renderer. -/
def Event.isRender : Event → Bool
  | .generateSlides _ _ _ => true
  | _ => false

/-- Whether a logged call is a write of a result record. -/
def Event.isResultWrite : Event → Bool
  | .resultSet _ _ => true
  | _ => false

/-- Whether a logged call is the dispatch POST. -/
def Event.isPost : Event → Bool
  | .httpPost _ _ => true
  | _ => false

/-- The log ends with an update of job `id` to status failed with the given message,
issued by the Worker. -/
def EndsWithFailedWrite (id message : String) (evs : List Event) : Prop :=
  ∃ before updatedAt prev ok,
    evs = before ++ [.jobUpdate .worker id "failed" message updatedAt none prev ok]

/-- Whether a status is terminal. -/
def isTerminal (status : String) : Bool := status = "completed" ∨ status = "failed"

/-- The positions in the lifecycle the specification gives for watched statuses:
nothing seen yet, queued seen, processing seen, a terminal status seen. -/
inductive Phase where
  | start
  | queued
  | processing
  | terminal
deriving DecidableEq, Repr

/-- The specification's lifecycle `[queued] → processing* → (completed | failed)`,
one status at a time: `none` when the status may not follow. -/
def specLifecycleStep (ph : Phase) (status : String) : Option Phase :=
  match ph with
  | .terminal => none
  | .start =>
    if status = "queued" then some .queued
    else if status = "processing" then some .processing
    else if isTerminal status then some .terminal else none
  | .queued =>
    if status = "processing" then some .processing
    else if isTerminal status then some .terminal else none
  | .processing =>
    if status = "processing" then some .processing
    else if isTerminal status then some .terminal else none

/-- Whether the statuses can be read along the specification's lifecycle from the
given position on. -/
def specLifecycleFrom : Phase → List String → Bool
  | _, [] => true
  | ph, s :: rest =>
    match specLifecycleStep ph s with
    | none => false
    | some ph2 => specLifecycleFrom ph2 rest

/-- Whether a status sequence is a prefix of the specification's lifecycle
`[queued] → processing* → (completed | failed)`. -/
def specLifecycleAllows (statuses : List String) : Bool :=
  specLifecycleFrom .start statuses

/-- The status a notification carries, when its snapshot decodes to a record. -/
def Queue.Notification.status? (n : Queue.Notification) : Option String :=
  match n.snapshot with
  | .doc firestoreJob => some firestoreJob.Status
  | _ => none

/-- The payload `triggerSlidesService` builds for a submission. -/
def dispatchedPayload (id theme : String) (fileData : List File) (settings : SlideSettings) :
    TaskPayload :=
  { JobID := id, Theme := theme, Files := fileData.map (stagedRef id), Settings := settings }

/-- The world in which the Worker's handler starts for a submission: the record is
stored, the files are staged and the POST is logged. -/
def workerEntry (env : ProducerEnv) (w : World) (id theme : String) (fileData : List File)
    (settings : SlideSettings) : World :=
  (stagedWorld env w id theme fileData settings).log
    (.httpPost (env.serviceURL ++ "/tasks/process-slides")
      (dispatchedPayload id theme fileData settings))

/-- The name and type of a file. -/
def File.nameType (f : File) : String × String := (f.Filename, f.Typ)

/-- The name and type of a file reference. -/
def FileReference.nameType (r : FileReference) : String × String := (r.Filename, r.Typ)

/-- The same Worker environment with other outcomes of the cleanup calls. -/
def withCleanup (env : WorkerEnv) (removeErr : Nat → Option String)
    (removeAllErr : Option String) : WorkerEnv :=
  { env with removeErr := removeErr, removeAllErr := removeAllErr }

/-! ## More concrete inputs -/

/-- The payload dispatched for job "j1" with the one file `notesFile`. -/
def notesPayload : TaskPayload := dispatchedPayload "j1" "default" [notesFile] mediumGeneral

/-- The world in which the Worker receives `notesPayload`: job "j1" is queued and
`notesFile` is staged. -/
def notesEntry : World := workerEntry okProducerEnv freshWorld "j1" "default" [notesFile]
  mediumGeneral

/-- A Worker environment in which only the first read fails. -/
def firstReadFailsEnv : WorkerEnv :=
  { okWorkerEnv with readErr := fun i => if i = 0 then some "input/output error" else none }

/-- A Worker environment in which only the initial processing update fails. -/
def processingDownEnv : WorkerEnv := { okWorkerEnv with processingErr := some "unavailable" }

/-- A Worker environment in which every cleanup call fails. -/
def cleanupDownEnv : WorkerEnv :=
  { okWorkerEnv with removeErr := fun _ => some "permission denied",
                     removeAllErr := some "permission denied" }

/-- An empty world whose clock is non-decreasing and jumps ahead after the fourth
reading: 1000, 1001, 1002, 1003, then 6004, 6005 and so on. -/
def jumpWorld : World := World.empty (fun n => if n ≤ 3 then 1000 + n else 6000 + n)

/-- A read environment in which only the read of the result record fails. -/
def lookupDownEnv : ReadEnv := { okReadEnv with resultGetErr := some "unavailable" }

/-- The world after the successful submission of `notesFile` as job "j1". -/
def doneWorld : World :=
  (submit okProducerEnv none okWorkerEnv freshWorld "j1" "default" [notesFile]
    mediumGeneral).2

/-- The world after the record of job "j1" has been stored as queued. -/
def queuedWorld : World :=
  (docSetJob none "j1" (Queue.queuedRecord "j1" 1000) freshWorld.advance).2

/-- A notification that carries the given record, with no call failing and the store
as `doneWorld` has it. -/
def docNotification (firestoreJob : FirestoreJob) : Queue.Notification :=
  { snapshot := .doc firestoreJob, env := okReadEnv, world := doneWorld, cancelled := none }

/-- The record of job "j1" with the given status and message, updated at 1001. -/
def j1Record (status message : String) : FirestoreJob :=
  { ID := "j1", Status := status, Message := message, CreatedAt := 1000, UpdatedAt := 1001,
    ExpiresAt := 0 }

/-- The record of job "j1" as `doneWorld` holds it. -/
def doneRecord : FirestoreJob :=
  { ID := "j1", Status := "completed", Message := "Slides generated successfully",
    CreatedAt := 1000, UpdatedAt := 1004, ExpiresAt := 1304 }

/-- Three notifications for job "j1": a progress update, the completion, and a
further one. -/
def watchedFeed : List Queue.Notification :=
  [docNotification (j1Record "processing" "Generating slides"),
   docNotification doneRecord,
   docNotification (j1Record "processing" "Generating slides")]

/-- The notification of the completion of job "j1", handled while the read of the
result record fails. -/
def completedLookupDown : Queue.Notification :=
  { snapshot := .doc doneRecord, env := lookupDownEnv, world := doneWorld,
    cancelled := none }

/-! ## Paths and staged bytes -/

/-- A path component that `filepath.Clean` keeps as it is: not empty, not `.` and
not `..`. -/
def PlainComp (c : List Char) : Prop := c ≠ [] ∧ c ≠ ['.'] ∧ c ≠ ['.', '.']

/-- A plain file name: one path component, without a slash, that is not `.` or
`..`. -/
def PlainName (name : String) : Prop := PlainComp name.toList ∧ '/' ∉ name.toList

/-- The components `filepath.Clean` keeps of a rooted path, innermost first. -/
def cleanStack (p : List Char) : List (List Char) :=
  (splitSlash p).foldl (cleanStep true) []

/-- The volume after `os.WriteFile` has written each of the given files to its
staged path, in order. -/
def stagedFiles (id : String) (files : List File) (base : String → Option Bytes) :
    String → Option Bytes :=
  files.foldl (fun fs f => setKey fs (stagedPath id f) (some f.Data)) base

/-- A second file named "notes.txt", with other bytes than `notesFile`. -/
def notesRevised : File :=
  { Filename := "notes.txt", Data := [104, 105, 33], Typ := "text/plain" }

/-- A read environment in which the read of the job record fails. -/
def getDownEnv : ReadEnv := { okReadEnv with getErr := some "unavailable" }

/-- A read environment in which the job record cannot be decoded. -/
def decodeDownEnv : ReadEnv := { okReadEnv with decodeErr := some "cannot decode" }

/-! ## A dispatch that times out while the Worker runs

The HTTP client of the Producer has a timeout of 30 seconds (`NewService`), so
`s.httpClient.Do` can return a transport error while the Worker's handler is running
or after it has written its last update; the handler is not stopped by that (its
status updates use `context.Background()`), and `AddJob` goes on to mark the job
failed.  The two processes then write to the same job record concurrently.  This is
embedded by running the handler with a function `intr` applied to the world before
each of its external calls: what the other process has done to the world in the
meantime. -/

namespace Controllers

/-- The function `readLoop` with `intr` applied before each external call. -/
def readLoopDuring (intr : World → World) (env : WorkerEnv) (jobID : String) :
    List FileReference → Nat → List File → World → Except Response (List File) × World
  | [], _, files, w => (.ok files, w)
  | fileRef :: rest, i, files, w =>
    match osReadFile (env.readErr i) fileRef.LocalPath (intr w) with
    | (.error err, w1) =>
      let w2 := (updateJobStatus env.failedErr (intr w1) jobID "failed"
        ("Failed to read local file " ++ fileRef.Filename ++ ": " ++ err) "").2
      (.error { StatusCode := 500,
                Body := env.json [("error", "Failed to read local file: " ++ err)] }, w2)
    | (.ok fileData, w1) =>
      readLoopDuring intr env jobID rest (i + 1)
        (files ++ [{ Filename := fileRef.Filename, Data := fileData, Typ := fileRef.Typ }]) w1

/-- The function `runRender` with `intr` applied before each external call. -/
def runRenderDuring (intr : World → World) (env : WorkerEnv) (jobID : String) :
    Render → Nat → World → Except String (Bytes × Bytes) × World
  | .done pdfData htmlData, _, w => (.ok (pdfData, htmlData), w)
  | .fail err, _, w => (.error err, w)
  | .progress message next, n, w =>
    let r := updateJobStatus (env.progressErr n) (intr w) jobID "processing" message ""
    runRenderDuring intr env jobID (next r.1) (n + 1) r.2

/-- The function `cleanupLoop` with `intr` applied before each external call. -/
def cleanupLoopDuring (intr : World → World) (env : WorkerEnv) :
    List FileReference → Nat → World → World
  | [], _, w => w
  | fileRef :: rest, i, w =>
    cleanupLoopDuring intr env rest (i + 1)
      (osRemove (env.removeErr i) fileRef.LocalPath (intr w)).2

/-- The handler `ProcessSlides` with `intr` applied before each external call. -/
def ProcessSlidesDuring (intr : World → World) (env : WorkerEnv)
    (body : Except String TaskPayload) (w : World) : Response × World :=
  match body with
  | .error err =>
    ({ StatusCode := 400, Body := env.json [("error", "Invalid payload: " ++ err)] }, w)
  | .ok payload =>
    match updateJobStatus env.processingErr (intr w) payload.JobID "processing"
        "Processing slides" "" with
    | (some err, w1) =>
      ({ StatusCode := 500,
         Body := env.json [("error", "Failed to update job status: " ++ err)] }, w1)
    | (none, w1) =>
      match readLoopDuring intr env payload.JobID payload.Files 0 [] w1 with
      | (.error resp, w2) => (resp, w2)
      | (.ok files, w2) =>
        match runRenderDuring intr env payload.JobID
            (env.render payload.Theme files payload.Settings) 0
            ((intr w2).log (.generateSlides payload.Theme files payload.Settings)) with
        | (.error err, w3) =>
          let w4 := (updateJobStatus env.failedErr (intr w3) payload.JobID "failed"
            ("Failed to generate slides: " ++ err) "").2
          ({ StatusCode := 500,
             Body := env.json [("error", "Failed to generate slides: " ++ err)] }, w4)
        | (.ok (pdfData, htmlData), w3) =>
          let resultURL := "/results/" ++ payload.JobID
          match storeResult env.storeErr (intr w3) payload.JobID resultURL pdfData
              htmlData with
          | (some err, w4) =>
            let w5 := (updateJobStatus env.failedErr (intr w4) payload.JobID "failed"
              ("Failed to store result: " ++ err) "").2
            ({ StatusCode := 500,
               Body := env.json [("error", "Failed to store result: " ++ err)] }, w5)
          | (none, w4) =>
            let w5 := cleanupLoopDuring intr env payload.Files 0 w4
            let jobDir := filepathJoin ["/shared", payload.JobID]
            let w6 := (osRemoveAll env.removeAllErr jobDir (intr w5)).2
            match setJobCompleted env.completedErr (intr w6) payload.JobID
                "Slides generated successfully" resultURL with
            | (some err, w7) =>
              ({ StatusCode := 500,
                 Body := env.json [("error", "Failed to mark job as completed: " ++ err)] }, w7)
            | (none, w7) =>
              ({ StatusCode := 200,
                 Body := env.json [("status", "success"), ("jobID", payload.JobID)] }, w7)

end Controllers

/-- What `AddJob` does once its dispatch call has returned the transport error
`err`: `triggerSlidesService` wraps the error, and the job is marked failed. -/
def Queue.dispatchFailed (env : ProducerEnv) (job : Job) (err : String) (w : World) : World :=
  (Queue.updateJobStatus env w job StatusFailed
    ("Failed to trigger slides service: " ++
      ("failed to send http request to slides service: " ++ err)) "").2

/-- A dispatch call that returns the transport error `err` after the Worker's
handler has run to its end: the client gave up before the response arrived. -/
def lateTimeoutDo (err : String) (wenv : WorkerEnv) : HttpDo :=
  fun _url payload w => (.error err, (Controllers.ProcessSlides wenv (.ok payload) w).2)

/-- Whether `AddJob` gets as far as sending the request: the queued record is
stored, every file is staged, and the payload and the request are built. -/
def requestSent (env : ProducerEnv) (fileData : List File) : Bool :=
  env.setErr.isNone &&
  (List.range fileData.length).all
    (fun i => (env.mkdirErr i).isNone && (env.writeErr i).isNone) &&
  env.marshalErr.isNone && env.requestErr.isNone

/-- The Producer's side of a dispatch that times out, as the Worker's run meets it:
when the log has reached the length `point`, the dispatch call returns the
transport error and `AddJob` makes its failed write; otherwise nothing happens. -/
def clientTimeout (env : ProducerEnv) (job : Job) (err : String) (point : Nat)
    (w : World) : World :=
  if w.trace.length = point then Queue.dispatchFailed env job err w else w

/-- The method `AddJob` with the Worker behind a dispatch call that reaches the
Worker and returns the transport error `err` to the Producer after the Worker has
made `calls` external calls; the Worker's handler runs to its end.  When the
handler makes no more than `calls` calls, the error arrives after its last call.
When `AddJob` does not get as far as sending the request, the Worker is not
involved. -/
def submitTimedOut (env : ProducerEnv) (err : String) (calls : Nat) (wenv : WorkerEnv)
    (w : World) (id theme : String) (fileData : List File) (settings : SlideSettings) :
    World :=
  if requestSent env fileData then
    let entry := workerEntry env w id theme fileData settings
    let job := Queue.queuedJob id theme fileData settings w.now
    let point := entry.trace.length + calls
    let done := (Controllers.ProcessSlidesDuring (clientTimeout env job err point) wenv
      (.ok (dispatchedPayload id theme fileData settings)) entry).2
    if done.trace.length ≤ point then Queue.dispatchFailed env job err done else done
  else (submit env (some err) wenv w id theme fileData settings).2

/-- Who issued a logged job-record write: the initial `Set` is the Producer's. -/
def Event.writer : Event → Option Actor
  | .jobSet _ _ _ => some .producer
  | .jobUpdate actor _ _ _ _ _ _ _ => some actor
  | _ => none

/-- The moves of a job status that occur when the dispatch may time out: those of
`Allowed`, the Producer's failed write on a record the Worker has completed, and
the Worker's updates to processing and to completed on a record the Producer has
marked failed. -/
def TimedAllowed (writer : Actor) (prev : Option String) (status : String) : Prop :=
  Allowed prev status ∨
  (writer = .producer ∧ prev = some "completed" ∧ status = "failed") ∨
  (writer = .worker ∧ prev = some "failed" ∧ (status = "processing" ∨ status = "completed"))

instance (writer : Actor) (prev : Option String) (status : String) :
    Decidable (TimedAllowed writer prev status) := by
  unfold TimedAllowed; infer_instance

/-- A logged call is a timed move when it is no job-record write or writes a status
that is a move of `TimedAllowed` for its writer from the status the record had. -/
def TimedMove : Event → Prop
  | .jobSet rec prev _ => TimedAllowed .producer prev rec.Status
  | .jobUpdate actor _ status _ _ _ prev _ => TimedAllowed actor prev status
  | _ => True

/-- The calls made for job `id` from the moment its request has been sent that
times out: the Worker's reads, render, result write and cleanup, its status updates
of that job along its own moves or on a record found failed, and the Producer's
failed write. -/
def TimedEv (id : String) : Event → Prop
  | .jobUpdate .worker id' status _ _ _ prev _ =>
    id' = id ∧ (WAllowed prev status ∨
      (prev = some "failed" ∧
        (status = "processing" ∨ status = "completed" ∨ status = "failed")))
  | .jobUpdate .producer id' status _ _ _ prev _ =>
    id' = id ∧ status = "failed" ∧
      (prev = some "queued" ∨ prev = some "processing" ∨ prev = some "completed" ∨
        prev = some "failed")
  | .readFile _ _ => True
  | .generateSlides _ _ _ => True
  | .resultSet _ _ => True
  | .remove _ _ => True
  | .removeAll _ _ => True
  | _ => False

/-- The record of job `id` is stored with one of the four statuses. -/
def Created (id : String) (w : World) : Prop :=
  w.status id = some "queued" ∨ w.status id = some "processing" ∨
  w.status id = some "completed" ∨ w.status id = some "failed"

/-- The record of job `id` is as the Worker can find it before its first update:
queued, or marked failed by the Producer. -/
def Unstarted (id : String) (w : World) : Prop :=
  w.status id = some "queued" ∨ w.status id = some "failed"

/-- The record of job `id` is as the Worker can find it between its first update and
its last: processing, or marked failed by the Producer. -/
def Running (id : String) (w : World) : Prop :=
  w.status id = some "processing" ∨ w.status id = some "failed"

/-- What may happen between two calls of the Worker while it serves job `id` whose
dispatch times out: only calls of `TimedEv` are logged, and a record that is
unstarted, running or created stays so. -/
def Interrupts (id : String) (intr : World → World) : Prop :=
  ∀ v, Created id v →
    (∃ evs, (intr v).trace = v.trace ++ evs ∧ ∀ e ∈ evs, TimedEv id e) ∧
    Created id (intr v) ∧ (Unstarted id v → Unstarted id (intr v)) ∧
    (Running id v → Running id (intr v))

/-- The log holds a delete of the result record of job `id` that went through. -/
def ResultDeleted (id : String) (t : List Event) : Prop := Event.resultDelete id true ∈ t

/-- A logged call stores status completed in no job record. -/
def NoCompletion (e : Event) : Prop := ∀ k, e.statusWritten k ≠ some "completed"

/-- Nothing has happened to the result records from `w` to `w2`, and no call logged
in between has stored status completed. -/
def Quiet (w w2 : World) : Prop :=
  w2.results = w.results ∧ ∃ evs, w2.trace = w.trace ++ evs ∧ ∀ e ∈ evs, NoCompletion e

/-- How the result records of `w2` relate to those of `w` and to the calls logged in
between: a record that is new carries the result URL of its job, and a completion
write for that job was logged, stored or rejected; a record that is gone was deleted;
and a job whose status was set to completed has a result record unless it was
deleted. -/
def StepEffect (w w2 : World) : Prop :=
  ∃ evs, w2.trace = w.trace ++ evs ∧ ∀ k,
    (∀ res, w2.results k = some res → w.results k = some res ∨
      (res.ResultURL = "/results/" ++ k ∧
        ("completed" ∈ statusHistory k evs ∨ CompletionFailed k evs))) ∧
    (w2.results k = none → w.results k = none ∨ ResultDeleted k evs) ∧
    ("completed" ∈ statusHistory k evs → (w2.results k).isSome ∨ ResultDeleted k evs)

/-- The worlds reachable from an empty one by operations of the Producer and the
Worker, each run to its end: a submission, for any job id, whose dispatch is
answered by the Worker or does not reach it; a submission whose dispatch times out
while the Worker runs; a run of the Worker's handler on any request body; `GetJob`;
`GetResult`; `WatchJob`. -/
inductive Reachable : World → Prop where
  | empty (clock : Nat → Int) : Reachable (World.empty clock)
  | submitted (env : ProducerEnv) (doErr : Option String) (wenv : WorkerEnv) (w : World)
      (id theme : String) (files : List File) (settings : SlideSettings) :
      Reachable w → Reachable (submit env doErr wenv w id theme files settings).2
  | timedOut (env : ProducerEnv) (err : String) (calls : Nat) (wenv : WorkerEnv) (w : World)
      (id theme : String) (files : List File) (settings : SlideSettings) :
      Reachable w → Reachable (submitTimedOut env err calls wenv w id theme files settings)
  | processed (wenv : WorkerEnv) (body : Except String TaskPayload) (w : World) :
      Reachable w → Reachable (Controllers.ProcessSlides wenv body w).2
  | gotJob (env : ReadEnv) (w : World) (id : String) :
      Reachable w → Reachable (Queue.GetJob env w id).2
  | gotResult (env : ReadEnv) (w : World) (id : String) :
      Reachable w → Reachable (Queue.GetResult env w id).2
  | watched (env : ReadEnv) (w : World) (id : String) (feed : List Queue.Notification) :
      Reachable w → Reachable (Queue.WatchJob env w id feed).2

/-- The world after a submission of `notesFile` as job "j1" whose dispatch times out
after the Worker's last call, followed by a `GetJob` and a `GetResult` for the
job. -/
def timedOutThenRead : World :=
  (Queue.GetResult okReadEnv (Queue.GetJob okReadEnv
    (submitTimedOut okProducerEnv "timeout" 100 okWorkerEnv freshWorld "j1" "default"
      [notesFile] mediumGeneral) "j1").2 "j1").2

/-- A Worker environment in which the renderer fails after one progress report. -/
def renderFailsEnv : WorkerEnv :=
  { okWorkerEnv with
    render := fun _ _ _ => .progress "Generating slides" (fun _ => .fail "model overloaded") }

/-- An empty world whose clock shows 1000, 1001 and so on for the first five
readings and jumps ahead by more than an hour after them. -/
def lateWorld : World := World.empty (fun n => if n ≤ 4 then 1000 + n else 9000 + n)

/-! ## Effects of the primitive calls -/

theorem pair_of_fst {α β : Type} {a : α × β} {x : α} (h : a.1 = x) : a = (x, a.2) := by
  cases a
  simp only at h
  rw [h]

/-- The log of `w2` is the log of `w1` followed by events that all satisfy `P`. -/
def Extends (P : Event → Prop) (w1 w2 : World) : Prop :=
  ∃ evs, w2.trace = w1.trace ++ evs ∧ ∀ e ∈ evs, P e

theorem Extends.refl (P : Event → Prop) (w : World) : Extends P w w :=
  ⟨[], by simp, by simp⟩

theorem Extends.trans {P : Event → Prop} {w1 w2 w3 : World}
    (h12 : Extends P w1 w2) (h23 : Extends P w2 w3) : Extends P w1 w3 := by
  obtain ⟨e1, t1, p1⟩ := h12
  obtain ⟨e2, t2, p2⟩ := h23
  refine ⟨e1 ++ e2, by rw [t2, t1, List.append_assoc], ?_⟩
  intro e he
  rcases List.mem_append.mp he with h | h
  · exact p1 e h
  · exact p2 e h

theorem Extends.mono {P Q : Event → Prop} {w1 w2 : World} (hPQ : ∀ e, P e → Q e)
    (h : Extends P w1 w2) : Extends Q w1 w2 := by
  obtain ⟨evs, t, p⟩ := h
  exact ⟨evs, t, fun e he => hPQ e (p e he)⟩

theorem Extends.one {P : Event → Prop} {w1 w2 : World} {e : Event}
    (ht : w2.trace = w1.trace ++ [e]) (he : P e) : Extends P w1 w2 :=
  ⟨[e], ht, by simpa using he⟩

theorem Extends.filter {P : Event → Prop} {w1 w2 : World} (f : Event → Bool)
    (h : Extends P w1 w2) (hf : ∀ e, P e → f e = false) :
    w2.trace.filter f = w1.trace.filter f := by
  obtain ⟨evs, t, p⟩ := h
  rw [t, List.filter_append]
  have : evs.filter f = [] := by
    rw [List.filter_eq_nil_iff]
    intro e he
    simp [hf e (p e he)]
  rw [this, List.append_nil]

theorem extends_mem {P : Event → Prop} {w1 w2 : World} (h : Extends P w1 w2) {e : Event}
    (he : e ∈ w1.trace) : e ∈ w2.trace := by
  obtain ⟨evs, t, _⟩ := h
  rw [t]
  exact List.mem_append_left _ he

theorem completionFailed_mono {P : Event → Prop} {w1 w2 : World} {id : String}
    (h : Extends P w1 w2) (hc : CompletionFailed id w1.trace) :
    CompletionFailed id w2.trace := by
  obtain ⟨m, t, x, p, hmem⟩ := hc
  exact ⟨m, t, x, p, extends_mem h hmem⟩

theorem docUpdateJob_results (a : Actor) (f : Option String) (id st msg : String) (t : Int)
    (x : Option Int) (w : World) : (docUpdateJob a f id st msg t x w).2.results = w.results := by
  unfold docUpdateJob
  split
  · rfl
  · split <;> rfl

theorem docUpdateJob_trace (a : Actor) (f : Option String) (id st msg : String) (t : Int)
    (x : Option Int) (w : World) :
    (docUpdateJob a f id st msg t x w).2.trace =
      w.trace ++ [.jobUpdate a id st msg t x (w.status id) (docUpdateJob a f id st msg t x w).1.isNone] := by
  unfold docUpdateJob
  split
  · rfl
  · split <;> rfl

theorem docUpdateJob_ok (a : Actor) (f : Option String) (id st msg : String) (t : Int)
    (x : Option Int) (w : World) (h : (docUpdateJob a f id st msg t x w).1 = none) :
    (docUpdateJob a f id st msg t x w).2.status id = some st := by
  unfold docUpdateJob at h ⊢
  split at h
  · simp at h
  · split at h
    · simp at h
    · simp [World.status, setKey]

theorem docUpdateJob_err (a : Actor) (f : Option String) (id st msg : String) (t : Int)
    (x : Option Int) (w : World) (h : (docUpdateJob a f id st msg t x w).1 ≠ none) :
    (docUpdateJob a f id st msg t x w).2.jobs = w.jobs := by
  unfold docUpdateJob at h ⊢
  split
  · rfl
  · split
    · rfl
    · rename_i hf j hj
      simp [hj] at h

theorem docUpdateJob_none_iff (a : Actor) (f : Option String) (id st msg : String) (t : Int)
    (x : Option Int) (w : World) :
    (docUpdateJob a f id st msg t x w).1 = none ↔ f = none ∧ (w.jobs id).isSome := by
  unfold docUpdateJob
  split
  · simp
  · split <;> simp [*]


theorem workerEv_forward {id : String} {e : Event} (h : WorkerEv id e) : Forward e := by
  cases e <;> simp_all [WorkerEv, Forward]
  rename_i a _ _ _ _ _ _ _
  cases a <;> simp_all [WorkerEv, Allowed]

theorem workerEv_not_producer {id : String} {e : Event} (h : WorkerEv id e) :
    e.isProducerJobWrite = false := by
  cases e <;> simp_all [WorkerEv, Event.isProducerJobWrite]
  rename_i a _ _ _ _ _ _ _
  cases a <;> simp_all [WorkerEv, Event.isProducerJobWrite]

namespace Controllers

theorem updateJobStatus_effect (f : Option String) (w : World) (id st msg url s : String)
    (hs : w.status id = some s) (hA : WAllowed (some s) st) :
    Extends (WorkerEv id) w (updateJobStatus f w id st msg url).2 ∧
    (updateJobStatus f w id st msg url).2.results = w.results ∧
    (((updateJobStatus f w id st msg url).1 = none ∧ f = none ∧
        (updateJobStatus f w id st msg url).2.status id = some st) ∨
     ((updateJobStatus f w id st msg url).1 ≠ none ∧ f ≠ none ∧
        (updateJobStatus f w id st msg url).2.status id = some s)) := by
  have hs' : w.advance.status id = some s := hs
  refine ⟨?_, ?_, ?_⟩
  · refine Extends.one (docUpdateJob_trace _ _ _ _ _ _ _ _) ?_
    simp only [WorkerEv, hs', true_and]
    exact hA
  · exact docUpdateJob_results _ _ _ _ _ _ _ _
  · unfold updateJobStatus
    by_cases h : (docUpdateJob .worker f id st msg w.now none w.advance).1 = none
    · left
      refine ⟨h, ((docUpdateJob_none_iff _ _ _ _ _ _ _ _).mp h).1, docUpdateJob_ok _ _ _ _ _ _ _ _ h⟩
    · right
      refine ⟨h, ?_, ?_⟩
      · intro hf
        apply h
        rw [docUpdateJob_none_iff]
        refine ⟨hf, ?_⟩
        simp only [World.status, Option.map_eq_some'] at hs'
        obtain ⟨j, hj, _⟩ := hs'
        simp [hj]
      · simp only [World.status, docUpdateJob_err _ _ _ _ _ _ _ _ h]
        exact hs'




theorem setJobCompleted_effect (f : Option String) (w : World) (id msg url : String)
    (hs : w.status id = some "processing") :
    Extends (WorkerEv id) w (setJobCompleted f w id msg url).2 ∧
    (setJobCompleted f w id msg url).2.results = w.results ∧
    (((setJobCompleted f w id msg url).1 = none ∧ f = none ∧
        (setJobCompleted f w id msg url).2.status id = some "completed") ∨
     ((setJobCompleted f w id msg url).1 ≠ none ∧ f ≠ none ∧
        (setJobCompleted f w id msg url).2.status id = some "processing")) := by
  have hs' : w.advance.status id = some "processing" := hs
  refine ⟨?_, ?_, ?_⟩
  · refine Extends.one (docUpdateJob_trace _ _ _ _ _ _ _ _) ?_
    simp [WorkerEv, hs', WAllowed]
  · exact docUpdateJob_results _ _ _ _ _ _ _ _
  · unfold setJobCompleted
    by_cases h : (docUpdateJob .worker f id "completed" msg w.now (some (w.now + 300))
        w.advance).1 = none
    · left
      exact ⟨h, ((docUpdateJob_none_iff _ _ _ _ _ _ _ _).mp h).1,
        docUpdateJob_ok _ _ _ _ _ _ _ _ h⟩
    · right
      refine ⟨h, ?_, ?_⟩
      · intro hf
        apply h
        rw [docUpdateJob_none_iff]
        refine ⟨hf, ?_⟩
        simp only [World.status, Option.map_eq_some'] at hs'
        obtain ⟨j, hj, _⟩ := hs'
        simp [hj]
      · simp only [World.status, docUpdateJob_err _ _ _ _ _ _ _ _ h]
        exact hs'

theorem setJobCompleted_failed (f : Option String) (w : World) (id msg url : String)
    (h : (setJobCompleted f w id msg url).1 ≠ none) :
    CompletionFailed id (setJobCompleted f w id msg url).2.trace := by
  refine ⟨msg, w.now, some (w.now + 300), w.advance.status id, ?_⟩
  unfold setJobCompleted at h ⊢
  simp only at h ⊢
  rw [docUpdateJob_trace]
  cases hx : (docUpdateJob .worker f id "completed" msg w.now (some (w.now + 300))
      w.advance).1 with
  | none => exact absurd hx h
  | some e => simp

theorem storeResult_effect (f : Option String) (w : World) (id url : String)
    (pdf html : Bytes) :
    Extends (WorkerEv id) w (storeResult f w id url pdf html).2 ∧
    (storeResult f w id url pdf html).2.jobs = w.jobs ∧
    (((storeResult f w id url pdf html).1 = none ∧
        (storeResult f w id url pdf html).2.results id =
          some { ID := id, ResultURL := url, PDFData := pdf, HTMLData := html,
                 CreatedAt := w.now, ExpiresAt := w.now + 3600 }) ∨
     ((storeResult f w id url pdf html).1 ≠ none ∧
        (storeResult f w id url pdf html).2.results = w.results)) := by
  unfold storeResult docSetResult
  cases f with
  | some e =>
    refine ⟨Extends.one rfl (by simp [WorkerEv]), rfl, Or.inr ⟨by simp, rfl⟩⟩
  | none =>
    refine ⟨Extends.one rfl (by simp [WorkerEv]), rfl, Or.inl ⟨rfl, by simp [setKey]⟩⟩

theorem osReadFile_effect (id : String) (f : Option String) (path : String) (w : World) :
    Extends (WorkerEv id) w (osReadFile f path w).2 ∧
    (osReadFile f path w).2.jobs = w.jobs ∧ (osReadFile f path w).2.results = w.results := by
  unfold osReadFile
  cases f with
  | some e => exact ⟨Extends.one rfl (by simp [WorkerEv]), rfl, rfl⟩
  | none =>
    cases w.files path with
    | none => exact ⟨Extends.one rfl (by simp [WorkerEv]), rfl, rfl⟩
    | some d => exact ⟨Extends.one rfl (by simp [WorkerEv]), rfl, rfl⟩

theorem osRemove_effect (id : String) (f : Option String) (path : String) (w : World) :
    Extends (WorkerEv id) w (osRemove f path w).2 ∧
    (osRemove f path w).2.jobs = w.jobs ∧ (osRemove f path w).2.results = w.results := by
  unfold osRemove
  cases f with
  | some e => exact ⟨Extends.one rfl (by simp [WorkerEv]), rfl, rfl⟩
  | none =>
    cases w.files path with
    | none => exact ⟨Extends.one rfl (by simp [WorkerEv]), rfl, rfl⟩
    | some d => exact ⟨Extends.one rfl (by simp [WorkerEv]), rfl, rfl⟩

theorem osRemoveAll_effect (id : String) (f : Option String) (dir : String) (w : World) :
    Extends (WorkerEv id) w (osRemoveAll f dir w).2 ∧
    (osRemoveAll f dir w).2.jobs = w.jobs ∧ (osRemoveAll f dir w).2.results = w.results := by
  unfold osRemoveAll
  cases f with
  | some e => exact ⟨Extends.one rfl (by simp [WorkerEv]), rfl, rfl⟩
  | none => exact ⟨Extends.one rfl (by simp [WorkerEv]), rfl, rfl⟩

theorem cleanupLoop_effect (env : WorkerEnv) (id : String) (refs : List FileReference) :
    ∀ (i : Nat) (w : World),
      Extends (WorkerEv id) w (cleanupLoop env refs i w) ∧
      (cleanupLoop env refs i w).jobs = w.jobs ∧
      (cleanupLoop env refs i w).results = w.results := by
  induction refs with
  | nil => intro i w; exact ⟨Extends.refl _ _, rfl, rfl⟩
  | cons r rest ih =>
    intro i w
    obtain ⟨e1, j1, r1⟩ := osRemove_effect id (env.removeErr i) r.LocalPath w
    obtain ⟨e2, j2, r2⟩ := ih (i + 1) (osRemove (env.removeErr i) r.LocalPath w).2
    exact ⟨e1.trans e2, j2.trans j1, r2.trans r1⟩

theorem runRender_effect (env : WorkerEnv) (id : String) (rd : Render) :
    ∀ (n : Nat) (w : World), w.status id = some "processing" →
      Extends (WorkerEv id) w (runRender env id rd n w).2 ∧
      (runRender env id rd n w).2.results = w.results ∧
      (runRender env id rd n w).2.status id = some "processing" := by
  induction rd with
  | done pdf html => intro n w hs; exact ⟨Extends.refl _ _, rfl, hs⟩
  | fail err => intro n w hs; exact ⟨Extends.refl _ _, rfl, hs⟩
  | progress msg next ih =>
    intro n w hs
    obtain ⟨e1, r1, h1⟩ := updateJobStatus_effect (env.progressErr n) w id "processing" msg ""
      "processing" hs (by simp [WAllowed])
    have hs1 : (updateJobStatus (env.progressErr n) w id "processing" msg "").2.status id =
        some "processing" := by
      rcases h1 with h | h
      · exact h.2.2
      · exact h.2.2
    obtain ⟨e2, r2, h2⟩ := ih _ (n + 1) _ hs1
    exact ⟨e1.trans e2, r2.trans r1, h2⟩

theorem readLoop_effect (env : WorkerEnv) (id : String) (refs : List FileReference) :
    ∀ (i : Nat) (files : List File) (w : World), w.status id = some "processing" →
      Extends (WorkerEv id) w (readLoop env id refs i files w).2 ∧
      (readLoop env id refs i files w).2.results = w.results ∧
      ((∃ fs, (readLoop env id refs i files w).1 = .ok fs ∧
          (readLoop env id refs i files w).2.status id = some "processing") ∨
       (∃ resp, (readLoop env id refs i files w).1 = .error resp ∧ resp.StatusCode = 500 ∧
          ((readLoop env id refs i files w).2.status id = some "processing" ∨
           (readLoop env id refs i files w).2.status id = some "failed"))) := by
  induction refs with
  | nil => intro i files w hs; exact ⟨Extends.refl _ _, rfl, Or.inl ⟨files, rfl, hs⟩⟩
  | cons r rest ih =>
    intro i files w hs
    obtain ⟨e1, j1, r1⟩ := osReadFile_effect id (env.readErr i) r.LocalPath w
    have hs1 : (osReadFile (env.readErr i) r.LocalPath w).2.status id = some "processing" := by
      simp only [World.status, j1]; exact hs
    unfold readLoop
    split
    · rename_i err w1 heq
      have hw : w1 = (osReadFile (env.readErr i) r.LocalPath w).2 := by rw [heq]
      subst hw
      obtain ⟨e2, r2, h2⟩ := updateJobStatus_effect env.failedErr
        (osReadFile (env.readErr i) r.LocalPath w).2 id "failed"
        ("Failed to read local file " ++ r.Filename ++ ": " ++ err) "" "processing" hs1
        (by simp [WAllowed])
      refine ⟨e1.trans e2, r2.trans r1, Or.inr ⟨_, rfl, rfl, ?_⟩⟩
      rcases h2 with h | h
      · exact Or.inr h.2.2
      · exact Or.inl h.2.2
    · rename_i d w1 heq
      have hw : w1 = (osReadFile (env.readErr i) r.LocalPath w).2 := by rw [heq]
      subst hw
      obtain ⟨e2, r2, h2⟩ := ih (i + 1)
        (files ++ [{ Filename := r.Filename, Data := d, Typ := r.Typ }]) _ hs1
      exact ⟨e1.trans e2, r2.trans r1, h2⟩




/-- What one run of the handler does to a job it finds queued: it only logs Worker
calls, and it answers 200 with the job completed and its result stored, or 500
with the job not completed and a result stored only if the completion write failed. -/
theorem ProcessSlides_effect (env : WorkerEnv) (p : TaskPayload) (w : World)
    (hq : w.status p.JobID = some "queued") :
    Extends (WorkerEv p.JobID) w (ProcessSlides env (.ok p) w).2 ∧
    (((ProcessSlides env (.ok p) w).1.StatusCode = 200 ∧
        (ProcessSlides env (.ok p) w).2.status p.JobID = some "completed" ∧
        env.completedErr = none ∧
        ∃ res, (ProcessSlides env (.ok p) w).2.results p.JobID = some res ∧
          res.ResultURL = "/results/" ++ p.JobID) ∨
     ((ProcessSlides env (.ok p) w).1.StatusCode = 500 ∧
        ((ProcessSlides env (.ok p) w).2.status p.JobID = some "queued" ∨
         (ProcessSlides env (.ok p) w).2.status p.JobID = some "processing" ∨
         (ProcessSlides env (.ok p) w).2.status p.JobID = some "failed") ∧
        ((ProcessSlides env (.ok p) w).2.results p.JobID = w.results p.JobID ∨
          CompletionFailed p.JobID (ProcessSlides env (.ok p) w).2.trace))) := by
  unfold ProcessSlides
  simp only
  obtain ⟨e1, r1, h1⟩ := updateJobStatus_effect env.processingErr w p.JobID "processing"
    "Processing slides" "" "queued" hq (by simp [WAllowed])
  split
  · -- the processing write failed
    rename_i err w1 heq
    rw [heq] at e1 r1 h1
    simp only [reduceCtorEq, false_and, ne_eq, not_false_eq_true, true_and, false_or] at h1
    exact ⟨e1, Or.inr ⟨rfl, Or.inl h1.2, Or.inl (by rw [r1])⟩⟩
  · rename_i w1 heq
    rw [heq] at e1 r1 h1
    simp only [true_and, ne_eq, not_true_eq_false, false_and, or_false] at h1
    obtain ⟨e2, r2, h2⟩ := readLoop_effect env p.JobID p.Files 0 [] w1 h1.2
    split
    · -- a read failed
      rename_i resp w2 heq2
      rw [heq2] at e2 r2 h2
      simp only [reduceCtorEq, false_and, exists_false, Except.error.injEq, false_or] at h2
      obtain ⟨resp', hr, hc, hst⟩ := h2
      subst hr
      exact ⟨e1.trans e2, Or.inr ⟨hc, Or.inr hst, Or.inl (by rw [r2, r1])⟩⟩
    · rename_i files w2 heq2
      rw [heq2] at e2 r2 h2
      simp only [Except.ok.injEq, reduceCtorEq, false_and, exists_false, or_false] at h2
      obtain ⟨_, _, h2⟩ := h2
      have e2' : Extends (WorkerEv p.JobID) w2
          (w2.log (.generateSlides p.Theme files p.Settings)) :=
        Extends.one rfl (by simp [WorkerEv])
      obtain ⟨e3, r3, h3⟩ := runRender_effect env p.JobID
        (env.render p.Theme files p.Settings) 0
        (w2.log (.generateSlides p.Theme files p.Settings)) h2
      have e123 := ((e1.trans e2).trans e2').trans e3
      split
      · -- the render failed
        rename_i err w3 heq3
        rw [heq3] at e123 r3 h3
        obtain ⟨e4, r4, h4⟩ := updateJobStatus_effect env.failedErr w3 p.JobID "failed"
          ("Failed to generate slides: " ++ err) "" "processing" h3 (by simp [WAllowed])
        refine ⟨e123.trans e4, Or.inr ⟨rfl, ?_, Or.inl ?_⟩⟩
        · rcases h4 with h | h
          · exact Or.inr (Or.inr h.2.2)
          · exact Or.inr (Or.inl h.2.2)
        · rw [r4, r3]; simp only [World.log]; rw [r2, r1]
      · rename_i pdf html w3 heq3
        rw [heq3] at e123 r3 h3
        obtain ⟨e4, j4, h4⟩ := storeResult_effect env.storeErr w3
          p.JobID ("/results/" ++ p.JobID) pdf html
        have hs4 : (storeResult env.storeErr w3 p.JobID ("/results/" ++ p.JobID)
            pdf html).2.status p.JobID = some "processing" := by
          simp only [World.status, j4]; exact h3
        split
        · -- the result write failed
          rename_i err w4 heq4
          rw [heq4] at e4 j4 h4 hs4
          simp only [reduceCtorEq, false_and, ne_eq, not_false_eq_true, true_and,
            false_or] at h4
          obtain ⟨e5, r5, h5⟩ := updateJobStatus_effect env.failedErr w4 p.JobID "failed"
            ("Failed to store result: " ++ err) "" "processing" hs4 (by simp [WAllowed])
          refine ⟨(e123.trans e4).trans e5, Or.inr ⟨rfl, ?_, Or.inl ?_⟩⟩
          · rcases h5 with h | h
            · exact Or.inr (Or.inr h.2.2)
            · exact Or.inr (Or.inl h.2.2)
          · rw [r5, h4, r3]; simp only [World.log]; rw [r2, r1]
        · rename_i w4 heq4
          rw [heq4] at e4 j4 h4 hs4
          simp only [true_and, ne_eq, not_true_eq_false, false_and, or_false] at h4
          obtain ⟨e5, j5, r5⟩ := cleanupLoop_effect env p.JobID p.Files 0 w4
          obtain ⟨e6, j6, r6⟩ := osRemoveAll_effect p.JobID env.removeAllErr
            (filepathJoin ["/shared", p.JobID]) (cleanupLoop env p.Files 0 w4)
          have hs6 : (osRemoveAll env.removeAllErr (filepathJoin ["/shared", p.JobID])
              (cleanupLoop env p.Files 0 w4)).2.status p.JobID = some "processing" := by
            simp only [World.status, j6, j5]; exact hs4
          obtain ⟨e7, r7, h7⟩ := setJobCompleted_effect env.completedErr _ p.JobID
            "Slides generated successfully" ("/results/" ++ p.JobID) hs6
          have c7 := setJobCompleted_failed env.completedErr
            (osRemoveAll env.removeAllErr (filepathJoin ["/shared", p.JobID])
              (cleanupLoop env p.Files 0 w4)).2 p.JobID
            "Slides generated successfully" ("/results/" ++ p.JobID)
          have eall := (((e123.trans e4).trans e5).trans e6).trans e7
          split
          · -- the completion write failed
            rename_i err w7 heq7
            rw [heq7] at eall h7 c7
            simp only [reduceCtorEq, false_and, ne_eq, not_false_eq_true, true_and,
              false_or] at h7
            exact ⟨eall, Or.inr ⟨rfl, Or.inr (Or.inl h7.2), Or.inr (c7 (by simp))⟩⟩
          · rename_i w7 heq7
            rw [heq7] at eall h7 r7
            simp only [true_and, ne_eq, not_true_eq_false, false_and, or_false] at h7
            refine ⟨eall, Or.inl ⟨rfl, h7.2, h7.1,
              { ID := p.JobID, ResultURL := "/results/" ++ p.JobID, PDFData := pdf,
                HTMLData := html, CreatedAt := w3.now, ExpiresAt := w3.now + 3600 }, ?_, rfl⟩⟩
            simp only at r7
            rw [r7, r6, r5]
            exact h4

end Controllers

/-! ## Effects of the Producer's steps -/

theorem dispatchEv_of_worker {id : String} {e : Event} (h : WorkerEv id e) :
    DispatchEv id e := by
  cases e <;> simp_all [DispatchEv, WorkerEv]

theorem dispatchEv_forward {id : String} {e : Event} (h : DispatchEv id e) : Forward e := by
  cases e
  case httpPost => simp [Forward]
  all_goals exact @workerEv_forward id _ (by simpa [DispatchEv] using h)

theorem dispatchEv_not_producer {id : String} {e : Event} (h : DispatchEv id e) :
    e.isProducerJobWrite = false := by
  cases e
  case httpPost => rfl
  all_goals exact @workerEv_not_producer id _ (by simpa [DispatchEv] using h)

theorem stageEvents_not_producer (id : String) (fs : List File) :
    producerJobWrites (stageEvents id fs) = [] := by
  induction fs with
  | nil => rfl
  | cons f rest ih =>
    simp only [producerJobWrites] at ih
    simp [stageEvents, producerJobWrites, Event.isProducerJobWrite, ih]

namespace Queue

theorem updateJobStatus_fst (env : ProducerEnv) (w : World) (job : Job) (st msg : String) :
    (updateJobStatus env w job st msg "").1 =
      { job with Status := st, Message := msg, UpdatedAt := w.now } := by
  simp [updateJobStatus]

theorem updateJobStatus_trace (env : ProducerEnv) (w : World) (job : Job)
    (st msg url : String) :
    (updateJobStatus env w job st msg url).2.trace =
      w.trace ++ [.jobUpdate .producer job.ID st msg w.now none (w.status job.ID)
        (docUpdateJob .producer env.updateErr job.ID st msg w.now none w.advance).1.isNone] := by
  simp only [updateJobStatus]
  exact docUpdateJob_trace _ _ _ _ _ _ _ _

theorem updateJobStatus_results (env : ProducerEnv) (w : World) (job : Job)
    (st msg url : String) : (updateJobStatus env w job st msg url).2.results = w.results := by
  simp only [updateJobStatus]
  exact docUpdateJob_results _ _ _ _ _ _ _ _

theorem updateJobStatus_status (env : ProducerEnv) (w : World) (job : Job)
    (st msg url : String) :
    (updateJobStatus env w job st msg url).2.status job.ID = some st ∨
    (updateJobStatus env w job st msg url).2.status job.ID = w.status job.ID := by
  simp only [updateJobStatus]
  by_cases h : (docUpdateJob .producer env.updateErr job.ID st msg w.now none w.advance).1 = none
  · exact Or.inl (docUpdateJob_ok _ _ _ _ _ _ _ _ h)
  · right
    simp only [World.status, docUpdateJob_err _ _ _ _ _ _ _ _ h]
    rfl

theorem updateJobStatus_status_ok (env : ProducerEnv) (w : World) (job : Job)
    (st msg url : String) (hu : env.updateErr = none) (hj : (w.jobs job.ID).isSome) :
    (updateJobStatus env w job st msg url).2.status job.ID = some st := by
  simp only [updateJobStatus]
  apply docUpdateJob_ok
  rw [docUpdateJob_none_iff]
  exact ⟨hu, hj⟩

theorem saveFileLocally_ok (env : ProducerEnv) (i : Nat) (w : World) (id : String)
    (file : File) (hm : env.mkdirErr i = none) (hw : env.writeErr i = none) :
    saveFileLocally env i w id file =
      (.ok (stagedPath id file),
        { w with
          files := setKey w.files (stagedPath id file) (some file.Data),
          dirs := fun p => if p = jobDir id then true else w.dirs p,
          trace := w.trace ++ [.mkdirAll (jobDir id) true,
            .writeFile (stagedPath id file) file.Data true] }) := by
  simp [saveFileLocally, osMkdirAll, osWriteFile, hm, hw, stagedPath, jobDir]

theorem stageLoop_ok (env : ProducerEnv) (id : String) (job : Job) (files : List File) :
    ∀ (i : Nat) (refs : List FileReference) (w : World),
      (∀ m < files.length, env.mkdirErr (i + m) = none ∧ env.writeErr (i + m) = none) →
      (stageLoop env id job files i refs w).1 = .ok (refs ++ files.map (stagedRef id)) ∧
      (stageLoop env id job files i refs w).2.jobs = w.jobs ∧
      (stageLoop env id job files i refs w).2.results = w.results ∧
      (stageLoop env id job files i refs w).2.clock = w.clock ∧
      (stageLoop env id job files i refs w).2.tick = w.tick ∧
      (stageLoop env id job files i refs w).2.trace = w.trace ++ stageEvents id files := by
  induction files with
  | nil => intro i refs w _; simp [stageLoop, stageEvents]
  | cons f rest ih =>
    intro i refs w h
    have h0 := h 0 (by simp)
    simp only [Nat.add_zero] at h0
    have hrest : ∀ m < rest.length,
        env.mkdirErr (i + 1 + m) = none ∧ env.writeErr (i + 1 + m) = none := by
      intro m hm
      have := h (m + 1) (by simp; omega)
      rwa [show i + (m + 1) = i + 1 + m by omega] at this
    unfold stageLoop
    rw [saveFileLocally_ok env i w id f h0.1 h0.2]
    simp only
    obtain ⟨a, b, c, d, e, g⟩ := ih (i + 1)
      (refs ++ [{ Filename := f.Filename, Typ := f.Typ, LocalPath := stagedPath id f }])
      { w with
        files := setKey w.files (stagedPath id f) (some f.Data),
        dirs := fun p => if p = jobDir id then true else w.dirs p,
        trace := w.trace ++ [.mkdirAll (jobDir id) true,
          .writeFile (stagedPath id f) f.Data true] } hrest
    refine ⟨?_, b, c, d, e, ?_⟩
    · rw [a]; simp [stagedRef]
    · rw [g]; simp [stageEvents]

theorem saveFileLocally_fail (env : ProducerEnv) (i : Nat) (w : World) (id : String)
    (file : File) (h : env.mkdirErr i ≠ none ∨ env.writeErr i ≠ none) :
    ∃ err evs wk,
      StagingFailure env i id file err evs ∧
      saveFileLocally env i w id file = (.error err, wk) ∧
      wk.jobs = w.jobs ∧ wk.results = w.results ∧ wk.clock = w.clock ∧ wk.tick = w.tick ∧
      wk.trace = w.trace ++ evs := by
  cases hm : env.mkdirErr i with
  | some e =>
    refine ⟨"failed to create job directory '" ++ jobDir id ++ "': " ++ e,
      [.mkdirAll (jobDir id) false], w.log (.mkdirAll (jobDir id) false),
      Or.inl ⟨e, hm, rfl, rfl⟩, ?_, rfl, rfl, rfl, rfl, rfl⟩
    simp [saveFileLocally, osMkdirAll, hm, jobDir]
  | none =>
    cases hw : env.writeErr i with
    | none => simp [hm, hw] at h
    | some e =>
      refine ⟨"failed to write file to '" ++ stagedPath id file ++ "': " ++ e,
        [.mkdirAll (jobDir id) true, .writeFile (stagedPath id file) file.Data false],
        (osWriteFile (some e) (stagedPath id file) file.Data
          (osMkdirAll none (jobDir id) w).2).2, Or.inr ⟨e, hm, hw, rfl, rfl⟩, ?_,
        rfl, rfl, rfl, rfl, ?_⟩
      · simp [saveFileLocally, osMkdirAll, osWriteFile, hm, hw, jobDir, stagedPath]
      · simp [osWriteFile, osMkdirAll, World.log]

theorem stageLoop_fail (env : ProducerEnv) (id : String) (job : Job) (files : List File) :
    ∀ (i : Nat) (refs : List FileReference) (w : World) (k : Nat) (file : File),
      files[k]? = some file →
      (∀ m < k, env.mkdirErr (i + m) = none ∧ env.writeErr (i + m) = none) →
      (env.mkdirErr (i + k) ≠ none ∨ env.writeErr (i + k) ≠ none) →
      ∃ err evs wk,
        StagingFailure env (i + k) id file err evs ∧
        wk.jobs = w.jobs ∧ wk.results = w.results ∧ wk.clock = w.clock ∧ wk.tick = w.tick ∧
        wk.trace = w.trace ++ stageEvents id (files.take k) ++ evs ∧
        stageLoop env id job files i refs w =
          (.error ((updateJobStatus env wk job StatusFailed
              ("Failed to save file " ++ file.Filename ++ " locally: " ++ err) "").1,
            "failed to save file locally: " ++ err),
           (updateJobStatus env wk job StatusFailed
              ("Failed to save file " ++ file.Filename ++ " locally: " ++ err) "").2) := by
  induction files with
  | nil => intro i refs w k file hf; simp at hf
  | cons f rest ih =>
    intro i refs w k file hf hok hfail
    cases k with
    | zero =>
      simp only [List.getElem?_cons_zero, Option.some.injEq] at hf
      subst hf
      obtain ⟨err, evs, wk, hevs, hsave, hj, hr, hc, ht, htr⟩ :=
        saveFileLocally_fail env i w id f (by simpa using hfail)
      refine ⟨err, evs, wk, by simpa using hevs, hj, hr, hc, ht, by simp [stageEvents, htr], ?_⟩
      unfold stageLoop
      rw [hsave]
    | succ k =>
      simp only [List.getElem?_cons_succ] at hf
      have h0 := hok 0 (by omega)
      simp only [Nat.add_zero] at h0
      have hok' : ∀ m < k, env.mkdirErr (i + 1 + m) = none ∧ env.writeErr (i + 1 + m) = none := by
        intro m hm
        have := hok (m + 1) (by omega)
        rwa [show i + (m + 1) = i + 1 + m by omega] at this
      have hfail' : env.mkdirErr (i + 1 + k) ≠ none ∨ env.writeErr (i + 1 + k) ≠ none := by
        rwa [show i + (k + 1) = i + 1 + k by omega] at hfail
      obtain ⟨err, evs, wk, hevs, hj, hr, hc, ht, htr, hloop⟩ := ih (i + 1)
        (refs ++ [{ Filename := f.Filename, Typ := f.Typ, LocalPath := stagedPath id f }])
        { w with
          files := setKey w.files (stagedPath id f) (some f.Data),
          dirs := fun p => if p = jobDir id then true else w.dirs p,
          trace := w.trace ++ [.mkdirAll (jobDir id) true,
            .writeFile (stagedPath id f) f.Data true] } k file hf hok' hfail'
      refine ⟨err, evs, wk, by rwa [show i + (k + 1) = i + 1 + k by omega], hj, hr, hc, ht,
        ?_, ?_⟩
      · rw [htr]; simp [stageEvents]
      · unfold stageLoop
        rw [saveFileLocally_ok env i w id f h0.1 h0.2]
        exact hloop

/-- What a dispatch to the Worker does to a job that is queued: only dispatch and
Worker calls are logged, and the dispatch succeeds with the job completed and its
result stored, or fails with the job not completed. -/
theorem triggerSlidesService_effect (env : ProducerEnv) (doErr : Option String)
    (wenv : WorkerEnv) (w : World) (job : Job) (refs : List FileReference)
    (hq : w.status job.ID = some "queued") :
    Extends (DispatchEv job.ID) w
      (triggerSlidesService env (workerDo doErr wenv) w job refs).2 ∧
    (((triggerSlidesService env (workerDo doErr wenv) w job refs).1 = none ∧
        (triggerSlidesService env (workerDo doErr wenv) w job refs).2.status job.ID =
          some "completed" ∧
        wenv.completedErr = none ∧
        ∃ res, (triggerSlidesService env (workerDo doErr wenv) w job refs).2.results job.ID =
            some res ∧ res.ResultURL = "/results/" ++ job.ID) ∨
     ((triggerSlidesService env (workerDo doErr wenv) w job refs).1 ≠ none ∧
        ((triggerSlidesService env (workerDo doErr wenv) w job refs).2.status job.ID =
            some "queued" ∨
         (triggerSlidesService env (workerDo doErr wenv) w job refs).2.status job.ID =
            some "processing" ∨
         (triggerSlidesService env (workerDo doErr wenv) w job refs).2.status job.ID =
            some "failed") ∧
        ((triggerSlidesService env (workerDo doErr wenv) w job refs).2.results job.ID =
            w.results job.ID ∨
          CompletionFailed job.ID
            (triggerSlidesService env (workerDo doErr wenv) w job refs).2.trace))) := by
  unfold triggerSlidesService
  simp only
  cases env.marshalErr with
  | some e => exact ⟨Extends.refl _ _, Or.inr ⟨by simp, Or.inl hq, Or.inl rfl⟩⟩
  | none =>
    cases env.requestErr with
    | some e => exact ⟨Extends.refl _ _, Or.inr ⟨by simp, Or.inl hq, Or.inl rfl⟩⟩
    | none =>
      simp only
      have e0 : Extends (DispatchEv job.ID) w (w.log (.httpPost
          (env.serviceURL ++ "/tasks/process-slides")
          { JobID := job.ID, Theme := job.Theme, Files := refs, Settings := job.Settings })) :=
        Extends.one rfl (by simp [DispatchEv])
      cases doErr with
      | some e =>
        simp only [workerDo]
        exact ⟨e0, Or.inr ⟨by simp, Or.inl hq, Or.inl rfl⟩⟩
      | none =>
        simp only [workerDo]
        obtain ⟨e1, h1⟩ := Controllers.ProcessSlides_effect wenv
          { JobID := job.ID, Theme := job.Theme, Files := refs, Settings := job.Settings }
          (w.log (.httpPost (env.serviceURL ++ "/tasks/process-slides")
            { JobID := job.ID, Theme := job.Theme, Files := refs,
              Settings := job.Settings })) hq
        have e01 := e0.trans (e1.mono (fun _ => dispatchEv_of_worker))
        simp only at h1 e01
        rcases h1 with ⟨hc, hst, hce, hres⟩ | ⟨hc, hst, hres⟩
        · simp only [hc]
          exact ⟨e01, Or.inl ⟨by simp, hst, hce, hres⟩⟩
        · simp only [hc]
          exact ⟨e01, Or.inr ⟨by simp, hst, hres⟩⟩

theorem stagedWorld_spec (env : ProducerEnv) (w : World) (id theme : String)
    (files : List File) (settings : SlideSettings) (hset : env.setErr = none)
    (hstage : ∀ i < files.length, env.mkdirErr i = none ∧ env.writeErr i = none) :
    stageLoop env id (queuedJob id theme files settings w.now) files 0 []
        (docSetJob env.setErr id (queuedRecord id w.now) w.advance).2 =
      (.ok (files.map (stagedRef id)), stagedWorld env w id theme files settings) ∧
    (stagedWorld env w id theme files settings).status id = some "queued" ∧
    (stagedWorld env w id theme files settings).results = w.results ∧
    (stagedWorld env w id theme files settings).clock = w.clock ∧
    (stagedWorld env w id theme files settings).tick = w.tick + 1 ∧
    (stagedWorld env w id theme files settings).trace =
      w.trace ++ [.jobSet (queuedRecord id w.now) (w.status id) true] ++
        stageEvents id files := by
  obtain ⟨h1, h2, h3, h4, h5, h6⟩ := stageLoop_ok env id
    (queuedJob id theme files settings w.now) files 0 []
    (docSetJob env.setErr id (queuedRecord id w.now) w.advance).2 (by simpa using hstage)
  refine ⟨Prod.ext (by simpa using h1) rfl, ?_, ?_, ?_, ?_, ?_⟩
  · simp only [stagedWorld, World.status, h2]
    simp [docSetJob, hset, setKey, queuedRecord]
  · simp only [stagedWorld, h3]
    simp [docSetJob, hset, World.advance]
  · simp only [stagedWorld, h4]
    simp [docSetJob, hset, World.advance]
  · simp only [stagedWorld, h5]
    simp [docSetJob, hset, World.advance]
  · simp only [stagedWorld, h6]
    simp [docSetJob, hset, World.advance, World.status]

end Queue

/-! ## Effects of a whole submission -/

namespace Queue

theorem updateJobStatus_failed_forward (env : ProducerEnv) (w : World) (job : Job)
    (msg url : String)
    (hs : w.status job.ID = some "queued" ∨ w.status job.ID = some "processing" ∨
      w.status job.ID = some "failed") :
    Extends Forward w (updateJobStatus env w job StatusFailed msg url).2 ∧
    (updateJobStatus env w job StatusFailed msg url).2.results = w.results ∧
    ((updateJobStatus env w job StatusFailed msg url).2.status job.ID = some "queued" ∨
     (updateJobStatus env w job StatusFailed msg url).2.status job.ID = some "processing" ∨
     (updateJobStatus env w job StatusFailed msg url).2.status job.ID = some "failed") := by
  refine ⟨Extends.one (updateJobStatus_trace _ _ _ _ _ _) ?_, updateJobStatus_results _ _ _ _ _ _,
    ?_⟩
  · simp only [Forward]
    rcases hs with h | h | h <;> rw [h] <;> simp [Allowed, WAllowed]
  · rcases updateJobStatus_status env w job StatusFailed msg url with h | h
    · exact Or.inr (Or.inr h)
    · rw [h]; exact hs

theorem osMkdirAll_effect (f : Option String) (dir : String) (w : World) :
    Extends Forward w (osMkdirAll f dir w).2 ∧
    (osMkdirAll f dir w).2.jobs = w.jobs ∧ (osMkdirAll f dir w).2.results = w.results := by
  unfold osMkdirAll
  cases f with
  | some e => exact ⟨Extends.one rfl (by simp [Forward]), rfl, rfl⟩
  | none => exact ⟨Extends.one rfl (by simp [Forward]), rfl, rfl⟩

theorem osWriteFile_effect (f : Option String) (path : String) (data : Bytes) (w : World) :
    Extends Forward w (osWriteFile f path data w).2 ∧
    (osWriteFile f path data w).2.jobs = w.jobs ∧
    (osWriteFile f path data w).2.results = w.results := by
  unfold osWriteFile
  cases f with
  | some e => exact ⟨Extends.one rfl (by simp [Forward]), rfl, rfl⟩
  | none => exact ⟨Extends.one rfl (by simp [Forward]), rfl, rfl⟩

theorem saveFileLocally_effect (env : ProducerEnv) (i : Nat) (w : World) (id : String)
    (file : File) :
    Extends Forward w (saveFileLocally env i w id file).2 ∧
    (saveFileLocally env i w id file).2.jobs = w.jobs ∧
    (saveFileLocally env i w id file).2.results = w.results := by
  obtain ⟨e1, j1, r1⟩ := osMkdirAll_effect (env.mkdirErr i) (filepathJoin ["/shared", id]) w
  unfold saveFileLocally
  simp only
  split
  · rename_i err w1 heq
    rw [heq] at e1 j1 r1
    exact ⟨e1, j1, r1⟩
  · rename_i w1 heq
    rw [heq] at e1 j1 r1
    simp only at e1 j1 r1
    obtain ⟨e2, j2, r2⟩ := osWriteFile_effect (env.writeErr i)
      (filepathJoin [filepathJoin ["/shared", id], file.Filename]) file.Data w1
    split
    · rename_i err w2 heq2
      rw [heq2] at e2 j2 r2
      exact ⟨e1.trans e2, j2.trans j1, r2.trans r1⟩
    · rename_i w2 heq2
      rw [heq2] at e2 j2 r2
      exact ⟨e1.trans e2, j2.trans j1, r2.trans r1⟩

theorem stageLoop_effect (env : ProducerEnv) (id : String) (job : Job) (hid : job.ID = id)
    (files : List File) :
    ∀ (i : Nat) (refs : List FileReference) (w : World), w.status id = some "queued" →
      Extends Forward w (stageLoop env id job files i refs w).2 ∧
      (stageLoop env id job files i refs w).2.results = w.results ∧
      ((∃ refs', (stageLoop env id job files i refs w).1 = .ok refs' ∧
          (stageLoop env id job files i refs w).2.status id = some "queued") ∨
       (∃ x, (stageLoop env id job files i refs w).1 = .error x ∧
          ((stageLoop env id job files i refs w).2.status id = some "queued" ∨
           (stageLoop env id job files i refs w).2.status id = some "failed"))) := by
  induction files with
  | nil => intro i refs w hs; exact ⟨Extends.refl _ _, rfl, Or.inl ⟨_, rfl, hs⟩⟩
  | cons f rest ih =>
    intro i refs w hs
    obtain ⟨e1, j1, r1⟩ := saveFileLocally_effect env i w id f
    have hs1 : (saveFileLocally env i w id f).2.status id = some "queued" := by
      simp only [World.status, j1]; exact hs
    unfold stageLoop
    split
    · rename_i err w1 heq
      rw [heq] at e1 r1 hs1
      simp only at e1 r1 hs1
      obtain ⟨e2, r2, h2⟩ := updateJobStatus_failed_forward env w1 job
        ("Failed to save file " ++ f.Filename ++ " locally: " ++ err) ""
        (Or.inl (by rw [hid]; exact hs1))
      refine ⟨e1.trans e2, r2.trans r1, Or.inr ⟨_, rfl, ?_⟩⟩
      rw [hid] at h2
      rcases updateJobStatus_status env w1 job StatusFailed
        ("Failed to save file " ++ f.Filename ++ " locally: " ++ err) "" with h | h
      · rw [hid] at h; exact Or.inr h
      · rw [hid] at h; rw [hs1] at h; exact Or.inl h
    · rename_i path w1 heq
      rw [heq] at e1 r1 hs1
      simp only at e1 r1 hs1
      obtain ⟨e2, r2, h2⟩ := ih (i + 1)
        (refs ++ [{ Filename := f.Filename, Typ := f.Typ, LocalPath := path }]) w1 hs1
      exact ⟨e1.trans e2, r2.trans r1, h2⟩

end Queue

/-- What one submission does to a job whose id is new: every call it logs is
forward; the job ends completed with its result stored, or it ends not completed, and
then a result has been stored only if the completion write failed. -/
theorem submit_effect (env : ProducerEnv) (doErr : Option String) (wenv : WorkerEnv)
    (w : World) (id theme : String) (files : List File) (settings : SlideSettings)
    (hfresh : w.jobs id = none) :
    Extends Forward w (submit env doErr wenv w id theme files settings).2 ∧
    (((submit env doErr wenv w id theme files settings).2.status id = some "completed" ∧
        wenv.completedErr = none ∧
        ∃ res, (submit env doErr wenv w id theme files settings).2.results id = some res ∧
          res.ResultURL = "/results/" ++ id) ∨
     ((submit env doErr wenv w id theme files settings).2.status id ≠ some "completed" ∧
        ((submit env doErr wenv w id theme files settings).2.results id = w.results id ∨
          CompletionFailed id (submit env doErr wenv w id theme files settings).2.trace))) := by
  unfold submit Queue.AddJob
  simp only
  have hst0 : w.advance.status id = none := by simp [World.status, World.advance, hfresh]
  cases hset : env.setErr with
  | some e =>
    simp only [docSetJob]
    refine ⟨Extends.one rfl ?_, Or.inr ⟨?_, Or.inl rfl⟩⟩
    · simp [Forward, hst0, Allowed, Queue.queuedRecord]
    · simp [World.log, World.status, World.advance, hfresh]
  | none =>
    have e0 : Extends Forward w (docSetJob none id (Queue.queuedRecord id w.now) w.advance).2 :=
      Extends.one rfl (by simp [Forward, hst0, Allowed, Queue.queuedRecord])
    have hq0 : (docSetJob none id (Queue.queuedRecord id w.now) w.advance).2.status id =
        some "queued" := by
      simp [docSetJob, World.status, setKey, Queue.queuedRecord]
    have r0 : (docSetJob none id (Queue.queuedRecord id w.now) w.advance).2.results =
        w.results := rfl
    have hS : docSetJob none id (Queue.queuedRecord id w.now) w.advance =
        (none, (docSetJob none id (Queue.queuedRecord id w.now) w.advance).2) := rfl
    rw [hS]
    simp only
    obtain ⟨e1, r1, h1⟩ := Queue.stageLoop_effect env id
      (Queue.queuedJob id theme files settings w.now) rfl files 0 []
      (docSetJob none id (Queue.queuedRecord id w.now) w.advance).2 hq0
    split
    · -- staging failed
      rename_i job1 err w2 heq
      rw [heq] at e1 r1 h1
      simp only [reduceCtorEq, false_and, exists_false, false_or] at h1
      obtain ⟨x, _, hst⟩ := h1
      refine ⟨e0.trans e1, Or.inr ⟨?_, Or.inl (by rw [r1, r0])⟩⟩
      rcases hst with h | h <;> rw [h] <;> simp
    · rename_i refs w2 heq
      rw [heq] at e1 r1 h1
      simp only [reduceCtorEq, false_and, exists_false, or_false] at h1
      obtain ⟨_, _, hq2⟩ := h1
      obtain ⟨e2, h2⟩ := Queue.triggerSlidesService_effect env doErr wenv w2
        (Queue.queuedJob id theme files settings w.now) refs hq2
      have e012 := (e0.trans e1).trans (e2.mono (fun _ => dispatchEv_forward))
      split
      · -- the dispatch failed
        rename_i err w3 heq3
        rw [heq3] at e012 h2
        simp only [reduceCtorEq, false_and, ne_eq, not_false_eq_true, true_and,
          false_or] at h2
        obtain ⟨e3, r3, h3⟩ := Queue.updateJobStatus_failed_forward env w3
          (Queue.queuedJob id theme files settings w.now)
          ("Failed to trigger slides service: " ++ err) "" h2.1
        refine ⟨e012.trans e3, Or.inr ⟨?_, ?_⟩⟩
        · show (Queue.updateJobStatus env w3 (Queue.queuedJob id theme files settings w.now)
              StatusFailed ("Failed to trigger slides service: " ++ err) "").2.status
              (Queue.queuedJob id theme files settings w.now).ID ≠ some "completed"
          rcases h3 with h | h | h <;> rw [h] <;> simp
        · rcases h2.2 with h | h
          · left
            show (Queue.updateJobStatus env w3 (Queue.queuedJob id theme files settings w.now)
              StatusFailed ("Failed to trigger slides service: " ++ err) "").2.results
              (Queue.queuedJob id theme files settings w.now).ID = w.results id
            rw [r3, h, r1, r0]
            rfl
          · exact Or.inr (completionFailed_mono e3 h)
      · rename_i w3 heq3
        rw [heq3] at e012 h2
        simp only [true_and, ne_eq, not_true_eq_false, false_and, or_false] at h2
        exact ⟨e012, Or.inl h2⟩


/-! ## The handler, stage by stage -/

namespace Controllers

theorem ProcessSlides_processing_fails (env : WorkerEnv) (p : TaskPayload) (w : World)
    (err : String) (h : (markProcessing env p w).1 = some err) :
    ProcessSlides env (.ok p) w =
      (errorResponse env ("Failed to update job status: " ++ err),
        (markProcessing env p w).2) := by
  have h1 := pair_of_fst h
  unfold markProcessing at h1
  unfold ProcessSlides
  simp only
  rw [h1]
  rfl

theorem ProcessSlides_read_fails (env : WorkerEnv) (p : TaskPayload) (w : World)
    (resp : Response) (hp : (markProcessing env p w).1 = none)
    (hr : (readAll env p w).1 = .error resp) :
    ProcessSlides env (.ok p) w = (resp, (readAll env p w).2) := by
  have h1 := pair_of_fst hp
  have h2 := pair_of_fst hr
  unfold markProcessing at h1
  unfold readAll markProcessing at h2
  unfold ProcessSlides
  simp only
  rw [h1]
  simp only
  rw [h2]
  rfl

theorem ProcessSlides_render_fails (env : WorkerEnv) (p : TaskPayload) (w : World)
    (files : List File) (err : String) (hp : (markProcessing env p w).1 = none)
    (hr : (readAll env p w).1 = .ok files) (hg : (rendered env p w files).1 = .error err) :
    ProcessSlides env (.ok p) w =
      (errorResponse env ("Failed to generate slides: " ++ err),
        (updateJobStatus env.failedErr (rendered env p w files).2 p.JobID "failed"
          ("Failed to generate slides: " ++ err) "").2) := by
  have h1 := pair_of_fst hp
  have h2 := pair_of_fst hr
  have h3 := pair_of_fst hg
  unfold markProcessing at h1
  unfold readAll markProcessing at h2
  unfold rendered readAll markProcessing at h3
  unfold ProcessSlides
  simp only
  rw [h1]
  simp only
  rw [h2]
  simp only
  rw [h3]
  rfl

theorem ProcessSlides_store_fails (env : WorkerEnv) (p : TaskPayload) (w : World)
    (files : List File) (pdf html : Bytes) (err : String)
    (hp : (markProcessing env p w).1 = none) (hr : (readAll env p w).1 = .ok files)
    (hg : (rendered env p w files).1 = .ok (pdf, html))
    (hs : (persisted env p w files pdf html).1 = some err) :
    ProcessSlides env (.ok p) w =
      (errorResponse env ("Failed to store result: " ++ err),
        (updateJobStatus env.failedErr (persisted env p w files pdf html).2 p.JobID "failed"
          ("Failed to store result: " ++ err) "").2) := by
  have h1 := pair_of_fst hp
  have h2 := pair_of_fst hr
  have h3 := pair_of_fst hg
  have h4 := pair_of_fst hs
  unfold markProcessing at h1
  unfold readAll markProcessing at h2
  unfold rendered readAll markProcessing at h3
  unfold persisted rendered readAll markProcessing at h4
  unfold ProcessSlides
  simp only
  rw [h1]
  simp only
  rw [h2]
  simp only
  rw [h3]
  simp only
  rw [h4]
  rfl

theorem ProcessSlides_completion_fails (env : WorkerEnv) (p : TaskPayload) (w : World)
    (files : List File) (pdf html : Bytes) (err : String)
    (hp : (markProcessing env p w).1 = none) (hr : (readAll env p w).1 = .ok files)
    (hg : (rendered env p w files).1 = .ok (pdf, html))
    (hs : (persisted env p w files pdf html).1 = none)
    (hc : (markedCompleted env p w files pdf html).1 = some err) :
    ProcessSlides env (.ok p) w =
      (errorResponse env ("Failed to mark job as completed: " ++ err),
        (markedCompleted env p w files pdf html).2) := by
  have h1 := pair_of_fst hp
  have h2 := pair_of_fst hr
  have h3 := pair_of_fst hg
  have h4 := pair_of_fst hs
  have h5 := pair_of_fst hc
  unfold markProcessing at h1
  unfold readAll markProcessing at h2
  unfold rendered readAll markProcessing at h3
  unfold persisted rendered readAll markProcessing at h4
  unfold markedCompleted cleanedUp persisted rendered readAll markProcessing at h5
  unfold ProcessSlides
  simp only
  rw [h1]
  simp only
  rw [h2]
  simp only
  rw [h3]
  simp only
  rw [h4]
  simp only
  rw [h5]
  rfl

theorem ProcessSlides_succeeds (env : WorkerEnv) (p : TaskPayload) (w : World)
    (files : List File) (pdf html : Bytes)
    (hp : (markProcessing env p w).1 = none) (hr : (readAll env p w).1 = .ok files)
    (hg : (rendered env p w files).1 = .ok (pdf, html))
    (hs : (persisted env p w files pdf html).1 = none)
    (hc : (markedCompleted env p w files pdf html).1 = none) :
    ProcessSlides env (.ok p) w =
      ({ StatusCode := 200,
         Body := env.json [("status", "success"), ("jobID", p.JobID)] },
        (markedCompleted env p w files pdf html).2) := by
  have h1 := pair_of_fst hp
  have h2 := pair_of_fst hr
  have h3 := pair_of_fst hg
  have h4 := pair_of_fst hs
  have h5 := pair_of_fst hc
  unfold markProcessing at h1
  unfold readAll markProcessing at h2
  unfold rendered readAll markProcessing at h3
  unfold persisted rendered readAll markProcessing at h4
  unfold markedCompleted cleanedUp persisted rendered readAll markProcessing at h5
  unfold ProcessSlides
  simp only
  rw [h1]
  simp only
  rw [h2]
  simp only
  rw [h3]
  simp only
  rw [h4]
  simp only
  rw [h5]
  rfl

end Controllers

/-! ## What each step does to the volume, the clock and the log -/

theorem docUpdateJob_fields (a : Actor) (f : Option String) (id st msg : String) (t : Int)
    (x : Option Int) (w : World) :
    (docUpdateJob a f id st msg t x w).2.files = w.files ∧
    (docUpdateJob a f id st msg t x w).2.dirs = w.dirs ∧
    (docUpdateJob a f id st msg t x w).2.clock = w.clock ∧
    (docUpdateJob a f id st msg t x w).2.tick = w.tick := by
  unfold docUpdateJob
  split
  · exact ⟨rfl, rfl, rfl, rfl⟩
  · split <;> exact ⟨rfl, rfl, rfl, rfl⟩

theorem docUpdateJob_fails (a : Actor) (f : Option String) (id st msg : String) (t : Int)
    (x : Option Int) (w : World) (h : (docUpdateJob a f id st msg t x w).1 ≠ none) :
    (docUpdateJob a f id st msg t x w).2 =
      w.log (.jobUpdate a id st msg t x (w.status id) false) := by
  unfold docUpdateJob at h ⊢
  split
  · rfl
  · split
    · rfl
    · rename_i hf j hj
      simp [hj] at h

theorem docUpdateJob_record (a : Actor) (f : Option String) (id st msg : String) (t : Int)
    (x : Option Int) (w : World) (j : FirestoreJob) (hj : w.jobs id = some j)
    (h : (docUpdateJob a f id st msg t x w).1 = none) :
    (docUpdateJob a f id st msg t x w).2.jobs id =
      some { j with Status := st, Message := msg, UpdatedAt := t,
                    ExpiresAt := x.getD j.ExpiresAt } := by
  unfold docUpdateJob at h ⊢
  split at h
  · simp at h
  · simp [hj, setKey]

namespace Controllers

/-- The update of the Worker: the log grows by that update, the clock has been read
once, the volume and the results are as before. -/
theorem updateJobStatus_spec (f : Option String) (w : World) (id st msg url : String) :
    (updateJobStatus f w id st msg url).2.trace =
      w.trace ++ [.jobUpdate .worker id st msg w.now none (w.status id)
        (updateJobStatus f w id st msg url).1.isNone] ∧
    (updateJobStatus f w id st msg url).2.files = w.files ∧
    (updateJobStatus f w id st msg url).2.dirs = w.dirs ∧
    (updateJobStatus f w id st msg url).2.results = w.results ∧
    (updateJobStatus f w id st msg url).2.clock = w.clock ∧
    (updateJobStatus f w id st msg url).2.tick = w.tick + 1 := by
  obtain ⟨h1, h2, h3, h4⟩ := docUpdateJob_fields .worker f id st msg w.now none w.advance
  exact ⟨docUpdateJob_trace _ _ _ _ _ _ _ _, h1, h2, docUpdateJob_results _ _ _ _ _ _ _ _,
    h3, h4⟩

theorem setJobCompleted_spec (f : Option String) (w : World) (id msg url : String) :
    (setJobCompleted f w id msg url).2.trace =
      w.trace ++ [.jobUpdate .worker id "completed" msg w.now (some (w.now + 300))
        (w.status id) (setJobCompleted f w id msg url).1.isNone] ∧
    (setJobCompleted f w id msg url).2.files = w.files ∧
    (setJobCompleted f w id msg url).2.dirs = w.dirs ∧
    (setJobCompleted f w id msg url).2.results = w.results ∧
    (setJobCompleted f w id msg url).2.clock = w.clock ∧
    (setJobCompleted f w id msg url).2.tick = w.tick + 1 := by
  obtain ⟨h1, h2, h3, h4⟩ := docUpdateJob_fields .worker f id "completed" msg w.now
    (some (w.now + 300)) w.advance
  exact ⟨docUpdateJob_trace _ _ _ _ _ _ _ _, h1, h2, docUpdateJob_results _ _ _ _ _ _ _ _,
    h3, h4⟩

theorem storeResult_spec (f : Option String) (w : World) (id url : String)
    (pdf html : Bytes) :
    (storeResult f w id url pdf html).2.trace =
      w.trace ++ [.resultSet { ID := id, ResultURL := url, PDFData := pdf, HTMLData := html,
                               CreatedAt := w.now, ExpiresAt := w.now + 3600 }
        (storeResult f w id url pdf html).1.isNone] ∧
    (storeResult f w id url pdf html).2.files = w.files ∧
    (storeResult f w id url pdf html).2.dirs = w.dirs ∧
    (storeResult f w id url pdf html).2.jobs = w.jobs ∧
    (storeResult f w id url pdf html).2.clock = w.clock ∧
    (storeResult f w id url pdf html).2.tick = w.tick + 1 ∧
    ((storeResult f w id url pdf html).1 = none ↔ f = none) := by
  unfold storeResult docSetResult
  cases f with
  | some e => exact ⟨rfl, rfl, rfl, rfl, rfl, rfl, by simp⟩
  | none => exact ⟨rfl, rfl, rfl, rfl, rfl, rfl, by simp⟩

/-- The read loop, when every read succeeds: it returns the files of all
references and only logs the reads. -/
theorem readLoop_all_ok (env : WorkerEnv) (id : String) (refs : List FileReference) :
    ∀ (i : Nat) (acc : List File) (w : World),
      (∀ m ref, refs[m]? = some ref → ∃ d, ReadSuccess env w.files (i + m) ref d) →
      readLoop env id refs i acc w =
        (.ok (acc ++ filesRead w.files refs),
          { w with trace := w.trace ++ readEvents refs }) := by
  induction refs with
  | nil => intro i acc w _; simp [readLoop, filesRead, readEvents]
  | cons r rest ih =>
    intro i acc w h
    obtain ⟨d, hf, hd⟩ := h 0 r (by simp)
    simp only [Nat.add_zero] at hf
    have hrest : ∀ m ref, rest[m]? = some ref →
        ∃ d, ReadSuccess env (w.log (.readFile r.LocalPath true)).files (i + 1 + m) ref d := by
      intro m ref hm
      have := h (m + 1) ref (by simpa using hm)
      rwa [show i + (m + 1) = i + 1 + m by omega] at this
    unfold readLoop
    simp only [osReadFile, hf, hd]
    rw [ih (i + 1) _ _ hrest]
    simp [filesRead, readEvents, World.log, hd]

/-- The read loop, when the first read to fail is the one at index `k`: the reads
before it are logged, then the failed read, then the job is marked failed with a
message naming the file. -/
theorem readLoop_first_failure (env : WorkerEnv) (id : String)
    (refs : List FileReference) :
    ∀ (i : Nat) (acc : List File) (w : World) (k : Nat) (ref : FileReference)
      (err : String), refs[k]? = some ref →
      (∀ m r, m < k → refs[m]? = some r → ∃ d, ReadSuccess env w.files (i + m) r d) →
      ReadFailure env w.files (i + k) ref err →
      readLoop env id refs i acc w =
        (.error (errorResponse env ("Failed to read local file: " ++ err)),
          (updateJobStatus env.failedErr
            { w with trace := w.trace ++ readEvents (refs.take k) ++
                [.readFile ref.LocalPath false] }
            id "failed" ("Failed to read local file " ++ ref.Filename ++ ": " ++ err) "").2) := by
  induction refs with
  | nil => intro i acc w k ref err hk; simp at hk
  | cons r rest ih =>
    intro i acc w k ref err hk hok hfail
    cases k with
    | zero =>
      simp only [List.getElem?_cons_zero, Option.some.injEq] at hk
      subst hk
      simp only [Nat.add_zero] at hfail
      unfold readLoop
      rcases hfail with hf | ⟨hf, hn, he⟩
      · simp [osReadFile, hf, readEvents, World.log, errorResponse]
      · subst he
        simp [osReadFile, hf, hn, readEvents, World.log, errorResponse]
    | succ k =>
      simp only [List.getElem?_cons_succ] at hk
      obtain ⟨d, hf, hd⟩ := hok 0 r (by omega) (by simp)
      simp only [Nat.add_zero] at hf
      have hok' : ∀ m r', m < k → rest[m]? = some r' →
          ∃ d, ReadSuccess env (w.log (.readFile r.LocalPath true)).files (i + 1 + m) r' d := by
        intro m r' hm hr'
        have := hok (m + 1) r' (by omega) (by simpa using hr')
        rwa [show i + (m + 1) = i + 1 + m by omega] at this
      have hfail' : ReadFailure env (w.log (.readFile r.LocalPath true)).files (i + 1 + k)
          ref err := by
        rwa [show i + (k + 1) = i + 1 + k by omega] at hfail
      unfold readLoop
      simp only [osReadFile, hf, hd]
      rw [ih (i + 1) _ _ k ref err hk hok' hfail']
      simp [readEvents, World.log]

/-- Either every read succeeds, or there is a first read that fails. -/
theorem read_cases (env : WorkerEnv) (files : String → Option Bytes)
    (refs : List FileReference) :
    ∀ i : Nat,
      (∀ m ref, refs[m]? = some ref → ∃ d, ReadSuccess env files (i + m) ref d) ∨
      (∃ k ref err, refs[k]? = some ref ∧
        (∀ m r, m < k → refs[m]? = some r → ∃ d, ReadSuccess env files (i + m) r d) ∧
        ReadFailure env files (i + k) ref err) := by
  induction refs with
  | nil => intro i; left; intro m ref h; simp at h
  | cons r rest ih =>
    intro i
    have hhead : (∃ d, ReadSuccess env files i r d) ∨ (∃ err, ReadFailure env files i r err) := by
      cases hf : env.readErr i with
      | some e => exact Or.inr ⟨e, Or.inl hf⟩
      | none =>
        cases hd : files r.LocalPath with
        | none => exact Or.inr ⟨_, Or.inr ⟨hf, hd, rfl⟩⟩
        | some d => exact Or.inl ⟨d, hf, hd⟩
    rcases hhead with hok | ⟨err, hfail⟩
    · rcases ih (i + 1) with hall | ⟨k, ref, err, hk, hbefore, hfail⟩
      · left
        intro m ref hm
        cases m with
        | zero =>
          simp only [List.getElem?_cons_zero, Option.some.injEq] at hm
          subst hm
          simpa using hok
        | succ m =>
          simp only [List.getElem?_cons_succ] at hm
          have := hall m ref hm
          rwa [show i + 1 + m = i + (m + 1) by omega] at this
      · right
        refine ⟨k + 1, ref, err, by simpa using hk, ?_, ?_⟩
        · intro m r' hm hr'
          cases m with
          | zero =>
            simp only [List.getElem?_cons_zero, Option.some.injEq] at hr'
            subst hr'
            simpa using hok
          | succ m =>
            simp only [List.getElem?_cons_succ] at hr'
            have := hbefore m r' (by omega) hr'
            rwa [show i + 1 + m = i + (m + 1) by omega] at this
        · rwa [show i + 1 + k = i + (k + 1) by omega] at hfail
    · right
      exact ⟨0, r, err, by simp, fun m r' hm _ => absurd hm (by omega), by simpa using hfail⟩

/-- The renderer's run: it only logs progress updates and leaves the volume, the
results and the clock function alone. -/
theorem runRender_spec (env : WorkerEnv) (id : String) (rd : Render) :
    ∀ (n : Nat) (w : World),
      (∃ pevs, (runRender env id rd n w).2.trace = w.trace ++ pevs ∧
        ∀ e ∈ pevs, IsProgressUpdate id e) ∧
      (runRender env id rd n w).2.files = w.files ∧
      (runRender env id rd n w).2.dirs = w.dirs ∧
      (runRender env id rd n w).2.results = w.results ∧
      (runRender env id rd n w).2.clock = w.clock := by
  induction rd with
  | done pdf html => intro n w; exact ⟨⟨[], by simp [runRender], by simp⟩, rfl, rfl, rfl, rfl⟩
  | fail err => intro n w; exact ⟨⟨[], by simp [runRender], by simp⟩, rfl, rfl, rfl, rfl⟩
  | progress msg next ih =>
    intro n w
    obtain ⟨t1, f1, d1, r1, c1, _⟩ := updateJobStatus_spec (env.progressErr n) w id
      "processing" msg ""
    obtain ⟨⟨pevs, t2, p2⟩, f2, d2, r2, c2⟩ := ih
      (updateJobStatus (env.progressErr n) w id "processing" msg "").1 (n + 1)
      (updateJobStatus (env.progressErr n) w id "processing" msg "").2
    refine ⟨⟨Event.jobUpdate .worker id "processing" msg w.now none (w.status id)
        (updateJobStatus (env.progressErr n) w id "processing" msg "").1.isNone :: pevs,
      ?_, ?_⟩, f2.trans f1, d2.trans d1, r2.trans r1, c2.trans c1⟩
    · show (runRender env id _ (n + 1) _).2.trace = _
      rw [t2, t1, List.append_assoc]
      rfl
    · intro e he
      rcases List.mem_cons.mp he with h | h
      · exact ⟨_, _, _, _, h⟩
      · exact p2 e h

/-- One `os.Remove`: it only logs the call, never adds a file, and without a fault
the path is absent afterwards. -/
theorem osRemove_spec (f : Option String) (path : String) (w : World) :
    (∃ ok, (osRemove f path w).2.trace = w.trace ++ [.remove path ok]) ∧
    (osRemove f path w).2.jobs = w.jobs ∧ (osRemove f path w).2.results = w.results ∧
    (osRemove f path w).2.dirs = w.dirs ∧ (osRemove f path w).2.clock = w.clock ∧
    (osRemove f path w).2.tick = w.tick ∧
    (∀ q, w.files q = none → (osRemove f path w).2.files q = none) ∧
    (f = none → (osRemove f path w).2.files path = none) := by
  unfold osRemove
  cases f with
  | some e => exact ⟨⟨false, rfl⟩, rfl, rfl, rfl, rfl, rfl, fun q hq => hq, by simp⟩
  | none =>
    cases hp : w.files path with
    | none => exact ⟨⟨false, rfl⟩, rfl, rfl, rfl, rfl, rfl, fun q hq => hq, fun _ => hp⟩
    | some d =>
      refine ⟨⟨true, rfl⟩, rfl, rfl, rfl, rfl, rfl, ?_, ?_⟩
      · intro q hq
        simp only [setKey]
        split
        · rfl
        · exact hq
      · intro _
        simp [setKey]

/-- The cleanup loop: it only logs `os.Remove` calls, never adds a file, and when
no removal is hit by a fault every referenced path is absent afterwards. -/
theorem cleanupLoop_spec (env : WorkerEnv) (refs : List FileReference) :
    ∀ (i : Nat) (w : World),
      (∃ cevs, (cleanupLoop env refs i w).trace = w.trace ++ cevs ∧
        ∀ e ∈ cevs, IsRemove e) ∧
      (cleanupLoop env refs i w).jobs = w.jobs ∧
      (cleanupLoop env refs i w).results = w.results ∧
      (cleanupLoop env refs i w).dirs = w.dirs ∧
      (cleanupLoop env refs i w).clock = w.clock ∧
      (cleanupLoop env refs i w).tick = w.tick ∧
      (∀ q, w.files q = none → (cleanupLoop env refs i w).files q = none) ∧
      ((∀ m, m < refs.length → env.removeErr (i + m) = none) →
        ∀ r ∈ refs, (cleanupLoop env refs i w).files r.LocalPath = none) := by
  induction refs with
  | nil =>
    intro i w
    exact ⟨⟨[], by simp [cleanupLoop], by simp⟩, rfl, rfl, rfl, rfl, rfl, fun q hq => hq,
      by simp⟩
  | cons r rest ih =>
    intro i w
    obtain ⟨⟨ok, t1⟩, j1, r1, d1, c1, k1, s1, a1⟩ := osRemove_spec (env.removeErr i)
      r.LocalPath w
    obtain ⟨⟨cevs, t2, p2⟩, j2, r2, d2, c2, k2, s2, a2⟩ := ih (i + 1)
      (osRemove (env.removeErr i) r.LocalPath w).2
    refine ⟨⟨Event.remove r.LocalPath ok :: cevs, ?_, ?_⟩, j2.trans j1, r2.trans r1,
      d2.trans d1, c2.trans c1, k2.trans k1, fun q hq => s2 q (s1 q hq), ?_⟩
    · show (cleanupLoop env rest (i + 1) _).trace = _
      rw [t2, t1, List.append_assoc]
      rfl
    · intro e he
      rcases List.mem_cons.mp he with h | h
      · exact ⟨_, _, h⟩
      · exact p2 e h
    · intro hall x hx
      have h0 := hall 0 (by simp)
      simp only [Nat.add_zero] at h0
      have hrest : ∀ m, m < rest.length → env.removeErr (i + 1 + m) = none := by
        intro m hm
        have := hall (m + 1) (by simp; omega)
        rwa [show i + (m + 1) = i + 1 + m by omega] at this
      rcases List.mem_cons.mp hx with h | h
      · subst h
        exact s2 _ (a1 h0)
      · exact a2 hrest x h

/-- The removal of the staging directory: it only logs the call, never adds a file,
and when it goes through the directory and everything below it is gone. -/
theorem osRemoveAll_spec (f : Option String) (dir : String) (w : World) :
    (∃ ok, (osRemoveAll f dir w).2.trace = w.trace ++ [.removeAll dir ok]) ∧
    (osRemoveAll f dir w).2.jobs = w.jobs ∧ (osRemoveAll f dir w).2.results = w.results ∧
    (osRemoveAll f dir w).2.clock = w.clock ∧ (osRemoveAll f dir w).2.tick = w.tick ∧
    (∀ q, w.files q = none → (osRemoveAll f dir w).2.files q = none) ∧
    (f = none → (osRemoveAll f dir w).2.dirs dir = false ∧
      ∀ q, isUnder dir q = true → (osRemoveAll f dir w).2.files q = none) := by
  unfold osRemoveAll
  cases f with
  | some e => exact ⟨⟨false, rfl⟩, rfl, rfl, rfl, rfl, fun q hq => hq, by simp⟩
  | none =>
    refine ⟨⟨true, rfl⟩, rfl, rfl, rfl, rfl, ?_, fun _ => ⟨?_, ?_⟩⟩
    · intro q hq
      simp only
      split
      · rfl
      · exact hq
    · simp [isUnder]
    · intro q hq
      simp [hq]

end Controllers

/-! ## The worlds between the stages -/

namespace Controllers

theorem markProcessing_spec (env : WorkerEnv) (p : TaskPayload) (w : World) :
    (markProcessing env p w).2.trace =
      w.trace ++ [.jobUpdate .worker p.JobID "processing" "Processing slides" w.now none
        (w.status p.JobID) (markProcessing env p w).1.isNone] ∧
    (markProcessing env p w).2.files = w.files ∧
    (markProcessing env p w).2.dirs = w.dirs ∧
    (markProcessing env p w).2.results = w.results ∧
    (markProcessing env p w).2.clock = w.clock ∧
    (markProcessing env p w).2.tick = w.tick + 1 :=
  updateJobStatus_spec env.processingErr w p.JobID "processing" "Processing slides" ""

theorem markProcessing_status (env : WorkerEnv) (p : TaskPayload) (w : World)
    (hp : (markProcessing env p w).1 = none) :
    (markProcessing env p w).2.status p.JobID = some "processing" :=
  docUpdateJob_ok _ _ _ _ _ _ _ _ hp

/-- The read loop returned files only if every read succeeded; it then returned the
files of all references, logged the reads and changed nothing else. -/
theorem readAll_ok (env : WorkerEnv) (p : TaskPayload) (w : World) (files : List File)
    (hr : (readAll env p w).1 = .ok files) :
    (∀ m ref, p.Files[m]? = some ref → ∃ d, ReadSuccess env w.files m ref d) ∧
    files = filesRead w.files p.Files ∧
    (readAll env p w).2 =
      { (markProcessing env p w).2 with
        trace := (markProcessing env p w).2.trace ++ readEvents p.Files } := by
  have hfiles : (markProcessing env p w).2.files = w.files := (markProcessing_spec env p w).2.1
  rcases read_cases env w.files p.Files 0 with hall | ⟨k, ref, err, hk, hbefore, hfail⟩
  · have hall' : ∀ m ref, p.Files[m]? = some ref →
        ∃ d, ReadSuccess env (markProcessing env p w).2.files (0 + m) ref d := by
      rw [hfiles]; exact hall
    have heq := readLoop_all_ok env p.JobID p.Files 0 [] (markProcessing env p w).2 hall'
    unfold readAll at hr ⊢
    rw [heq] at hr ⊢
    simp only [List.nil_append, Except.ok.injEq] at hr
    refine ⟨by simpa using hall, ?_, rfl⟩
    rw [← hr, hfiles]
  · have hbefore' : ∀ m r, m < k → p.Files[m]? = some r →
        ∃ d, ReadSuccess env (markProcessing env p w).2.files (0 + m) r d := by
      rw [hfiles]; exact hbefore
    have hfail' : ReadFailure env (markProcessing env p w).2.files (0 + k) ref err := by
      rw [hfiles]; exact hfail
    have heq := readLoop_first_failure env p.JobID p.Files 0 [] (markProcessing env p w).2
      k ref err hk hbefore' hfail'
    unfold readAll at hr
    rw [heq] at hr
    simp at hr

theorem rendered_spec (env : WorkerEnv) (p : TaskPayload) (w : World) (files : List File) :
    (∃ pevs, (rendered env p w files).2.trace =
        (readAll env p w).2.trace ++ [.generateSlides p.Theme files p.Settings] ++ pevs ∧
      ∀ e ∈ pevs, IsProgressUpdate p.JobID e) ∧
    (rendered env p w files).2.files = (readAll env p w).2.files ∧
    (rendered env p w files).2.dirs = (readAll env p w).2.dirs ∧
    (rendered env p w files).2.results = (readAll env p w).2.results ∧
    (rendered env p w files).2.clock = (readAll env p w).2.clock := by
  obtain ⟨⟨pevs, t, hp⟩, f, d, r, c⟩ := runRender_spec env p.JobID
    (env.render p.Theme files p.Settings) 0
    ((readAll env p w).2.log (.generateSlides p.Theme files p.Settings))
  exact ⟨⟨pevs, t, hp⟩, f, d, r, c⟩

theorem persisted_spec (env : WorkerEnv) (p : TaskPayload) (w : World) (files : List File)
    (pdf html : Bytes) :
    (persisted env p w files pdf html).2.trace =
      (rendered env p w files).2.trace ++
        [.resultSet { ID := p.JobID, ResultURL := "/results/" ++ p.JobID, PDFData := pdf,
                      HTMLData := html, CreatedAt := (rendered env p w files).2.now,
                      ExpiresAt := (rendered env p w files).2.now + 3600 }
          (persisted env p w files pdf html).1.isNone] ∧
    (persisted env p w files pdf html).2.files = (rendered env p w files).2.files ∧
    (persisted env p w files pdf html).2.dirs = (rendered env p w files).2.dirs ∧
    (persisted env p w files pdf html).2.jobs = (rendered env p w files).2.jobs ∧
    (persisted env p w files pdf html).2.clock = (rendered env p w files).2.clock ∧
    (persisted env p w files pdf html).2.tick = (rendered env p w files).2.tick + 1 ∧
    ((persisted env p w files pdf html).1 = none ↔ env.storeErr = none) :=
  storeResult_spec env.storeErr (rendered env p w files).2 p.JobID ("/results/" ++ p.JobID)
    pdf html

theorem persisted_result (env : WorkerEnv) (p : TaskPayload) (w : World)
    (files : List File) (pdf html : Bytes)
    (hs : (persisted env p w files pdf html).1 = none) :
    (persisted env p w files pdf html).2.results p.JobID =
      some { ID := p.JobID, ResultURL := "/results/" ++ p.JobID, PDFData := pdf,
             HTMLData := html, CreatedAt := (rendered env p w files).2.now,
             ExpiresAt := (rendered env p w files).2.now + 3600 } := by
  rcases (storeResult_effect env.storeErr (rendered env p w files).2 p.JobID
    ("/results/" ++ p.JobID) pdf html).2.2 with h | h
  · exact h.2
  · exact absurd hs h.1

theorem cleanedUp_spec (env : WorkerEnv) (p : TaskPayload) (w : World) (files : List File)
    (pdf html : Bytes) :
    (∃ cevs ok, (cleanedUp env p w files pdf html).trace =
        (persisted env p w files pdf html).2.trace ++ cevs ++
          [.removeAll (filepathJoin ["/shared", p.JobID]) ok] ∧
      ∀ e ∈ cevs, IsRemove e) ∧
    (cleanedUp env p w files pdf html).jobs = (persisted env p w files pdf html).2.jobs ∧
    (cleanedUp env p w files pdf html).results =
      (persisted env p w files pdf html).2.results ∧
    (cleanedUp env p w files pdf html).clock = (persisted env p w files pdf html).2.clock ∧
    (cleanedUp env p w files pdf html).tick = (persisted env p w files pdf html).2.tick ∧
    (∀ q, (persisted env p w files pdf html).2.files q = none →
      (cleanedUp env p w files pdf html).files q = none) ∧
    ((∀ m, m < p.Files.length → env.removeErr m = none) →
      ∀ r ∈ p.Files, (cleanedUp env p w files pdf html).files r.LocalPath = none) ∧
    (env.removeAllErr = none →
      (cleanedUp env p w files pdf html).dirs (filepathJoin ["/shared", p.JobID]) = false) := by
  obtain ⟨⟨cevs, t1, p1⟩, j1, r1, _, c1, k1, s1, a1⟩ := cleanupLoop_spec env p.Files 0
    (persisted env p w files pdf html).2
  obtain ⟨⟨ok, t2⟩, j2, r2, c2, k2, s2, a2⟩ := osRemoveAll_spec env.removeAllErr
    (filepathJoin ["/shared", p.JobID])
    (cleanupLoop env p.Files 0 (persisted env p w files pdf html).2)
  refine ⟨⟨cevs, ok, ?_, p1⟩, j2.trans j1, r2.trans r1, c2.trans c1, k2.trans k1,
    fun q hq => s2 q (s1 q hq), ?_, fun h => (a2 h).1⟩
  · show (osRemoveAll _ _ _).2.trace = _
    rw [t2, t1]
  · intro hall r hr
    exact s2 _ (a1 (by simpa using hall) r hr)

theorem markedCompleted_spec (env : WorkerEnv) (p : TaskPayload) (w : World)
    (files : List File) (pdf html : Bytes) :
    (markedCompleted env p w files pdf html).2.trace =
      (cleanedUp env p w files pdf html).trace ++
        [.jobUpdate .worker p.JobID "completed" "Slides generated successfully"
          (cleanedUp env p w files pdf html).now
          (some ((cleanedUp env p w files pdf html).now + 300))
          ((cleanedUp env p w files pdf html).status p.JobID)
          (markedCompleted env p w files pdf html).1.isNone] ∧
    (markedCompleted env p w files pdf html).2.files =
      (cleanedUp env p w files pdf html).files ∧
    (markedCompleted env p w files pdf html).2.dirs =
      (cleanedUp env p w files pdf html).dirs ∧
    (markedCompleted env p w files pdf html).2.results =
      (cleanedUp env p w files pdf html).results ∧
    (markedCompleted env p w files pdf html).2.clock =
      (cleanedUp env p w files pdf html).clock ∧
    (markedCompleted env p w files pdf html).2.tick =
      (cleanedUp env p w files pdf html).tick + 1 :=
  setJobCompleted_spec env.completedErr (cleanedUp env p w files pdf html) p.JobID
    "Slides generated successfully" ("/results/" ++ p.JobID)

end Controllers

/-! ## The log and the job status along the handler -/

theorem eventsSince_append {w w2 : World} {evs : List Event}
    (h : w2.trace = w.trace ++ evs) : eventsSince w w2 = evs := by
  simp [eventsSince, h]

theorem status_of_jobs {w1 w2 : World} (h : w2.jobs = w1.jobs) (id : String) :
    w2.status id = w1.status id := by
  simp [World.status, h]

theorem filter_nil_of_forall {p : Event → Bool} {l : List Event}
    (h : ∀ e ∈ l, p e = false) : l.filter p = [] := by
  rw [List.filter_eq_nil_iff]
  intro e he
  simp [h e he]

namespace Controllers

/-- The read loop returned an error only if some read was the first to fail; the
response and the world are then those of that failure. -/
theorem readAll_fails (env : WorkerEnv) (p : TaskPayload) (w : World) (resp : Response)
    (hr : (readAll env p w).1 = .error resp) :
    ∃ k ref err, p.Files[k]? = some ref ∧
      (∀ m r, m < k → p.Files[m]? = some r → ∃ d, ReadSuccess env w.files m r d) ∧
      ReadFailure env w.files k ref err ∧
      resp = errorResponse env ("Failed to read local file: " ++ err) ∧
      (readAll env p w).2 =
        (updateJobStatus env.failedErr
          { (markProcessing env p w).2 with
            trace := (markProcessing env p w).2.trace ++ readEvents (p.Files.take k) ++
              [.readFile ref.LocalPath false] }
          p.JobID "failed"
          ("Failed to read local file " ++ ref.Filename ++ ": " ++ err) "").2 := by
  have hfiles : (markProcessing env p w).2.files = w.files := (markProcessing_spec env p w).2.1
  rcases read_cases env w.files p.Files 0 with hall | ⟨k, ref, err, hk, hbefore, hfail⟩
  · have hall' : ∀ m ref, p.Files[m]? = some ref →
        ∃ d, ReadSuccess env (markProcessing env p w).2.files (0 + m) ref d := by
      rw [hfiles]; exact hall
    have heq := readLoop_all_ok env p.JobID p.Files 0 [] (markProcessing env p w).2 hall'
    unfold readAll at hr
    rw [heq] at hr
    simp at hr
  · have hbefore' : ∀ m r, m < k → p.Files[m]? = some r →
        ∃ d, ReadSuccess env (markProcessing env p w).2.files (0 + m) r d := by
      rw [hfiles]; exact hbefore
    have hfail' : ReadFailure env (markProcessing env p w).2.files (0 + k) ref err := by
      rw [hfiles]; exact hfail
    have heq := readLoop_first_failure env p.JobID p.Files 0 [] (markProcessing env p w).2
      k ref err hk hbefore' hfail'
    unfold readAll at hr ⊢
    rw [heq] at hr ⊢
    simp only [Except.error.injEq] at hr
    exact ⟨k, ref, err, hk, by simpa using hbefore, by simpa using hfail, hr.symm, rfl⟩

/-- The logs of the stages once every read has succeeded, as extensions of the log
the handler started with. -/
theorem stage_traces (env : WorkerEnv) (p : TaskPayload) (w : World) (files : List File)
    (pdf html : Bytes) (hr : (readAll env p w).1 = .ok files) :
    ∃ pevs cevs okr,
      (∀ e ∈ pevs, IsProgressUpdate p.JobID e) ∧ (∀ e ∈ cevs, IsRemove e) ∧
      (rendered env p w files).2.trace =
        w.trace ++
          (.jobUpdate .worker p.JobID "processing" "Processing slides" w.now none
              (w.status p.JobID) (markProcessing env p w).1.isNone ::
            readEvents p.Files ++ .generateSlides p.Theme files p.Settings :: pevs) ∧
      (persisted env p w files pdf html).2.trace =
        w.trace ++
          (.jobUpdate .worker p.JobID "processing" "Processing slides" w.now none
              (w.status p.JobID) (markProcessing env p w).1.isNone ::
            readEvents p.Files ++ .generateSlides p.Theme files p.Settings :: pevs ++
            [.resultSet { ID := p.JobID, ResultURL := "/results/" ++ p.JobID,
                          PDFData := pdf, HTMLData := html,
                          CreatedAt := (rendered env p w files).2.now,
                          ExpiresAt := (rendered env p w files).2.now + 3600 }
              (persisted env p w files pdf html).1.isNone]) ∧
      (markedCompleted env p w files pdf html).2.trace =
        w.trace ++
          (.jobUpdate .worker p.JobID "processing" "Processing slides" w.now none
              (w.status p.JobID) (markProcessing env p w).1.isNone ::
            readEvents p.Files ++ .generateSlides p.Theme files p.Settings :: pevs ++
            .resultSet { ID := p.JobID, ResultURL := "/results/" ++ p.JobID,
                         PDFData := pdf, HTMLData := html,
                         CreatedAt := (rendered env p w files).2.now,
                         ExpiresAt := (rendered env p w files).2.now + 3600 }
              (persisted env p w files pdf html).1.isNone :: cevs ++
            [.removeAll (filepathJoin ["/shared", p.JobID]) okr,
             .jobUpdate .worker p.JobID "completed" "Slides generated successfully"
               (cleanedUp env p w files pdf html).now
               (some ((cleanedUp env p w files pdf html).now + 300))
               ((cleanedUp env p w files pdf html).status p.JobID)
               (markedCompleted env p w files pdf html).1.isNone]) := by
  have t0 := (markProcessing_spec env p w).1
  have t1 : (readAll env p w).2.trace = (markProcessing env p w).2.trace ++ readEvents p.Files := by
    rw [(readAll_ok env p w files hr).2.2]
  obtain ⟨⟨pevs, t2, hpevs⟩, _⟩ := rendered_spec env p w files
  have t3 := (persisted_spec env p w files pdf html).1
  obtain ⟨⟨cevs, okr, t4, hcevs⟩, _⟩ := cleanedUp_spec env p w files pdf html
  have t5 := (markedCompleted_spec env p w files pdf html).1
  refine ⟨pevs, cevs, okr, hpevs, hcevs, ?_, ?_, ?_⟩
  · rw [t2, t1, t0]; simp
  · rw [t3, t2, t1, t0]; simp
  · rw [t5, t4, t3, t2, t1, t0]; simp

/-- While the handler runs between the initial update and the completion write, the
job has status processing. -/
theorem stage_status (env : WorkerEnv) (p : TaskPayload) (w : World) (files : List File)
    (pdf html : Bytes) (hp : (markProcessing env p w).1 = none)
    (hr : (readAll env p w).1 = .ok files) :
    (rendered env p w files).2.status p.JobID = some "processing" ∧
    (persisted env p w files pdf html).2.status p.JobID = some "processing" ∧
    (cleanedUp env p w files pdf html).status p.JobID = some "processing" := by
  have h0 := markProcessing_status env p w hp
  have h1 : (readAll env p w).2.status p.JobID = some "processing" := by
    rw [(readAll_ok env p w files hr).2.2]
    exact h0
  have h2 : (rendered env p w files).2.status p.JobID = some "processing" :=
    (runRender_effect env p.JobID (env.render p.Theme files p.Settings) 0
      ((readAll env p w).2.log (.generateSlides p.Theme files p.Settings)) h1).2.2
  have j3 := (persisted_spec env p w files pdf html).2.2.2.1
  have j4 := (cleanedUp_spec env p w files pdf html).2.1
  have h3 : (persisted env p w files pdf html).2.status p.JobID = some "processing" := by
    rw [status_of_jobs j3]; exact h2
  refine ⟨h2, h3, ?_⟩
  rw [status_of_jobs j4]; exact h3

/-- The clock readings of the stages: the result write reads the clock at the tick
the render left, the completion write at the next one. -/
theorem stage_clock (env : WorkerEnv) (p : TaskPayload) (w : World) (files : List File)
    (pdf html : Bytes) (hr : (readAll env p w).1 = .ok files) :
    (rendered env p w files).2.now = w.clock (rendered env p w files).2.tick ∧
    (cleanedUp env p w files pdf html).now = w.clock ((rendered env p w files).2.tick + 1) := by
  have c0 := (markProcessing_spec env p w).2.2.2.2.1
  have c1 : (readAll env p w).2.clock = (markProcessing env p w).2.clock := by
    rw [(readAll_ok env p w files hr).2.2]
  have c2 := (rendered_spec env p w files).2.2.2.2
  obtain ⟨_, _, _, _, c3, k3, _⟩ := persisted_spec env p w files pdf html
  obtain ⟨_, _, _, c4, k4, _⟩ := cleanedUp_spec env p w files pdf html
  have hc : (rendered env p w files).2.clock = w.clock := by rw [c2, c1, c0]
  refine ⟨by simp [World.now, hc], ?_⟩
  simp only [World.now, c4, c3, hc, k4, k3]

/-- A response with status 200 is returned only when every stage succeeded. -/
theorem ProcessSlides_ok_inv (env : WorkerEnv) (p : TaskPayload) (w : World)
    (h : (ProcessSlides env (.ok p) w).1.StatusCode < 300) :
    ∃ files pdf html,
      (markProcessing env p w).1 = none ∧ (readAll env p w).1 = .ok files ∧
      (rendered env p w files).1 = .ok (pdf, html) ∧
      (persisted env p w files pdf html).1 = none ∧
      (markedCompleted env p w files pdf html).1 = none ∧
      ProcessSlides env (.ok p) w =
        ({ StatusCode := 200,
           Body := env.json [("status", "success"), ("jobID", p.JobID)] },
          (markedCompleted env p w files pdf html).2) := by
  cases hp : (markProcessing env p w).1 with
  | some err =>
    rw [ProcessSlides_processing_fails env p w err hp] at h
    simp [errorResponse] at h
  | none =>
    cases hr : (readAll env p w).1 with
    | error resp =>
      obtain ⟨_, _, _, _, _, _, hresp, _⟩ := readAll_fails env p w resp hr
      rw [ProcessSlides_read_fails env p w resp hp hr, hresp] at h
      simp [errorResponse] at h
    | ok files =>
      cases hg : (rendered env p w files).1 with
      | error err =>
        rw [ProcessSlides_render_fails env p w files err hp hr hg] at h
        simp [errorResponse] at h
      | ok out =>
        obtain ⟨pdf, html⟩ := out
        cases hs : (persisted env p w files pdf html).1 with
        | some err =>
          rw [ProcessSlides_store_fails env p w files pdf html err hp hr hg hs] at h
          simp [errorResponse] at h
        | none =>
          cases hc : (markedCompleted env p w files pdf html).1 with
          | some err =>
            rw [ProcessSlides_completion_fails env p w files pdf html err hp hr hg hs hc] at h
            simp [errorResponse] at h
          | none =>
            exact ⟨files, pdf, html, rfl, rfl, hg, hs, hc,
              ProcessSlides_succeeds env p w files pdf html hp hr hg hs hc⟩

/-- The record the completion write stores. -/
theorem markedCompleted_record (env : WorkerEnv) (p : TaskPayload) (w : World)
    (files : List File) (pdf html : Bytes)
    (hc : (markedCompleted env p w files pdf html).1 = none) :
    ∃ j, (markedCompleted env p w files pdf html).2.jobs p.JobID = some j ∧
      j.Status = "completed" ∧ j.Message = "Slides generated successfully" ∧
      j.UpdatedAt = (cleanedUp env p w files pdf html).now ∧
      j.ExpiresAt = (cleanedUp env p w files pdf html).now + 300 := by
  have hsome := ((docUpdateJob_none_iff _ _ _ _ _ _ _ _).mp hc).2
  obtain ⟨j0, hj0⟩ := Option.isSome_iff_exists.mp hsome
  exact ⟨_, docUpdateJob_record _ _ _ _ _ _ _ _ j0 hj0 hc, rfl, rfl, rfl, rfl⟩

end Controllers

/-! ## Which calls the stages log -/

theorem readEvents_mem {refs : List FileReference} {e : Event} (h : e ∈ readEvents refs) :
    ∃ path, e = .readFile path true := by
  simp only [readEvents, List.mem_map] at h
  obtain ⟨r, _, hr⟩ := h
  exact ⟨r.LocalPath, hr.symm⟩

theorem readEvents_filter_isRead (refs : List FileReference) :
    (readEvents refs).filter Event.isRead = readEvents refs := by
  rw [List.filter_eq_self]
  intro e he
  obtain ⟨path, rfl⟩ := readEvents_mem he
  rfl

theorem endsWithFailedWrite_of_update (f : Option String) (w0 w1 : World) (id msg : String)
    (evs : List Event) (hext : w1.trace = w0.trace ++ evs) :
    EndsWithFailedWrite id msg
      (eventsSince w0 (Controllers.updateJobStatus f w1 id "failed" msg "").2) := by
  have ht := (Controllers.updateJobStatus_spec f w1 id "failed" msg "").1
  refine ⟨evs, w1.now, w1.status id,
    (Controllers.updateJobStatus f w1 id "failed" msg "").1.isNone, ?_⟩
  apply eventsSince_append
  rw [ht, hext, List.append_assoc]

/-- The calls of the handler on the path on which every read, the render and the
result write succeed: by kind. -/
theorem success_path_classes {id : String} {procEv gen rs ra done : Event}
    {reads pevs cevs : List Event} {f : Event → Bool}
    (hproc : f procEv = false) (hreads : ∀ e ∈ reads, f e = false) (hgen : f gen = false)
    (hpevs : ∀ e ∈ pevs, IsProgressUpdate id e → f e = false)
    (hprog : ∀ e ∈ pevs, IsProgressUpdate id e) (hrs : f rs = false)
    (hcevs : ∀ e ∈ cevs, IsRemove e → f e = false) (hrem : ∀ e ∈ cevs, IsRemove e)
    (hra : f ra = false) (hdone : f done = false) :
    (procEv :: reads ++ gen :: pevs ++ rs :: cevs ++ [ra, done]).filter f = [] := by
  apply filter_nil_of_forall
  intro e he
  simp only [List.cons_append, List.append_assoc, List.mem_cons, List.mem_append,
    List.mem_singleton, List.not_mem_nil, or_false] at he
  rcases he with h | h | h | h | h | h | h | h
  · rw [h]; exact hproc
  · exact hreads e h
  · rw [h]; exact hgen
  · exact hpevs e h (hprog e h)
  · rw [h]; exact hrs
  · exact hcevs e h (hrem e h)
  · rw [h]; exact hra
  · rw [h]; exact hdone

/-! ## The log of the handler once every file is read -/

namespace Controllers

/-- After the initial update and the reads have succeeded, the handler calls the
renderer once, with the files read, and reads no file again. -/
theorem ProcessSlides_after_reads (env : WorkerEnv) (p : TaskPayload) (w : World)
    (files : List File) (hp : (markProcessing env p w).1 = none)
    (hr : (readAll env p w).1 = .ok files) :
    ∃ tail, (ProcessSlides env (.ok p) w).2.trace =
        w.trace ++
          (.jobUpdate .worker p.JobID "processing" "Processing slides" w.now none
              (w.status p.JobID) true ::
            readEvents p.Files ++ .generateSlides p.Theme files p.Settings :: tail) ∧
      ∀ e ∈ tail, e.isRender = false ∧ e.isRead = false ∧ e.isPost = false := by
  have hprog : ∀ pevs : List Event, (∀ e ∈ pevs, IsProgressUpdate p.JobID e) →
      ∀ e ∈ pevs, e.isRender = false ∧ e.isRead = false ∧ e.isPost = false := by
    intro pevs h e he
    obtain ⟨m, t, pr, ok, rfl⟩ := h e he
    exact ⟨rfl, rfl, rfl⟩
  have hrem : ∀ cevs : List Event, (∀ e ∈ cevs, IsRemove e) →
      ∀ e ∈ cevs, e.isRender = false ∧ e.isRead = false ∧ e.isPost = false := by
    intro cevs h e he
    obtain ⟨path, ok, rfl⟩ := h e he
    exact ⟨rfl, rfl, rfl⟩
  have hpt : (markProcessing env p w).1.isNone = true := by rw [hp]; rfl
  cases hg : (rendered env p w files).1 with
  | error err =>
    obtain ⟨pevs, cevs, okr, hpevs, hcevs, tr, ts, tc⟩ := stage_traces env p w files [] [] hr
    rw [ProcessSlides_render_fails env p w files err hp hr hg]
    have ht := (updateJobStatus_spec env.failedErr (rendered env p w files).2 p.JobID "failed"
      ("Failed to generate slides: " ++ err) "").1
    rw [tr, hpt] at ht
    refine ⟨pevs ++ [.jobUpdate .worker p.JobID "failed" ("Failed to generate slides: " ++ err)
      (rendered env p w files).2.now none ((rendered env p w files).2.status p.JobID)
      (updateJobStatus env.failedErr (rendered env p w files).2 p.JobID "failed"
        ("Failed to generate slides: " ++ err) "").1.isNone], ?_, ?_⟩
    · show (updateJobStatus env.failedErr (rendered env p w files).2 p.JobID "failed"
        ("Failed to generate slides: " ++ err) "").2.trace = _
      rw [ht]
      simp
    · intro e he
      rcases List.mem_append.mp he with h | h
      · exact hprog pevs hpevs e h
      · rw [List.mem_singleton.mp h]; exact ⟨rfl, rfl, rfl⟩
  | ok out =>
    obtain ⟨pdf, html⟩ := out
    obtain ⟨pevs, cevs, okr, hpevs, hcevs, tr, ts, tc⟩ :=
      stage_traces env p w files pdf html hr
    cases hs : (persisted env p w files pdf html).1 with
    | some err =>
      rw [ProcessSlides_store_fails env p w files pdf html err hp hr hg hs]
      have ht := (updateJobStatus_spec env.failedErr (persisted env p w files pdf html).2
        p.JobID "failed" ("Failed to store result: " ++ err) "").1
      rw [ts, hpt] at ht
      refine ⟨pevs ++ [.resultSet
          { ID := p.JobID, ResultURL := "/results/" ++ p.JobID,
            PDFData := pdf, HTMLData := html,
            CreatedAt := (rendered env p w files).2.now,
            ExpiresAt := (rendered env p w files).2.now + 3600 }
          (persisted env p w files pdf html).1.isNone,
        .jobUpdate .worker p.JobID "failed" ("Failed to store result: " ++ err)
          (persisted env p w files pdf html).2.now none
          ((persisted env p w files pdf html).2.status p.JobID)
          (updateJobStatus env.failedErr (persisted env p w files pdf html).2 p.JobID "failed"
            ("Failed to store result: " ++ err) "").1.isNone], ?_, ?_⟩
      · show (updateJobStatus env.failedErr (persisted env p w files pdf html).2 p.JobID
          "failed" ("Failed to store result: " ++ err) "").2.trace = _
        rw [ht]
        simp
      · intro e he
        rcases List.mem_append.mp he with h | h
        · exact hprog pevs hpevs e h
        · simp only [List.mem_cons, List.mem_singleton, List.not_mem_nil, or_false] at h
          rcases h with h | h <;> rw [h] <;> exact ⟨rfl, rfl, rfl⟩
    | none =>
      have hworld : (ProcessSlides env (.ok p) w).2 = (markedCompleted env p w files pdf html).2 := by
        cases hc : (markedCompleted env p w files pdf html).1 with
        | none => rw [ProcessSlides_succeeds env p w files pdf html hp hr hg hs hc]
        | some err =>
          rw [ProcessSlides_completion_fails env p w files pdf html err hp hr hg hs hc]
      rw [hworld]
      rw [hpt] at tc
      refine ⟨pevs ++ .resultSet
          { ID := p.JobID, ResultURL := "/results/" ++ p.JobID,
            PDFData := pdf, HTMLData := html,
            CreatedAt := (rendered env p w files).2.now,
            ExpiresAt := (rendered env p w files).2.now + 3600 }
          (persisted env p w files pdf html).1.isNone :: cevs ++
        [.removeAll (filepathJoin ["/shared", p.JobID]) okr,
         .jobUpdate .worker p.JobID "completed" "Slides generated successfully"
           (cleanedUp env p w files pdf html).now
           (some ((cleanedUp env p w files pdf html).now + 300))
           ((cleanedUp env p w files pdf html).status p.JobID)
           (markedCompleted env p w files pdf html).1.isNone], ?_, ?_⟩
      · rw [tc]
        simp
      · intro e he
        simp only [List.cons_append, List.append_assoc, List.mem_cons, List.mem_append,
          List.mem_singleton, List.not_mem_nil, or_false] at he
        rcases he with h | h | h | h | h
        · exact hprog pevs hpevs e h
        · rw [h]; exact ⟨rfl, rfl, rfl⟩
        · exact hrem cevs hcevs e h
        · rw [h]; exact ⟨rfl, rfl, rfl⟩
        · rw [h]; exact ⟨rfl, rfl, rfl⟩

end Controllers

/-! ## The cleanup outcomes and the rest of the handler -/

namespace Controllers

theorem readLoop_cleanup (env : WorkerEnv) (r : Nat → Option String) (a : Option String)
    (id : String) (refs : List FileReference) :
    ∀ (i : Nat) (acc : List File) (w : World),
      readLoop (withCleanup env r a) id refs i acc w = readLoop env id refs i acc w := by
  induction refs with
  | nil => intro i acc w; rfl
  | cons ref rest ih =>
    intro i acc w
    simp only [readLoop, ih]
    rfl

theorem runRender_cleanup (env : WorkerEnv) (r : Nat → Option String) (a : Option String)
    (id : String) (rd : Render) :
    ∀ (n : Nat) (w : World),
      runRender (withCleanup env r a) id rd n w = runRender env id rd n w := by
  induction rd with
  | done pdf html => intro n w; rfl
  | fail err => intro n w; rfl
  | progress msg next ih =>
    intro n w
    simp only [runRender]
    exact ih _ _ _

theorem readAll_cleanup (env : WorkerEnv) (r : Nat → Option String) (a : Option String)
    (p : TaskPayload) (w : World) :
    readAll (withCleanup env r a) p w = readAll env p w :=
  readLoop_cleanup env r a p.JobID p.Files 0 [] _

theorem rendered_cleanup (env : WorkerEnv) (r : Nat → Option String) (a : Option String)
    (p : TaskPayload) (w : World) (files : List File) :
    rendered (withCleanup env r a) p w files = rendered env p w files := by
  unfold rendered
  rw [readAll_cleanup, runRender_cleanup]
  rfl

theorem persisted_cleanup (env : WorkerEnv) (r : Nat → Option String) (a : Option String)
    (p : TaskPayload) (w : World) (files : List File) (pdf html : Bytes) :
    persisted (withCleanup env r a) p w files pdf html = persisted env p w files pdf html := by
  unfold persisted
  rw [rendered_cleanup]
  rfl

/-- The completion write depends on the world only through the job records and the
clock. -/
theorem setJobCompleted_congr (f : Option String) (w1 w2 : World) (id msg url : String)
    (hj : w1.jobs = w2.jobs) (hc : w1.clock = w2.clock) (ht : w1.tick = w2.tick) :
    (setJobCompleted f w1 id msg url).1 = (setJobCompleted f w2 id msg url).1 ∧
    (setJobCompleted f w1 id msg url).2.jobs = (setJobCompleted f w2 id msg url).2.jobs ∧
    w1.now = w2.now ∧ w1.status id = w2.status id := by
  have hnow : w1.now = w2.now := by simp [World.now, hc, ht]
  have hst : w1.status id = w2.status id := by simp [World.status, hj]
  refine ⟨?_, ?_, hnow, hst⟩
  · unfold setJobCompleted docUpdateJob
    simp only [World.advance, hnow, hj]
    cases f with
    | some e => rfl
    | none => cases w2.jobs id <;> rfl
  · unfold setJobCompleted docUpdateJob
    simp only [World.advance, hnow, hj, World.log]
    cases f with
    | some e => rfl
    | none => cases w2.jobs id <;> rfl

end Controllers

namespace Controllers

/-- Once the result is stored, the handler returns the world of the completion write
and a response that depends on the error of that write only. -/
theorem ProcessSlides_after_persist (env : WorkerEnv) (p : TaskPayload) (w : World)
    (files : List File) (pdf html : Bytes)
    (hp : (markProcessing env p w).1 = none) (hr : (readAll env p w).1 = .ok files)
    (hg : (rendered env p w files).1 = .ok (pdf, html))
    (hs : (persisted env p w files pdf html).1 = none) :
    (ProcessSlides env (.ok p) w).2 = (markedCompleted env p w files pdf html).2 ∧
    (ProcessSlides env (.ok p) w).1 =
      (match (markedCompleted env p w files pdf html).1 with
       | some err => errorResponse env ("Failed to mark job as completed: " ++ err)
       | none => { StatusCode := 200,
                   Body := env.json [("status", "success"), ("jobID", p.JobID)] }) := by
  cases hc : (markedCompleted env p w files pdf html).1 with
  | none =>
    rw [ProcessSlides_succeeds env p w files pdf html hp hr hg hs hc]
    exact ⟨rfl, rfl⟩
  | some err =>
    rw [ProcessSlides_completion_fails env p w files pdf html err hp hr hg hs hc]
    exact ⟨rfl, rfl⟩

/-- The log of the handler once the result is stored: whatever was logged up to the
result write, the cleanup calls, and the completion write, made on a job that has
status processing. -/
theorem ProcessSlides_cleanup_trace (env : WorkerEnv) (p : TaskPayload) (w : World)
    (files : List File) (pdf html : Bytes)
    (hp : (markProcessing env p w).1 = none) (hr : (readAll env p w).1 = .ok files)
    (hg : (rendered env p w files).1 = .ok (pdf, html))
    (hs : (persisted env p w files pdf html).1 = none) :
    ∃ cevs okr, (∀ e ∈ cevs, IsRemove e) ∧
      eventsSince w (ProcessSlides env (.ok p) w).2 =
        eventsSince w (persisted env p w files pdf html).2 ++ cevs ++
          [.removeAll (filepathJoin ["/shared", p.JobID]) okr,
           .jobUpdate .worker p.JobID "completed" "Slides generated successfully"
             (cleanedUp env p w files pdf html).now
             (some ((cleanedUp env p w files pdf html).now + 300)) (some "processing")
             (markedCompleted env p w files pdf html).1.isNone] := by
  obtain ⟨_, _, _, _, _, _, ts, _⟩ := stage_traces env p w files pdf html hr
  obtain ⟨Y, hY⟩ : ∃ Y, (persisted env p w files pdf html).2.trace = w.trace ++ Y := ⟨_, ts⟩
  obtain ⟨⟨cevs, okr, t4, hcevs⟩, _⟩ := cleanedUp_spec env p w files pdf html
  have t5 := (markedCompleted_spec env p w files pdf html).1
  have hst := (stage_status env p w files pdf html hp hr).2.2
  rw [hst] at t5
  refine ⟨cevs, okr, hcevs, ?_⟩
  rw [(ProcessSlides_after_persist env p w files pdf html hp hr hg hs).1,
    eventsSince_append hY]
  apply eventsSince_append
  rw [t5, t4, hY]
  simp

end Controllers

/-! ## The watch loop -/

theorem specLifecycleFrom_mono :
    ∀ (l2 l : List String) (ph : Phase), l2 <+: l → specLifecycleFrom ph l = true →
      specLifecycleFrom ph l2 = true := by
  intro l2
  induction l2 with
  | nil => intro l ph _ _; rfl
  | cons s rest ih =>
    intro l ph hpre hl
    obtain ⟨t, ht⟩ := hpre
    subst ht
    simp only [List.cons_append, specLifecycleFrom] at hl ⊢
    cases hstep : specLifecycleStep ph s with
    | none => simp [hstep] at hl
    | some ph2 =>
      simp only [hstep] at hl ⊢
      exact ih (rest ++ t) ph2 ⟨t, rfl⟩ hl

namespace Queue

theorem watchUpdate_status (jobID : String) (n : Notification) (j : FirestoreJob) :
    (watchUpdate jobID n j).Status = j.Status := rfl

/-- The updates the loop sends extend those already sent, and their statuses are, in
order, statuses of the notifications that decode to a record. -/
theorem watchLoop_updates (jobID : String) (feed : List Notification) :
    ∀ (ups : List JobUpdate) (h : Nat),
      ∃ more, (watchLoop jobID feed ups h).updates = ups ++ more ∧
        more.map JobUpdate.Status <+: feed.filterMap Notification.status? := by
  induction feed with
  | nil => intro ups h; exact ⟨[], by simp [watchLoop], by simp⟩
  | cons n rest ih =>
    intro ups h
    unfold watchLoop
    cases hs : n.snapshot with
    | streamError err => exact ⟨[], by simp, by simp⟩
    | missing => exact ⟨[], by simp, by simp⟩
    | undecodable err =>
      obtain ⟨more, h1, h2⟩ := ih ups (h + 1)
      refine ⟨more, h1, ?_⟩
      simpa [List.filterMap_cons, Notification.status?, hs] using h2
    | doc j =>
      simp only
      cases hc : n.cancelled with
      | some err => exact ⟨[], by simp, by simp⟩
      | none =>
        simp only
        split
        · refine ⟨[_], rfl, ?_⟩
          simp [List.filterMap_cons, Notification.status?, hs, watchUpdate_status]
        · obtain ⟨more, h1, h2⟩ := ih (ups ++ [watchUpdate jobID n j]) (h + 1)
          refine ⟨_ :: more, by rw [h1, List.append_assoc]; rfl, ?_⟩
          simp only [List.filterMap_cons, Notification.status?, hs, List.map_cons]
          exact List.cons_prefix_cons.mpr ⟨watchUpdate_status jobID n j, h2⟩

/-- When the updates sent so far are not terminal, a terminal update among those the
loop has sent is the last one, the loop has returned nil right after it, and what it
did does not depend on the notifications after those it took. -/
theorem watchLoop_terminal (jobID : String) (feed : List Notification) :
    ∀ (ups : List JobUpdate) (h : Nat),
      (∀ u ∈ ups, isTerminal u.Status = false) →
      ∀ pre u post, (watchLoop jobID feed ups h).updates = pre ++ u :: post →
        isTerminal u.Status = true →
          post = [] ∧ (watchLoop jobID feed ups h).ret = some none ∧
          h < (watchLoop jobID feed ups h).handled ∧
          ∀ extra, watchLoop jobID
              (feed.take ((watchLoop jobID feed ups h).handled - h) ++ extra) ups h =
            watchLoop jobID feed ups h := by
  have hold : ∀ (ups pre post : List JobUpdate) (u : JobUpdate),
      (∀ u ∈ ups, isTerminal u.Status = false) → ups = pre ++ u :: post →
      isTerminal u.Status = true → False := by
    intro ups pre post u hups heq hu
    have := hups u (by rw [heq]; simp)
    rw [this] at hu
    cases hu
  induction feed with
  | nil =>
    intro ups h hups pre u post heq hu
    exact (hold ups pre post u hups (by simpa [watchLoop] using heq) hu).elim
  | cons n rest ih =>
    intro ups h hups pre u post heq hu
    cases hs : n.snapshot with
    | streamError err =>
      exact (hold ups pre post u hups (by simpa [watchLoop, hs] using heq) hu).elim
    | missing =>
      exact (hold ups pre post u hups (by simpa [watchLoop, hs] using heq) hu).elim
    | undecodable err =>
      have hstep : ∀ tl, watchLoop jobID (n :: tl) ups h = watchLoop jobID tl ups (h + 1) := by
        intro tl
        simp [watchLoop, hs]
      rw [hstep] at heq ⊢
      obtain ⟨h1, h2, h3, h4⟩ := ih ups (h + 1) hups pre u post heq hu
      refine ⟨h1, h2, by omega, ?_⟩
      intro extra
      have hk : (watchLoop jobID rest ups (h + 1)).handled - h =
          ((watchLoop jobID rest ups (h + 1)).handled - (h + 1)) + 1 := by omega
      rw [hk, List.take_succ_cons, List.cons_append, hstep]
      exact h4 extra
    | doc j =>
      cases hc : n.cancelled with
      | some err =>
        exact (hold ups pre post u hups (by simpa [watchLoop, hs, hc] using heq) hu).elim
      | none =>
        by_cases hterm : j.Status = StatusCompleted ∨ j.Status = StatusFailed
        · have hstep : ∀ tl, watchLoop jobID (n :: tl) ups h =
              { updates := ups ++ [watchUpdate jobID n j],
                closed := false, subscribed := true, handled := h + 1, ret := some none } := by
            intro tl
            simp [watchLoop, hs, hc, hterm, watchUpdate_status]
          rw [hstep] at heq ⊢
          simp only at heq
          refine ⟨?_, rfl, by simp, ?_⟩
          · rcases List.eq_nil_or_concat post with hnil | ⟨post2, z, hpost⟩
            · exact hnil
            · exfalso
              rw [hpost] at heq
              have heq2 : ups ++ [watchUpdate jobID n j] = (pre ++ u :: post2) ++ [z] := by
                rw [heq]; simp
              have := (List.append_inj' heq2 rfl).1
              exact hold ups pre post2 u hups this hu
          · intro extra
            show watchLoop jobID (List.take (h + 1 - h) (n :: rest) ++ extra) ups h = _
            rw [show h + 1 - h = 1 by omega, List.take_succ_cons, List.take_zero,
              List.cons_append, List.nil_append, hstep]
        · have hstep : ∀ tl, watchLoop jobID (n :: tl) ups h =
              watchLoop jobID tl
                (ups ++ [watchUpdate jobID n j]) (h + 1) := by
            intro tl
            simp [watchLoop, hs, hc, hterm, watchUpdate_status]
          rw [hstep] at heq ⊢
          have hups2 : ∀ u ∈ ups ++ [watchUpdate jobID n j],
              isTerminal u.Status = false := by
            intro v hv
            rcases List.mem_append.mp hv with hv | hv
            · exact hups v hv
            · rw [List.mem_singleton.mp hv]
              simpa [isTerminal, StatusCompleted, StatusFailed, watchUpdate_status] using hterm
          obtain ⟨h1, h2, h3, h4⟩ := ih _ (h + 1) hups2 pre u post heq hu
          refine ⟨h1, h2, by omega, ?_⟩
          intro extra
          have hk : (watchLoop jobID rest
                (ups ++ [watchUpdate jobID n j]) (h + 1)).handled - h =
              ((watchLoop jobID rest
                (ups ++ [watchUpdate jobID n j]) (h + 1)).handled - (h + 1)) + 1 := by omega
          rw [hk, List.take_succ_cons, List.cons_append, hstep]
          exact h4 extra

end Queue

namespace Queue

theorem WatchJob_not_found (env : ReadEnv) (w : World) (jobID : String)
    (feed : List Notification) (h : (GetJob env w jobID).1 = none) :
    WatchJob env w jobID feed =
      ({ updates := [], closed := false, subscribed := false, handled := 0,
         ret := some (some "job not found") }, (GetJob env w jobID).2) := by
  unfold WatchJob
  rw [pair_of_fst h]

theorem WatchJob_initial_terminal (env : ReadEnv) (w : World) (jobID : String)
    (feed : List Notification) (job : Job) (h : (GetJob env w jobID).1 = some job)
    (hterm : job.Status = StatusCompleted ∨ job.Status = StatusFailed) :
    WatchJob env w jobID feed =
      ({ updates := [initialUpdate job], closed := true, subscribed := false, handled := 0,
         ret := some none }, (GetJob env w jobID).2) := by
  unfold WatchJob
  rw [pair_of_fst h]
  simp [hterm]

theorem WatchJob_subscribes (env : ReadEnv) (w : World) (jobID : String)
    (feed : List Notification) (job : Job) (h : (GetJob env w jobID).1 = some job)
    (hterm : ¬ (job.Status = StatusCompleted ∨ job.Status = StatusFailed)) :
    WatchJob env w jobID feed =
      (watchLoop jobID feed [initialUpdate job] 0, (GetJob env w jobID).2) := by
  unfold WatchJob
  rw [pair_of_fst h]
  simp [hterm]

/-- The handle `GetJob` returns for an unexpired record that is read and decoded. -/
theorem GetJob_live (env : ReadEnv) (w : World) (id : String) (j : FirestoreJob)
    (hget : env.getErr = none) (hdec : env.decodeErr = none) (hj : w.jobs id = some j)
    (hlive : ¬ (j.ExpiresAt > 0 ∧ w.now > j.ExpiresAt)) :
    GetJob env w id =
      (some (jobOfRecord j
        (if j.Status = StatusCompleted then lookupResultURL env w.advance id else "")),
        w.advance) := by
  unfold GetJob
  simp only [hget, hdec, hj, hlive, if_false]

end Queue

namespace Queue

/-- Every update the loop has sent was sent before the loop started or was built from
a notification of the feed that decodes to a record and whose send was not
cancelled. -/
theorem watchLoop_sent (jobID : String) (feed : List Notification) :
    ∀ (ups : List JobUpdate) (h : Nat) (u : JobUpdate),
      u ∈ (watchLoop jobID feed ups h).updates →
        u ∈ ups ∨ ∃ n ∈ feed, ∃ j, n.snapshot = .doc j ∧ n.cancelled = none ∧
          u = watchUpdate jobID n j := by
  induction feed with
  | nil => intro ups h u hu; exact Or.inl (by simpa [watchLoop] using hu)
  | cons n rest ih =>
    intro ups h u hu
    cases hs : n.snapshot with
    | streamError err => exact Or.inl (by simpa [watchLoop, hs] using hu)
    | missing => exact Or.inl (by simpa [watchLoop, hs] using hu)
    | undecodable err =>
      have hstep : watchLoop jobID (n :: rest) ups h = watchLoop jobID rest ups (h + 1) := by
        simp [watchLoop, hs]
      rw [hstep] at hu
      rcases ih ups (h + 1) u hu with hin | ⟨m, hm, j, h1, h2, h3⟩
      · exact Or.inl hin
      · exact Or.inr ⟨m, List.mem_cons_of_mem _ hm, j, h1, h2, h3⟩
    | doc j =>
      cases hc : n.cancelled with
      | some err => exact Or.inl (by simpa [watchLoop, hs, hc] using hu)
      | none =>
        by_cases hterm : j.Status = StatusCompleted ∨ j.Status = StatusFailed
        · have hstep : watchLoop jobID (n :: rest) ups h =
              { updates := ups ++ [watchUpdate jobID n j],
                closed := false, subscribed := true, handled := h + 1, ret := some none } := by
            simp [watchLoop, hs, hc, hterm, watchUpdate_status]
          rw [hstep] at hu
          rcases List.mem_append.mp hu with hin | hin
          · exact Or.inl hin
          · exact Or.inr ⟨n, List.mem_cons_self _ _, j, hs, hc, List.mem_singleton.mp hin⟩
        · have hstep : watchLoop jobID (n :: rest) ups h =
              watchLoop jobID rest (ups ++ [watchUpdate jobID n j]) (h + 1) := by
            simp [watchLoop, hs, hc, hterm, watchUpdate_status]
          rw [hstep] at hu
          rcases ih _ (h + 1) u hu with hin | ⟨m, hm, j2, h1, h2, h3⟩
          · rcases List.mem_append.mp hin with hin | hin
            · exact Or.inl hin
            · exact Or.inr ⟨n, List.mem_cons_self _ _, j, hs, hc, List.mem_singleton.mp hin⟩
          · exact Or.inr ⟨m, List.mem_cons_of_mem _ hm, j2, h1, h2, h3⟩

/-- The handle `GetJob` returns is built from the stored record, with the result URL
looked up when the record is completed. -/
theorem GetJob_some (env : ReadEnv) (w : World) (id : String) (job : Job)
    (h : (GetJob env w id).1 = some job) :
    ∃ j, w.jobs id = some j ∧
      job = jobOfRecord j
        (if j.Status = StatusCompleted then lookupResultURL env w.advance id else "") := by
  unfold GetJob at h
  cases hg : env.getErr with
  | some e => simp [hg] at h
  | none =>
    cases hj : w.jobs id with
    | none => simp [hg, hj] at h
    | some j =>
      cases hd : env.decodeErr with
      | some e => simp [hg, hj, hd] at h
      | none =>
        simp only [hg, hj, hd] at h
        split at h
        · simp at h
        · exact ⟨j, rfl, (Option.some.inj h).symm⟩

/-- The result URL the lookup returns when the result record is stored with the
given URL: that URL when the record is read and decoded, the empty string
otherwise. -/
theorem lookupResultURL_stored (env : ReadEnv) (w : World) (id : String)
    (res : FirestoreResult) (hres : w.results id = some res) :
    (env.resultGetErr = none → env.resultDecodeErr = none →
      lookupResultURL env w id = res.ResultURL) ∧
    (env.resultGetErr ≠ none ∨ env.resultDecodeErr ≠ none → lookupResultURL env w id = "") := by
  unfold lookupResultURL
  refine ⟨fun hg hd => by simp [hg, hd, hres], fun hfail => ?_⟩
  cases hg : env.resultGetErr with
  | some e => rfl
  | none =>
    cases hd : env.resultDecodeErr with
    | some e => simp [hres]
    | none => simp [hg, hd] at hfail

/-- A completed update among those `WatchJob` has sent is the last one, and
`WatchJob` has returned nil after it. -/
theorem WatchJob_completed_last (env : ReadEnv) (w : World) (jobID : String)
    (feed : List Notification) (u : JobUpdate)
    (hu : u ∈ (WatchJob env w jobID feed).1.updates) (hstat : u.Status = "completed") :
    (WatchJob env w jobID feed).1.updates.getLast? = some u ∧
    (WatchJob env w jobID feed).1.ret = some none := by
  cases hG : (GetJob env w jobID).1 with
  | none =>
    rw [WatchJob_not_found env w jobID feed hG] at hu
    simp at hu
  | some job =>
    by_cases hterm : job.Status = StatusCompleted ∨ job.Status = StatusFailed
    · rw [WatchJob_initial_terminal env w jobID feed job hG hterm] at hu ⊢
      simp only [List.mem_singleton] at hu
      subst hu
      exact ⟨rfl, rfl⟩
    · rw [WatchJob_subscribes env w jobID feed job hG hterm] at hu ⊢
      simp only at hu ⊢
      obtain ⟨pre, post, heq⟩ := List.append_of_mem hu
      have hinit : ∀ v ∈ [initialUpdate job], isTerminal v.Status = false := by
        intro v hv
        rw [List.mem_singleton.mp hv]
        simpa [isTerminal, initialUpdate, StatusCompleted, StatusFailed] using hterm
      obtain ⟨hpost, hret, _, _⟩ := watchLoop_terminal jobID feed [initialUpdate job] 0 hinit
        pre u post heq (by simp [isTerminal, hstat])
      subst hpost
      refine ⟨?_, hret⟩
      rw [heq]
      simp

end Queue

/-! ## From the dispatch to the Worker's run -/

theorem stageEvents_filter (id : String) (fs : List File) (f : Event → Bool)
    (hmk : ∀ d ok, f (.mkdirAll d ok) = false)
    (hwr : ∀ path d ok, f (.writeFile path d ok) = false) :
    (stageEvents id fs).filter f = [] := by
  induction fs with
  | nil => rfl
  | cons file rest ih => simp [stageEvents, hmk, hwr, ih]

/-- A dispatch that returns no error has reached the Worker, whose handler ran on
the dispatched payload in the world of the POST and answered with a status below
300. -/
theorem dispatch_ok_inv (env : ProducerEnv) (doErr : Option String) (wenv : WorkerEnv)
    (w : World) (id theme : String) (files : List File) (settings : SlideSettings)
    (hdisp : (dispatchOutcome env (workerDo doErr wenv) w id theme files settings).1 = none) :
    (dispatchOutcome env (workerDo doErr wenv) w id theme files settings).2 =
      (Controllers.ProcessSlides wenv (.ok (dispatchedPayload id theme files settings))
        (workerEntry env w id theme files settings)).2 ∧
    (Controllers.ProcessSlides wenv (.ok (dispatchedPayload id theme files settings))
      (workerEntry env w id theme files settings)).1.StatusCode < 300 := by
  unfold dispatchOutcome Queue.triggerSlidesService at hdisp ⊢
  simp only at hdisp ⊢
  cases hm : env.marshalErr with
  | some e => simp [hm] at hdisp
  | none =>
    cases hq : env.requestErr with
    | some e => simp [hm, hq] at hdisp
    | none =>
      simp only [hm, hq] at hdisp ⊢
      cases doErr with
      | some e => simp [workerDo] at hdisp
      | none =>
        simp only [workerDo] at hdisp ⊢
        split at hdisp
        · simp at hdisp
        · rename_i hlt
          simp only [hlt, if_false]
          exact ⟨rfl, by simpa using hlt⟩

/-- A submission whose store write, staging and dispatch succeed leaves the world the
dispatch left. -/
theorem submit_of_dispatch_ok (env : ProducerEnv) (doErr : Option String) (wenv : WorkerEnv)
    (w : World) (id theme : String) (files : List File) (settings : SlideSettings)
    (hset : env.setErr = none)
    (hstage : ∀ i < files.length, env.mkdirErr i = none ∧ env.writeErr i = none)
    (hdisp : (dispatchOutcome env (workerDo doErr wenv) w id theme files settings).1 = none) :
    submit env doErr wenv w id theme files settings =
      ((some (Queue.queuedJob id theme files settings w.now), none),
        (dispatchOutcome env (workerDo doErr wenv) w id theme files settings).2) := by
  obtain ⟨hpair, _⟩ := Queue.stagedWorld_spec env w id theme files settings hset hstage
  have hS : docSetJob env.setErr id (Queue.queuedRecord id w.now) w.advance =
      (none, (docSetJob env.setErr id (Queue.queuedRecord id w.now) w.advance).2) := by
    simp [docSetJob, hset]
  have hT := pair_of_fst hdisp
  unfold dispatchOutcome at hT
  unfold submit Queue.AddJob
  simp only
  rw [hS]
  simp only
  rw [hpair]
  simp only
  rw [hT]
  rfl

/-! ## The function `filepath.Join` on staged paths -/

theorem splitSlash_ne_nil (p : List Char) : splitSlash p ≠ [] := by
  induction p with
  | nil => simp [splitSlash]
  | cons c cs ih =>
    unfold splitSlash
    split
    · simp
    · split <;> simp

theorem splitSlash_slash (ys : List Char) : splitSlash ('/' :: ys) = [] :: splitSlash ys := by
  have h := splitSlash_ne_nil ys
  conv_lhs => unfold splitSlash
  split
  · rename_i heq; exact absurd heq h
  · rename_i x xs heq; simp [heq]

theorem splitSlash_cons_of {c : Char} {cs x : List Char} {rest : List (List Char)}
    (hs : splitSlash cs = x :: rest) :
    splitSlash (c :: cs) = if c = '/' then [] :: x :: rest else (c :: x) :: rest := by
  rw [splitSlash, hs]

theorem splitSlash_append_slash (xs ys : List Char) :
    splitSlash (xs ++ '/' :: ys) = splitSlash xs ++ splitSlash ys := by
  induction xs with
  | nil =>
    show splitSlash ('/' :: ys) = [[]] ++ splitSlash ys
    rw [splitSlash_slash]
    rfl
  | cons c cs ih =>
    have h := splitSlash_ne_nil cs
    cases hs : splitSlash cs with
    | nil => exact absurd hs h
    | cons x rest =>
      have h1 : splitSlash (cs ++ '/' :: ys) = x :: (rest ++ splitSlash ys) := by
        rw [ih, hs]; rfl
      rw [List.cons_append, splitSlash_cons_of h1, splitSlash_cons_of hs]
      by_cases hc : c = '/' <;> simp [hc]

theorem splitSlash_no_slash (ys : List Char) (h : '/' ∉ ys) : splitSlash ys = [ys] := by
  induction ys with
  | nil => rfl
  | cons c cs ih =>
    have hc : c ≠ '/' := fun hc => h (by simp [hc])
    have hcs : '/' ∉ cs := fun hm => h (List.mem_cons_of_mem _ hm)
    unfold splitSlash
    rw [ih hcs]
    simp [hc]

theorem splitSlash_comps (p : List Char) : ∀ c ∈ splitSlash p, '/' ∉ c := by
  induction p with
  | nil => simp [splitSlash]
  | cons a cs ih =>
    have h := splitSlash_ne_nil cs
    cases hs : splitSlash cs with
    | nil => exact absurd hs h
    | cons x rest =>
      rw [hs] at ih
      unfold splitSlash
      rw [hs]
      simp only
      by_cases ha : a = '/'
      · simp only [ha, if_true]
        intro c hc
        rcases List.mem_cons.mp hc with h1 | h1
        · simp [h1]
        · exact ih c h1
      · simp only [ha, if_false]
        intro c hc
        rcases List.mem_cons.mp hc with h1 | h1
        · rw [h1]
          intro hm
          rcases List.mem_cons.mp hm with h2 | h2
          · exact ha h2.symm
          · exact ih x (by simp) h2
        · exact ih c (List.mem_cons_of_mem _ h1)

theorem intercalate_cons_cons (a b : List Char) (l : List (List Char)) :
    List.intercalate ['/'] (a :: b :: l) = a ++ '/' :: List.intercalate ['/'] (b :: l) := by
  simp [List.intercalate, List.intersperse]

theorem splitSlash_intercalate (comps : List (List Char)) (hne : comps ≠ [])
    (h : ∀ c ∈ comps, '/' ∉ c) : splitSlash (List.intercalate ['/'] comps) = comps := by
  induction comps with
  | nil => exact absurd rfl hne
  | cons a rest ih =>
    cases rest with
    | nil =>
      have : List.intercalate ['/'] [a] = a := by simp [List.intercalate, List.intersperse]
      rw [this]
      exact splitSlash_no_slash a (h a (by simp))
    | cons b l =>
      rw [intercalate_cons_cons, splitSlash_append_slash,
        splitSlash_no_slash a (h a (by simp)),
        ih (by simp) (fun c hc => h c (List.mem_cons_of_mem _ hc))]
      rfl

theorem cleanStep_plain (r : Bool) (st : List (List Char)) (c : List Char)
    (h : PlainComp c) : cleanStep r st c = c :: st := by
  obtain ⟨h1, h2, h3⟩ := h
  simp [cleanStep, h1, h2, h3]

theorem cleanStep_rooted_plain (st : List (List Char)) (c : List Char)
    (hst : ∀ x ∈ st, PlainComp x) : ∀ x ∈ cleanStep true st c, PlainComp x := by
  unfold cleanStep
  split
  · exact hst
  · rename_i h1
    split
    · cases st with
      | nil => simp
      | cons top rest =>
        have htop := hst top (by simp)
        simp only [htop.2.2, if_false]
        exact fun x hx => hst x (List.mem_cons_of_mem _ hx)
    · rename_i h2
      intro x hx
      rcases List.mem_cons.mp hx with h3 | h3
      · rw [h3]
        exact ⟨fun h => h1 (Or.inl h), fun h => h1 (Or.inr h), h2⟩
      · exact hst x h3

theorem foldl_rooted_plain (comps : List (List Char)) :
    ∀ st : List (List Char), (∀ x ∈ st, PlainComp x) →
      ∀ x ∈ comps.foldl (cleanStep true) st, PlainComp x := by
  induction comps with
  | nil => intro st h; exact h
  | cons c rest ih =>
    intro st h
    exact ih _ (cleanStep_rooted_plain st c h)

theorem cleanStep_no_slash (r : Bool) (st : List (List Char)) (c : List Char)
    (hst : ∀ x ∈ st, '/' ∉ x) (hc : '/' ∉ c) : ∀ x ∈ cleanStep r st c, '/' ∉ x := by
  unfold cleanStep
  split
  · exact hst
  · split
    · cases st with
      | nil =>
        cases r
        · intro x hx
          simp only [Bool.false_eq_true, if_false, List.mem_singleton] at hx
          rw [hx]; exact hc
        · simp
      | cons top rest =>
        simp only
        split
        · intro x hx
          rcases List.mem_cons.mp hx with h3 | h3
          · rw [h3]; exact hc
          · exact hst x h3
        · exact fun x hx => hst x (List.mem_cons_of_mem _ hx)
    · intro x hx
      rcases List.mem_cons.mp hx with h3 | h3
      · rw [h3]; exact hc
      · exact hst x h3

theorem foldl_no_slash (r : Bool) (comps : List (List Char)) :
    ∀ st : List (List Char), (∀ x ∈ st, '/' ∉ x) → (∀ c ∈ comps, '/' ∉ c) →
      ∀ x ∈ comps.foldl (cleanStep r) st, '/' ∉ x := by
  induction comps with
  | nil => intro st h _; exact h
  | cons c rest ih =>
    intro st h hc
    exact ih _ (cleanStep_no_slash r st c h (hc c (by simp)))
      (fun x hx => hc x (List.mem_cons_of_mem _ hx))

theorem foldl_plain (r : Bool) (comps : List (List Char)) :
    ∀ st : List (List Char), (∀ c ∈ comps, PlainComp c) →
      comps.foldl (cleanStep r) st = comps.reverse ++ st := by
  induction comps with
  | nil => intro st _; rfl
  | cons c rest ih =>
    intro st h
    rw [List.foldl_cons, cleanStep_plain r st c (h c (by simp)),
      ih _ (fun x hx => h x (List.mem_cons_of_mem _ hx))]
    simp

theorem cleanStack_plain (p : List Char) : ∀ x ∈ cleanStack p, PlainComp x :=
  foldl_rooted_plain _ [] (by simp)

theorem cleanStack_no_slash (p : List Char) : ∀ x ∈ cleanStack p, '/' ∉ x :=
  foldl_no_slash true _ [] (by simp) (splitSlash_comps p)

theorem filepathClean_rooted (q : List Char) :
    filepathClean ('/' :: q) =
      '/' :: List.intercalate ['/'] (cleanStack ('/' :: q)).reverse := by
  simp [filepathClean, cleanStack]

theorem cleanStack_clean (q : List Char) :
    cleanStack (filepathClean ('/' :: q)) = cleanStack ('/' :: q) := by
  rw [filepathClean_rooted]
  have hplain := cleanStack_plain ('/' :: q)
  have hslash := cleanStack_no_slash ('/' :: q)
  generalize cleanStack ('/' :: q) = S at hplain hslash ⊢
  unfold cleanStack
  rw [splitSlash_slash, List.foldl_cons]
  have h0 : cleanStep true [] [] = [] := by simp [cleanStep]
  rw [h0]
  by_cases hne : S.reverse = []
  · have : S = [] := by simpa using hne
    subst this
    simp [List.intercalate, splitSlash, cleanStep]
  · rw [splitSlash_intercalate _ hne (fun c hc => hslash c (List.mem_reverse.mp hc)),
      foldl_plain true _ [] (fun c hc => hplain c (List.mem_reverse.mp hc))]
    simp

theorem cleanStack_append (x n : List Char) :
    cleanStack (x ++ '/' :: n) = (splitSlash n).foldl (cleanStep true) (cleanStack x) := by
  unfold cleanStack
  rw [splitSlash_append_slash, List.foldl_append]

theorem filepathClean_idem (q : List Char) :
    filepathClean (filepathClean ('/' :: q)) = filepathClean ('/' :: q) := by
  have h := cleanStack_clean q
  rw [filepathClean_rooted] at h ⊢
  rw [filepathClean_rooted, h]

theorem filepathClean_clean_append (q n : List Char) :
    filepathClean (filepathClean ('/' :: q) ++ '/' :: n) =
      filepathClean ('/' :: q ++ '/' :: n) := by
  have h := cleanStack_clean q
  have e1 : filepathClean ('/' :: q) ++ '/' :: n =
      '/' :: (List.intercalate ['/'] (cleanStack ('/' :: q)).reverse ++ '/' :: n) := by
    rw [filepathClean_rooted]; rfl
  have a1 := cleanStack_append (filepathClean ('/' :: q)) n
  have a2 := cleanStack_append ('/' :: q) n
  rw [h] at a1
  rw [e1] at a1 ⊢
  rw [List.cons_append] at a2 ⊢
  rw [filepathClean_rooted, filepathClean_rooted, a1, a2]

theorem filepathClean_rooted_ne_nil (q : List Char) : filepathClean ('/' :: q) ≠ [] := by
  rw [filepathClean_rooted]
  simp

theorem intercalate_append_singleton (S : List (List Char)) (a : List Char) :
    List.intercalate ['/'] (S ++ [a]) =
      (if S = [] then [] else List.intercalate ['/'] S ++ ['/']) ++ a := by
  induction S with
  | nil => simp [List.intercalate, List.intersperse]
  | cons c S2 ih =>
    cases S2 with
    | nil => simp [List.intercalate, List.intersperse]
    | cons d l =>
      rw [List.cons_append, List.cons_append, intercalate_cons_cons, ← List.cons_append, ih,
        intercalate_cons_cons]
      simp

theorem filepathJoin_of_filter (elems : List String) (es : List (List Char))
    (h : (elems.map String.toList).filter (fun e => e ≠ []) = es) (hne : es ≠ []) :
    filepathJoin elems = String.mk (filepathClean (List.intercalate ['/'] es)) := by
  unfold filepathJoin
  rw [h]
  cases es with
  | nil => exact absurd rfl hne
  | cons e rest => rfl

theorem intercalate_one (a : List Char) : List.intercalate ['/'] [a] = a := by
  simp [List.intercalate, List.intersperse]

theorem intercalate_two (a b : List Char) :
    List.intercalate ['/'] [a, b] = a ++ '/' :: b := by
  simp [List.intercalate, List.intersperse]

theorem intercalate_three (a b c : List Char) :
    List.intercalate ['/'] [a, b, c] = a ++ '/' :: (b ++ '/' :: c) := by
  simp [List.intercalate, List.intersperse]

/-- Joining a cleaned rooted path with a further element gives what joining the
path itself would give. -/
theorem filepathJoin_clean (q : List Char) (name : String) :
    filepathJoin [String.mk (filepathClean ('/' :: q)), name] =
      if name.toList = [] then String.mk (filepathClean ('/' :: q))
      else String.mk (filepathClean ('/' :: q ++ '/' :: name.toList)) := by
  have hne := filepathClean_rooted_ne_nil q
  by_cases hn : name.toList = []
  · have hn2 : name.data = [] := hn
    rw [if_pos hn, filepathJoin_of_filter _ [filepathClean ('/' :: q)] (by simp [hn2, hne])
      (by simp), intercalate_one, filepathClean_idem]
  · have hn2 : ¬ name.data = [] := hn
    rw [if_neg hn, filepathJoin_of_filter _ [filepathClean ('/' :: q), name.toList]
      (by simp [hn2, hne]) (by simp), intercalate_two, filepathClean_clean_append]

/-- The function `filepath.Join` on "/shared", a job id and a file name is the join
of the name with the join of "/shared" and the id. -/
theorem filepathJoin_shared (id name : String) :
    filepathJoin [filepathJoin ["/shared", id], name] = filepathJoin ["/shared", id, name] := by
  have hs : "/shared".toList = '/' :: "shared".toList := by rfl
  have hs0 : "/shared".toList ≠ [] := by rw [hs]; simp
  by_cases hi : id.toList = []
  · have hi2 : id.data = [] := hi
    have hdir : filepathJoin ["/shared", id] =
        String.mk (filepathClean ('/' :: "shared".toList)) := by
      rw [filepathJoin_of_filter _ ["/shared".toList] (by simp [hi2, hs0]) (by simp),
        intercalate_one, hs]
    rw [hdir, filepathJoin_clean]
    by_cases hn : name.toList = []
    · have hn2 : name.data = [] := hn
      rw [if_pos hn, filepathJoin_of_filter _ ["/shared".toList] (by simp [hi2, hn2, hs0])
        (by simp), intercalate_one, hs]
    · have hn2 : ¬ name.data = [] := hn
      rw [if_neg hn, filepathJoin_of_filter _ ["/shared".toList, name.toList]
        (by simp [hi2, hn2, hs0]) (by simp), intercalate_two, hs]
  · have hi2 : ¬ id.data = [] := hi
    have hdir : filepathJoin ["/shared", id] =
        String.mk (filepathClean ('/' :: ("shared".toList ++ '/' :: id.toList))) := by
      rw [filepathJoin_of_filter _ ["/shared".toList, id.toList] (by simp [hi2, hs0])
        (by simp), intercalate_two, hs]
      rfl
    rw [hdir, filepathJoin_clean]
    by_cases hn : name.toList = []
    · have hn2 : name.data = [] := hn
      rw [if_pos hn, filepathJoin_of_filter _ ["/shared".toList, id.toList]
        (by simp [hi2, hn2, hs0]) (by simp), intercalate_two, hs]
      rfl
    · have hn2 : ¬ name.data = [] := hn
      rw [if_neg hn, filepathJoin_of_filter _ ["/shared".toList, id.toList, name.toList]
        (by simp [hi2, hn2, hs0]) (by simp), intercalate_three, hs]
      simp

/-- Under a fixed rooted directory, the cleaned path of a plain name is a fixed
prefix followed by the name. -/
theorem filepathClean_plain_name (q n : List Char) (hn : PlainComp n) (hslash : '/' ∉ n) :
    filepathClean ('/' :: q ++ '/' :: n) =
      ('/' :: (if (cleanStack ('/' :: q)).reverse = [] then []
          else List.intercalate ['/'] (cleanStack ('/' :: q)).reverse ++ ['/'])) ++ n := by
  have h1 : cleanStack ('/' :: q ++ '/' :: n) = n :: cleanStack ('/' :: q) := by
    rw [cleanStack_append, splitSlash_no_slash n hslash]
    exact cleanStep_plain true _ n hn
  have e : '/' :: q ++ '/' :: n = '/' :: (q ++ '/' :: n) := rfl
  rw [e, filepathClean_rooted, ← e, h1, List.reverse_cons, intercalate_append_singleton]
  rfl


/-! ## Staged paths and staged bytes -/

theorem stagedPath_flat (id : String) (f : File) :
    stagedPath id f = filepathJoin ["/shared", id, f.Filename] :=
  filepathJoin_shared id f.Filename

/-- The staged paths of plain names under one job id are one fixed text followed by
the name. -/
theorem stagedPath_plain (id : String) :
    ∃ P : List Char, ∀ f : File, PlainName f.Filename →
      stagedPath id f = String.mk (P ++ f.Filename.toList) := by
  have hs : "/shared".toList = '/' :: "shared".toList := by rfl
  have hs0 : "/shared".toList ≠ [] := by rw [hs]; simp
  by_cases hi : id.toList = []
  · have hi2 : id.data = [] := hi
    refine ⟨'/' :: (if (cleanStack ('/' :: "shared".toList)).reverse = [] then []
      else List.intercalate ['/'] (cleanStack ('/' :: "shared".toList)).reverse ++ ['/']),
      fun f hf => ?_⟩
    have hn : ¬ f.Filename.data = [] := hf.1.1
    rw [stagedPath_flat, filepathJoin_of_filter _ ["/shared".toList, f.Filename.toList]
      (by simp [hi2, hn, hs0]) (by simp), intercalate_two, hs,
      filepathClean_plain_name _ _ hf.1 hf.2]
  · have hi2 : ¬ id.data = [] := hi
    refine ⟨'/' :: (if (cleanStack ('/' :: ("shared".toList ++ '/' :: id.toList))).reverse = []
        then []
      else List.intercalate ['/']
        (cleanStack ('/' :: ("shared".toList ++ '/' :: id.toList))).reverse ++ ['/']),
      fun f hf => ?_⟩
    have hn : ¬ f.Filename.data = [] := hf.1.1
    have e : '/' :: "shared".toList ++ '/' :: (id.toList ++ '/' :: f.Filename.toList) =
        '/' :: ("shared".toList ++ '/' :: id.toList) ++ '/' :: f.Filename.toList := by simp
    rw [stagedPath_flat, filepathJoin_of_filter _
      ["/shared".toList, id.toList, f.Filename.toList]
      (by simp [hi2, hn, hs0]) (by simp), intercalate_three, hs, e,
      filepathClean_plain_name _ _ hf.1 hf.2]

theorem stagedPath_inj (id : String) (f g : File) (hf : PlainName f.Filename)
    (hg : PlainName g.Filename) (h : stagedPath id f = stagedPath id g) :
    f.Filename = g.Filename := by
  obtain ⟨P, hP⟩ := stagedPath_plain id
  rw [hP f hf, hP g hg] at h
  have h1 : P ++ f.Filename.toList = P ++ g.Filename.toList := by
    simpa using congrArg String.toList h
  have h2 : f.Filename.toList = g.Filename.toList := List.append_cancel_left h1
  exact String.ext h2

theorem stagedPath_nodup (id : String) (files : List File)
    (hplain : ∀ f ∈ files, PlainName f.Filename)
    (hnames : (files.map File.Filename).Nodup) : (files.map (stagedPath id)).Nodup := by
  unfold List.Nodup at hnames ⊢
  rw [List.pairwise_map] at hnames ⊢
  exact hnames.imp_of_mem
    (fun ha hb hne hp => hne (stagedPath_inj id _ _ (hplain _ ha) (hplain _ hb) hp))

theorem stagedFiles_other (id : String) (files : List File) :
    ∀ (base : String → Option Bytes) (path : String),
      path ∉ files.map (stagedPath id) → stagedFiles id files base path = base path := by
  induction files with
  | nil => intro base path _; rfl
  | cons f rest ih =>
    intro base path hnot
    simp only [List.map_cons, List.mem_cons, not_or] at hnot
    show stagedFiles id rest (setKey base (stagedPath id f) (some f.Data)) path = _
    rw [ih _ path hnot.2]
    simp [setKey, hnot.1]

theorem stagedFiles_nodup (id : String) (files : List File) :
    ∀ (base : String → Option Bytes), (files.map (stagedPath id)).Nodup →
      ∀ f ∈ files, stagedFiles id files base (stagedPath id f) = some f.Data := by
  induction files with
  | nil => intro base _ f hf; simp at hf
  | cons g rest ih =>
    intro base hnd f hf
    simp only [List.map_cons, List.nodup_cons] at hnd
    show stagedFiles id rest (setKey base (stagedPath id g) (some g.Data)) _ = _
    rcases List.mem_cons.mp hf with h | h
    · rw [h, stagedFiles_other id rest _ _ hnd.1]
      simp [setKey]
    · exact ih _ hnd.2 f h

theorem stagedFiles_present (id : String) (files : List File) :
    ∀ (base : String → Option Bytes), ∀ path ∈ files.map (stagedPath id),
      ∃ d, stagedFiles id files base path = some d := by
  induction files with
  | nil => intro base path hpath; simp at hpath
  | cons f rest ih =>
    intro base path hpath
    show ∃ d, stagedFiles id rest (setKey base (stagedPath id f) (some f.Data)) path = some d
    by_cases hin : path ∈ rest.map (stagedPath id)
    · exact ih _ path hin
    · have hp : path = stagedPath id f := by
        simp only [List.map_cons, List.mem_cons] at hpath
        rcases hpath with h | h
        · exact h
        · exact absurd h hin
      rw [stagedFiles_other id rest _ _ hin, hp]
      exact ⟨f.Data, by simp [setKey]⟩

namespace Queue

theorem stageLoop_files (env : ProducerEnv) (id : String) (job : Job) (files : List File) :
    ∀ (i : Nat) (refs : List FileReference) (w : World),
      (∀ m < files.length, env.mkdirErr (i + m) = none ∧ env.writeErr (i + m) = none) →
      (stageLoop env id job files i refs w).2.files = stagedFiles id files w.files := by
  induction files with
  | nil => intro i refs w _; rfl
  | cons f rest ih =>
    intro i refs w h
    have h0 := h 0 (by simp)
    simp only [Nat.add_zero] at h0
    have hrest : ∀ m < rest.length,
        env.mkdirErr (i + 1 + m) = none ∧ env.writeErr (i + 1 + m) = none := by
      intro m hm
      have := h (m + 1) (by simp; omega)
      rwa [show i + (m + 1) = i + 1 + m by omega] at this
    unfold stageLoop
    rw [saveFileLocally_ok env i w id f h0.1 h0.2]
    simp only
    rw [ih (i + 1) _ _ hrest]
    rfl

end Queue

/-- The volume the Worker finds: the volume of the submission with the submitted
files written to their staged paths, in order. -/
theorem workerEntry_files (env : ProducerEnv) (w : World) (id theme : String)
    (files : List File) (settings : SlideSettings) (hset : env.setErr = none)
    (hstage : ∀ i < files.length, env.mkdirErr i = none ∧ env.writeErr i = none) :
    (workerEntry env w id theme files settings).files = stagedFiles id files w.files := by
  show (stagedWorld env w id theme files settings).files = _
  unfold stagedWorld
  rw [Queue.stageLoop_files env id _ files 0 [] _ (by simpa using hstage)]
  simp [docSetJob, hset, World.advance]

/-- The read loop of the Worker, run on the dispatched payload without a read
fault while every staged path holds a file, returns for each reference the bytes
at its path. -/
theorem readAll_staged (wenv : WorkerEnv) (env : ProducerEnv) (w : World) (id theme : String)
    (files : List File) (settings : SlideSettings) (hset : env.setErr = none)
    (hstage : ∀ i < files.length, env.mkdirErr i = none ∧ env.writeErr i = none)
    (hread : ∀ i < files.length, wenv.readErr i = none) :
    (Controllers.readAll wenv (dispatchedPayload id theme files settings)
      (workerEntry env w id theme files settings)).1 =
      .ok (filesRead (stagedFiles id files w.files) (files.map (stagedRef id))) := by
  have hfiles := workerEntry_files env w id theme files settings hset hstage
  have hmp := (Controllers.markProcessing_spec wenv (dispatchedPayload id theme files settings)
    (workerEntry env w id theme files settings)).2.1
  have hpresent := stagedFiles_present id files w.files
  have hall : ∀ m ref, (dispatchedPayload id theme files settings).Files[m]? = some ref →
      ∃ d, ReadSuccess wenv
        (Controllers.markProcessing wenv (dispatchedPayload id theme files settings)
          (workerEntry env w id theme files settings)).2.files (0 + m) ref d := by
    intro m ref hm
    rw [hmp, hfiles]
    have hlt : m < files.length := by
      have := (List.getElem?_eq_some_iff.mp hm).1
      simpa [dispatchedPayload] using this
    have hmem : ref ∈ files.map (stagedRef id) := List.mem_iff_getElem?.mpr ⟨m, hm⟩
    obtain ⟨f, hf, rfl⟩ := List.mem_map.mp hmem
    obtain ⟨d, hd⟩ := hpresent (stagedPath id f) (List.mem_map.mpr ⟨f, hf, rfl⟩)
    exact ⟨d, by simpa using hread m hlt, hd⟩
  have heq := Controllers.readLoop_all_ok wenv id (files.map (stagedRef id)) 0 []
    (Controllers.markProcessing wenv (dispatchedPayload id theme files settings)
      (workerEntry env w id theme files settings)).2 hall
  unfold Controllers.readAll
  show (Controllers.readLoop wenv id (files.map (stagedRef id)) 0 [] _).1 = _
  rw [heq, hmp, hfiles]
  rfl

/-- With pairwise distinct staged paths, reading the references back gives the
submitted files. -/
theorem filesRead_staged (id : String) (files : List File) (base : String → Option Bytes)
    (hnd : (files.map (stagedPath id)).Nodup) :
    filesRead (stagedFiles id files base) (files.map (stagedRef id)) = files := by
  unfold filesRead
  rw [List.map_map]
  conv_rhs => rw [← List.map_id files]
  apply List.map_congr_left
  intro f hf
  simp only [Function.comp, stagedRef, id_eq]
  rw [stagedFiles_nodup id files base hnd f hf]
  rfl

/-! ## The handler run with nothing happening in between -/

namespace Controllers

theorem readLoopDuring_id (env : WorkerEnv) (jobID : String) (refs : List FileReference) :
    ∀ (i : Nat) (files : List File) (w : World),
      readLoopDuring id env jobID refs i files w = readLoop env jobID refs i files w := by
  induction refs with
  | nil => intro i files w; rfl
  | cons r rest ih =>
    intro i files w
    unfold readLoopDuring readLoop
    simp only [id_eq]
    split
    · rfl
    · exact ih _ _ _

theorem runRenderDuring_id (env : WorkerEnv) (jobID : String) (rd : Render) :
    ∀ (n : Nat) (w : World),
      runRenderDuring id env jobID rd n w = runRender env jobID rd n w := by
  induction rd with
  | done pdf html => intro n w; rfl
  | fail err => intro n w; rfl
  | progress msg next ih =>
    intro n w
    unfold runRenderDuring runRender
    simp only [id_eq]
    exact ih _ _ _

theorem cleanupLoopDuring_id (env : WorkerEnv) (refs : List FileReference) :
    ∀ (i : Nat) (w : World), cleanupLoopDuring id env refs i w = cleanupLoop env refs i w := by
  induction refs with
  | nil => intro i w; rfl
  | cons r rest ih =>
    intro i w
    unfold cleanupLoopDuring cleanupLoop
    simp only [id_eq]
    exact ih _ _

/-- With nothing happening in between, the handler run with interruptions is the
handler. -/
theorem ProcessSlidesDuring_id (env : WorkerEnv) (body : Except String TaskPayload)
    (w : World) : ProcessSlidesDuring id env body w = ProcessSlides env body w := by
  unfold ProcessSlidesDuring ProcessSlides
  simp only [id_eq, readLoopDuring_id, runRenderDuring_id, cleanupLoopDuring_id]

end Controllers

/-! ## The dispatch call returning a transport error -/

theorem requestSent_spec (env : ProducerEnv) (files : List File)
    (h : requestSent env files = true) :
    env.setErr = none ∧
    (∀ i < files.length, env.mkdirErr i = none ∧ env.writeErr i = none) ∧
    env.marshalErr = none ∧ env.requestErr = none := by
  simp only [requestSent, Bool.and_eq_true, Option.isNone_iff_eq_none, List.all_eq_true,
    List.mem_range] at h
  exact ⟨h.1.1.1, h.1.1.2, h.1.2, h.2⟩

/-- When `AddJob` sends the request and the dispatch call returns a transport error,
leaving the world `v`, `AddJob` ends with its failed write made on `v`. -/
theorem AddJob_transport_error (env : ProducerEnv) (post : HttpDo) (w : World)
    (id theme : String) (files : List File) (settings : SlideSettings) (err : String)
    (v : World) (hsent : requestSent env files = true)
    (hpost : post (env.serviceURL ++ "/tasks/process-slides")
        (dispatchedPayload id theme files settings)
        (workerEntry env w id theme files settings) = (.error err, v)) :
    (Queue.AddJob env post w id theme files settings).2 =
      Queue.dispatchFailed env (Queue.queuedJob id theme files settings w.now) err v := by
  obtain ⟨hset, hstage, hm, hr⟩ := requestSent_spec env files hsent
  obtain ⟨hpair, _⟩ := Queue.stagedWorld_spec env w id theme files settings hset hstage
  have hS : docSetJob env.setErr id (Queue.queuedRecord id w.now) w.advance =
      (none, (docSetJob env.setErr id (Queue.queuedRecord id w.now) w.advance).2) := by
    simp [docSetJob, hset]
  have hT : Queue.triggerSlidesService env post (stagedWorld env w id theme files settings)
      (Queue.queuedJob id theme files settings w.now) (files.map (stagedRef id)) =
      (some ("failed to send http request to slides service: " ++ err), v) := by
    unfold Queue.triggerSlidesService
    simp only [hm, hr]
    have hp : post (env.serviceURL ++ "/tasks/process-slides")
        { JobID := (Queue.queuedJob id theme files settings w.now).ID,
          Theme := (Queue.queuedJob id theme files settings w.now).Theme,
          Files := files.map (stagedRef id),
          Settings := (Queue.queuedJob id theme files settings w.now).Settings }
        ((stagedWorld env w id theme files settings).log
          (.httpPost (env.serviceURL ++ "/tasks/process-slides")
            { JobID := (Queue.queuedJob id theme files settings w.now).ID,
              Theme := (Queue.queuedJob id theme files settings w.now).Theme,
              Files := files.map (stagedRef id),
              Settings := (Queue.queuedJob id theme files settings w.now).Settings })) =
        (.error err, v) := hpost
    rw [hp]
  unfold Queue.AddJob
  simp only
  rw [hS]
  simp only
  rw [hpair]
  simp only
  rw [hT]
  rfl

/-! ## Steps that leave the result records alone -/

theorem Quiet.same (w : World) : Quiet w w := ⟨rfl, [], by simp, by simp⟩

theorem Quiet.qthen {w1 w2 w3 : World} (h12 : Quiet w1 w2) (h23 : Quiet w2 w3) :
    Quiet w1 w3 := by
  obtain ⟨r1, e1, t1, p1⟩ := h12
  obtain ⟨r2, e2, t2, p2⟩ := h23
  refine ⟨r2.trans r1, e1 ++ e2, by rw [t2, t1, List.append_assoc], ?_⟩
  intro e he
  rcases List.mem_append.mp he with h | h
  · exact p1 e h
  · exact p2 e h

theorem Quiet.single {w w2 : World} {e : Event} (hr : w2.results = w.results)
    (ht : w2.trace = w.trace ++ [e]) (he : NoCompletion e) : Quiet w w2 :=
  ⟨hr, [e], ht, by simpa using he⟩

theorem noCompletion_update (a : Actor) (id st msg : String) (t : Int) (x : Option Int)
    (prev : Option String) (ok : Bool) (h : st ≠ "completed") :
    NoCompletion (.jobUpdate a id st msg t x prev ok) := by
  intro k
  cases ok with
  | false => simp [Event.statusWritten]
  | true =>
    simp only [Event.statusWritten]
    split
    · simpa using h
    · simp

theorem docUpdateJob_quiet (a : Actor) (f : Option String) (id st msg : String) (t : Int)
    (x : Option Int) (w : World) (h : st ≠ "completed") :
    Quiet w (docUpdateJob a f id st msg t x w).2 :=
  Quiet.single (docUpdateJob_results _ _ _ _ _ _ _ _) (docUpdateJob_trace _ _ _ _ _ _ _ _)
    (noCompletion_update _ _ _ _ _ _ _ _ h)

theorem Controllers.updateJobStatus_quiet (f : Option String) (w : World)
    (id st msg url : String) (h : st ≠ "completed") :
    Quiet w (Controllers.updateJobStatus f w id st msg url).2 :=
  Quiet.single (docUpdateJob_results _ _ _ _ _ _ _ _) (docUpdateJob_trace _ _ _ _ _ _ _ _)
    (noCompletion_update _ _ _ _ _ _ _ _ h)

theorem Queue.producerUpdate_quiet (env : ProducerEnv) (w : World) (job : Job)
    (st msg url : String) (h : st ≠ "completed") :
    Quiet w (Queue.updateJobStatus env w job st msg url).2 :=
  Quiet.single (Queue.updateJobStatus_results _ _ _ _ _ _) (Queue.updateJobStatus_trace _ _ _ _ _ _)
    (noCompletion_update _ _ _ _ _ _ _ _ h)

theorem Queue.dispatchFailed_quiet (env : ProducerEnv) (job : Job) (err : String)
    (w : World) : Quiet w (Queue.dispatchFailed env job err w) :=
  Queue.producerUpdate_quiet env w job _ _ _ (by decide)

theorem clientTimeout_quiet (env : ProducerEnv) (job : Job) (err : String) (point : Nat)
    (w : World) : Quiet w (clientTimeout env job err point w) := by
  unfold clientTimeout
  split
  · exact Queue.dispatchFailed_quiet env job err w
  · exact Quiet.same w

theorem log_quiet (w : World) (e : Event) (he : NoCompletion e) : Quiet w (w.log e) :=
  Quiet.single rfl rfl he

theorem osReadFile_quiet (f : Option String) (path : String) (w : World) :
    Quiet w (osReadFile f path w).2 := by
  unfold osReadFile
  cases f with
  | some e => exact Quiet.single rfl rfl (fun k => by simp [Event.statusWritten])
  | none =>
    cases w.files path with
    | none => exact Quiet.single rfl rfl (fun k => by simp [Event.statusWritten])
    | some d => exact Quiet.single rfl rfl (fun k => by simp [Event.statusWritten])

theorem osRemove_quiet (f : Option String) (path : String) (w : World) :
    Quiet w (osRemove f path w).2 := by
  unfold osRemove
  cases f with
  | some e => exact Quiet.single rfl rfl (fun k => by simp [Event.statusWritten])
  | none =>
    cases w.files path with
    | none => exact Quiet.single rfl rfl (fun k => by simp [Event.statusWritten])
    | some d => exact Quiet.single rfl rfl (fun k => by simp [Event.statusWritten])

theorem osRemoveAll_quiet (f : Option String) (dir : String) (w : World) :
    Quiet w (osRemoveAll f dir w).2 := by
  unfold osRemoveAll
  cases f with
  | some e => exact Quiet.single rfl rfl (fun k => by simp [Event.statusWritten])
  | none => exact Quiet.single rfl rfl (fun k => by simp [Event.statusWritten])

theorem osMkdirAll_quiet (f : Option String) (dir : String) (w : World) :
    Quiet w (osMkdirAll f dir w).2 := by
  unfold osMkdirAll
  cases f with
  | some e => exact Quiet.single rfl rfl (fun k => by simp [Event.statusWritten])
  | none => exact Quiet.single rfl rfl (fun k => by simp [Event.statusWritten])

theorem osWriteFile_quiet (f : Option String) (path : String) (data : Bytes) (w : World) :
    Quiet w (osWriteFile f path data w).2 := by
  unfold osWriteFile
  cases f with
  | some e => exact Quiet.single rfl rfl (fun k => by simp [Event.statusWritten])
  | none => exact Quiet.single rfl rfl (fun k => by simp [Event.statusWritten])

theorem docDeleteJob_quiet (f : Option String) (id : String) (w : World) :
    Quiet w (docDeleteJob f id w).2 := by
  unfold docDeleteJob
  cases f with
  | some e => exact Quiet.single rfl rfl (fun k => by simp [Event.statusWritten])
  | none => exact Quiet.single rfl rfl (fun k => by simp [Event.statusWritten])

theorem docSetJob_queued_quiet (f : Option String) (id : String) (now : Int) (w : World) :
    Quiet w (docSetJob f id (Queue.queuedRecord id now) w).2 := by
  have hn : ∀ prev ok, NoCompletion (.jobSet (Queue.queuedRecord id now) prev ok) := by
    intro prev ok k
    cases ok with
    | false => simp [Event.statusWritten]
    | true =>
      simp only [Event.statusWritten]
      split
      · simp [Queue.queuedRecord, StatusQueued]
      · simp
  unfold docSetJob
  cases f with
  | some e => exact Quiet.single rfl rfl (hn _ _)
  | none => exact Quiet.single rfl rfl (hn _ _)

theorem advance_quiet (w : World) : Quiet w w.advance := ⟨rfl, [], by simp [World.advance], by simp⟩

namespace Queue

theorem saveFileLocally_quiet (env : ProducerEnv) (i : Nat) (w : World) (id : String)
    (file : File) : Quiet w (saveFileLocally env i w id file).2 := by
  have q1 := osMkdirAll_quiet (env.mkdirErr i) (filepathJoin ["/shared", id]) w
  unfold saveFileLocally
  simp only
  split
  · rename_i err w1 heq
    rw [heq] at q1
    exact q1
  · rename_i w1 heq
    rw [heq] at q1
    have q2 := osWriteFile_quiet (env.writeErr i)
      (filepathJoin [filepathJoin ["/shared", id], file.Filename]) file.Data w1
    split
    · rename_i err w2 heq2
      rw [heq2] at q2
      exact q1.qthen q2
    · rename_i w2 heq2
      rw [heq2] at q2
      exact q1.qthen q2

theorem stageLoop_quiet (env : ProducerEnv) (id : String) (job : Job) (files : List File) :
    ∀ (i : Nat) (refs : List FileReference) (w : World),
      Quiet w (stageLoop env id job files i refs w).2 := by
  induction files with
  | nil => intro i refs w; exact Quiet.same w
  | cons f rest ih =>
    intro i refs w
    have q1 := saveFileLocally_quiet env i w id f
    unfold stageLoop
    split
    · rename_i err w1 heq
      rw [heq] at q1
      exact q1.qthen (producerUpdate_quiet env w1 job StatusFailed _ "" (by decide))
    · rename_i path w1 heq
      rw [heq] at q1
      exact q1.qthen (ih _ _ _)

theorem GetJob_quiet (env : ReadEnv) (w : World) (id : String) :
    Quiet w (GetJob env w id).2 := by
  unfold GetJob
  split
  · exact Quiet.same w
  · split
    · exact Quiet.same w
    · split
      · exact Quiet.same w
      · simp only
        split
        · exact (advance_quiet w).qthen (docDeleteJob_quiet _ _ _)
        · exact advance_quiet w

theorem WatchJob_world (env : ReadEnv) (w : World) (id : String) (feed : List Notification) :
    (WatchJob env w id feed).2 = (GetJob env w id).2 := by
  unfold WatchJob
  split
  · rename_i w1 heq; rw [heq]
  · rename_i job w1 heq
    rw [heq]
    simp only
    split <;> rfl

end Queue

namespace Controllers

theorem readLoopDuring_quiet (intr : World → World) (hi : ∀ v, Quiet v (intr v))
    (env : WorkerEnv) (id : String) (refs : List FileReference) :
    ∀ (i : Nat) (files : List File) (w : World),
      Quiet w (readLoopDuring intr env id refs i files w).2 := by
  induction refs with
  | nil => intro i files w; exact Quiet.same w
  | cons r rest ih =>
    intro i files w
    have q1 := (hi w).qthen (osReadFile_quiet (env.readErr i) r.LocalPath (intr w))
    unfold readLoopDuring
    split
    · rename_i err w1 heq
      rw [heq] at q1
      exact (q1.qthen (hi w1)).qthen (updateJobStatus_quiet _ _ _ _ _ _ (by decide))
    · rename_i d w1 heq
      rw [heq] at q1
      exact q1.qthen (ih _ _ _)

theorem runRenderDuring_quiet (intr : World → World) (hi : ∀ v, Quiet v (intr v))
    (env : WorkerEnv) (id : String) (rd : Render) :
    ∀ (n : Nat) (w : World), Quiet w (runRenderDuring intr env id rd n w).2 := by
  induction rd with
  | done pdf html => intro n w; exact Quiet.same w
  | fail err => intro n w; exact Quiet.same w
  | progress msg next ih =>
    intro n w
    unfold runRenderDuring
    exact ((hi w).qthen (updateJobStatus_quiet _ _ _ _ _ _ (by decide))).qthen (ih _ _ _)

theorem cleanupLoopDuring_quiet (intr : World → World) (hi : ∀ v, Quiet v (intr v))
    (env : WorkerEnv) (refs : List FileReference) :
    ∀ (i : Nat) (w : World), Quiet w (cleanupLoopDuring intr env refs i w) := by
  induction refs with
  | nil => intro i w; exact Quiet.same w
  | cons r rest ih =>
    intro i w
    unfold cleanupLoopDuring
    exact ((hi w).qthen (osRemove_quiet _ _ _)).qthen (ih _ _)

end Controllers

/-! ## Steps and the result records -/

theorem statusHistory_append (k : String) (a b : List Event) :
    statusHistory k (a ++ b) = statusHistory k a ++ statusHistory k b := by
  simp [statusHistory, List.filterMap_append]

theorem statusHistory_quiet (k : String) (evs : List Event)
    (h : ∀ e ∈ evs, NoCompletion e) : "completed" ∉ statusHistory k evs := by
  intro hmem
  simp only [statusHistory, List.mem_filterMap] at hmem
  obtain ⟨e, he, hs⟩ := hmem
  exact h e he k hs

theorem completionFailed_append_left {k : String} {a : List Event} (b : List Event)
    (h : CompletionFailed k a) : CompletionFailed k (a ++ b) := by
  obtain ⟨m, t, x, p, hmem⟩ := h
  exact ⟨m, t, x, p, List.mem_append_left _ hmem⟩

theorem completionFailed_append_right {k : String} (a : List Event) {b : List Event}
    (h : CompletionFailed k b) : CompletionFailed k (a ++ b) := by
  obtain ⟨m, t, x, p, hmem⟩ := h
  exact ⟨m, t, x, p, List.mem_append_right _ hmem⟩

theorem StepEffect.idle (w : World) : StepEffect w w :=
  ⟨[], by simp, fun k => ⟨fun res h => Or.inl h, fun h => Or.inl h,
    fun h => by simp [statusHistory] at h⟩⟩

theorem StepEffect.of_quiet {w w2 : World} (h : Quiet w w2) : StepEffect w w2 := by
  obtain ⟨hr, evs, ht, hn⟩ := h
  refine ⟨evs, ht, fun k => ⟨fun res h => Or.inl (by rw [← hr]; exact h),
    fun h => Or.inl (by rw [← hr]; exact h), fun h => ?_⟩⟩
  exact absurd h (statusHistory_quiet k evs hn)

theorem StepEffect.sthen {w1 w2 w3 : World} (h12 : StepEffect w1 w2)
    (h23 : StepEffect w2 w3) : StepEffect w1 w3 := by
  obtain ⟨e1, t1, p1⟩ := h12
  obtain ⟨e2, t2, p2⟩ := h23
  refine ⟨e1 ++ e2, by rw [t2, t1, List.append_assoc], fun k => ?_⟩
  obtain ⟨a1, b1, c1⟩ := p1 k
  obtain ⟨a2, b2, c2⟩ := p2 k
  refine ⟨?_, ?_, ?_⟩
  · intro res h
    rcases a2 res h with h2 | ⟨hu, hc⟩
    · rcases a1 res h2 with h1 | ⟨hu, hc⟩
      · exact Or.inl h1
      · refine Or.inr ⟨hu, ?_⟩
        rcases hc with hc | hc
        · exact Or.inl (by rw [statusHistory_append]; exact List.mem_append_left _ hc)
        · exact Or.inr (completionFailed_append_left _ hc)
    · refine Or.inr ⟨hu, ?_⟩
      rcases hc with hc | hc
      · exact Or.inl (by rw [statusHistory_append]; exact List.mem_append_right _ hc)
      · exact Or.inr (completionFailed_append_right _ hc)
  · intro h
    rcases b2 h with h2 | h2
    · rcases b1 h2 with h1 | h1
      · exact Or.inl h1
      · exact Or.inr (List.mem_append_left _ h1)
    · exact Or.inr (List.mem_append_right _ h2)
  · intro h
    rw [statusHistory_append] at h
    rcases List.mem_append.mp h with h | h
    · rcases c1 h with hs | hd
      · cases h3 : w3.results k with
        | some r => exact Or.inl rfl
        | none =>
          rcases b2 h3 with h2 | h2
          · rw [h2] at hs; simp at hs
          · exact Or.inr (List.mem_append_right _ h2)
      · exact Or.inr (List.mem_append_left _ hd)
    · rcases c2 h with hs | hd
      · exact Or.inl hs
      · exact Or.inr (List.mem_append_right _ hd)

/-- A successful result write for job `id`, then calls that leave the result
records alone, then the completion write for job `id`. -/
theorem StepEffect.store_complete {w a b c d : World} {id msg : String}
    {rec : FirestoreResult} {t : Int} {prev : Option String} {x2 : Option Int} {ok : Bool}
    (hwa : Quiet w a) (hbr : b.results = setKey a.results id (some rec))
    (hbt : b.trace = a.trace ++ [.resultSet rec true])
    (hurl : rec.ResultURL = "/results/" ++ id) (hbc : Quiet b c)
    (hdr : d.results = c.results)
    (hdt : d.trace = c.trace ++ [.jobUpdate .worker id "completed" msg t x2 prev ok]) :
    StepEffect w d := by
  obtain ⟨ra, ea, ta, pa⟩ := hwa
  obtain ⟨rc, ec, tc, pc⟩ := hbc
  have hres : d.results = setKey w.results id (some rec) := by rw [hdr, rc, hbr, ra]
  have hhist : ∀ k, "completed" ∈ statusHistory k
      (ea ++ [.resultSet rec true] ++ ec ++
        [.jobUpdate .worker id "completed" msg t x2 prev ok]) → k = id ∧ ok = true := by
    intro k h
    simp only [statusHistory_append, List.mem_append] at h
    rcases h with ((h | h) | h) | h
    · exact absurd h (statusHistory_quiet k ea pa)
    · simp [statusHistory, Event.statusWritten] at h
    · exact absurd h (statusHistory_quiet k ec pc)
    · cases ok with
      | false => simp [statusHistory, Event.statusWritten] at h
      | true =>
        simp only [statusHistory, List.filterMap_cons, List.filterMap_nil,
          Event.statusWritten] at h
        by_cases hk : id = k
        · exact ⟨hk.symm, rfl⟩
        · simp [hk] at h
  refine ⟨ea ++ [.resultSet rec true] ++ ec ++
    [.jobUpdate .worker id "completed" msg t x2 prev ok], ?_, fun k => ⟨?_, ?_, ?_⟩⟩
  · rw [hdt, tc, hbt, ta]
    simp [List.append_assoc]
  · intro res h
    rw [hres] at h
    by_cases hk : k = id
    · subst hk
      simp only [setKey, if_true, Option.some.injEq] at h
      subst h
      refine Or.inr ⟨hurl, ?_⟩
      cases ok with
      | true =>
        left
        simp [statusHistory_append, statusHistory, Event.statusWritten]
      | false =>
        right
        exact ⟨msg, t, x2, prev, by simp⟩
    · simp only [setKey, hk, if_false] at h
      exact Or.inl h
  · intro h
    rw [hres] at h
    by_cases hk : k = id
    · subst hk
      simp [setKey] at h
    · simp only [setKey, hk, if_false] at h
      exact Or.inl h
  · intro h
    obtain ⟨hk, _⟩ := hhist k h
    subst hk
    left
    rw [hres]
    simp [setKey]

namespace Controllers

theorem storeResult_cases (f : Option String) (w : World) (id url : String)
    (pdf html : Bytes) :
    ((storeResult f w id url pdf html).1 ≠ none ∧ Quiet w (storeResult f w id url pdf html).2) ∨
    ((storeResult f w id url pdf html).1 = none ∧
      (storeResult f w id url pdf html).2.results =
        setKey w.results id (some (FirestoreResult.mk id url pdf html w.now (w.now + 3600))) ∧
      (storeResult f w id url pdf html).2.trace =
        w.trace ++ [.resultSet (FirestoreResult.mk id url pdf html w.now (w.now + 3600))
          true]) := by
  unfold storeResult docSetResult
  cases f with
  | some e =>
    exact Or.inl ⟨by simp, Quiet.single rfl rfl (fun k => by simp [Event.statusWritten])⟩
  | none => exact Or.inr ⟨rfl, rfl, rfl⟩

theorem setJobCompleted_log (f : Option String) (w : World) (id msg url : String) :
    (setJobCompleted f w id msg url).2.results = w.results ∧
    (setJobCompleted f w id msg url).2.trace =
      w.trace ++ [.jobUpdate .worker id "completed" msg w.now (some (w.now + 300))
        (w.status id) (setJobCompleted f w id msg url).1.isNone] :=
  ⟨docUpdateJob_results _ _ _ _ _ _ _ _, docUpdateJob_trace _ _ _ _ _ _ _ _⟩

/-- One run of the handler, whatever else happens in between as long as that leaves
the result records alone and stores status completed nowhere. -/
theorem ProcessSlidesDuring_step (intr : World → World) (hi : ∀ v, Quiet v (intr v))
    (env : WorkerEnv) (body : Except String TaskPayload) (w : World) :
    StepEffect w (ProcessSlidesDuring intr env body w).2 := by
  unfold ProcessSlidesDuring
  cases body with
  | error err => exact StepEffect.idle w
  | ok p =>
    simp only
    have q1 := (hi w).qthen (updateJobStatus_quiet env.processingErr (intr w) p.JobID
      "processing" "Processing slides" "" (by decide))
    split
    · rename_i err w1 heq
      rw [heq] at q1
      exact StepEffect.of_quiet q1
    · rename_i w1 heq
      rw [heq] at q1
      have q2 := q1.qthen (readLoopDuring_quiet intr hi env p.JobID p.Files 0 [] w1)
      split
      · rename_i resp w2 heq2
        rw [heq2] at q2
        exact StepEffect.of_quiet q2
      · rename_i files w2 heq2
        rw [heq2] at q2
        have q3 := ((q2.qthen (hi w2)).qthen
          (log_quiet (intr w2) (.generateSlides p.Theme files p.Settings)
            (fun k => by simp [Event.statusWritten]))).qthen
          (runRenderDuring_quiet intr hi env p.JobID (env.render p.Theme files p.Settings) 0
            ((intr w2).log (.generateSlides p.Theme files p.Settings)))
        split
        · rename_i err w3 heq3
          rw [heq3] at q3
          exact StepEffect.of_quiet ((q3.qthen (hi w3)).qthen
            (updateJobStatus_quiet _ _ _ _ _ _ (by decide)))
        · rename_i pdf html w3 heq3
          rw [heq3] at q3
          have q3i := q3.qthen (hi w3)
          rcases storeResult_cases env.storeErr (intr w3) p.JobID ("/results/" ++ p.JobID)
            pdf html with ⟨hne, q4⟩ | ⟨hnone, hres, htr⟩
          · split
            · rename_i err w4 heq4
              rw [heq4] at q4
              exact StepEffect.of_quiet (((q3i.qthen q4).qthen (hi w4)).qthen
                (updateJobStatus_quiet _ _ _ _ _ _ (by decide)))
            · rename_i w4 heq4
              rw [heq4] at hne
              exact absurd rfl hne
          · split
            · rename_i err w4 heq4
              rw [heq4] at hnone
              cases hnone
            · rename_i w4 heq4
              rw [heq4] at hres htr
              simp only at hres htr
              have q5 := ((cleanupLoopDuring_quiet intr hi env p.Files 0 w4).qthen
                (hi _)).qthen (osRemoveAll_quiet env.removeAllErr
                  (filepathJoin ["/shared", p.JobID])
                  (intr (cleanupLoopDuring intr env p.Files 0 w4)))
              have q6 := q5.qthen (hi _)
              obtain ⟨hr7, ht7⟩ := setJobCompleted_log env.completedErr
                (intr (osRemoveAll env.removeAllErr (filepathJoin ["/shared", p.JobID])
                  (intr (cleanupLoopDuring intr env p.Files 0 w4))).2) p.JobID
                "Slides generated successfully" ("/results/" ++ p.JobID)
              have hstep := StepEffect.store_complete q3i hres htr rfl q6 hr7 ht7
              split
              · rename_i err w7 heq7
                rw [heq7] at hstep
                exact hstep
              · rename_i w7 heq7
                rw [heq7] at hstep
                exact hstep

end Controllers

/-! ## Every operation is a step -/

theorem Queue.GetResult_step (env : ReadEnv) (w : World) (id : String) :
    StepEffect w (Queue.GetResult env w id).2 := by
  unfold Queue.GetResult
  split
  · exact StepEffect.idle w
  · split
    · exact StepEffect.idle w
    · split
      · exact StepEffect.idle w
      · simp only
        split
        · refine (StepEffect.of_quiet (advance_quiet w)).sthen ?_
          unfold docDeleteResult
          cases env.deleteErr with
          | some e =>
            exact StepEffect.of_quiet
              (Quiet.single rfl rfl (fun k => by simp [Event.statusWritten]))
          | none =>
            refine ⟨[.resultDelete id true], rfl, fun k => ⟨?_, ?_, ?_⟩⟩
            · intro res h
              by_cases hk : k = id
              · simp [setKey, hk] at h
              · simp only [setKey, hk, if_false] at h
                exact Or.inl h
            · intro h
              by_cases hk : k = id
              · right
                rw [hk]
                simp [ResultDeleted]
              · simp only [setKey, hk, if_false] at h
                exact Or.inl h
            · intro h
              simp [statusHistory, Event.statusWritten] at h
        · exact StepEffect.of_quiet (advance_quiet w)

theorem Queue.triggerSlidesService_step (env : ProducerEnv) (post : HttpDo)
    (hpost : ∀ url p v, StepEffect v (post url p v).2) (w : World) (job : Job)
    (refs : List FileReference) :
    StepEffect w (Queue.triggerSlidesService env post w job refs).2 := by
  unfold Queue.triggerSlidesService
  simp only
  split
  · exact StepEffect.idle w
  · split
    · exact StepEffect.idle w
    · have h1 : StepEffect w (w.log (.httpPost (env.serviceURL ++ "/tasks/process-slides")
          { JobID := job.ID, Theme := job.Theme, Files := refs, Settings := job.Settings })) :=
        StepEffect.of_quiet (log_quiet w _ (fun k => by simp [Event.statusWritten]))
      have h2 := h1.sthen (hpost (env.serviceURL ++ "/tasks/process-slides")
        { JobID := job.ID, Theme := job.Theme, Files := refs, Settings := job.Settings }
        (w.log (.httpPost (env.serviceURL ++ "/tasks/process-slides")
          { JobID := job.ID, Theme := job.Theme, Files := refs, Settings := job.Settings })))
      split
      · rename_i err w1 heq
        rw [heq] at h2
        exact h2
      · rename_i resp w1 heq
        rw [heq] at h2
        split
        · exact h2
        · exact h2

/-- A run of `AddJob` is a step, whenever the dispatch call is one. -/
theorem Queue.AddJob_step (env : ProducerEnv) (post : HttpDo)
    (hpost : ∀ url p v, StepEffect v (post url p v).2) (w : World) (id theme : String)
    (files : List File) (settings : SlideSettings) :
    StepEffect w (Queue.AddJob env post w id theme files settings).2 := by
  unfold Queue.AddJob
  simp only
  have q1 : Quiet w (docSetJob env.setErr id (Queue.queuedRecord id w.now) w.advance).2 :=
    (advance_quiet w).qthen (docSetJob_queued_quiet _ _ _ _)
  split
  · rename_i err w1 heq
    rw [heq] at q1
    exact StepEffect.of_quiet q1
  · rename_i w1 heq
    rw [heq] at q1
    have q2 := q1.qthen (Queue.stageLoop_quiet env id
      (Queue.queuedJob id theme files settings w.now) files 0 [] w1)
    split
    · rename_i job1 err w2 heq2
      rw [heq2] at q2
      exact StepEffect.of_quiet q2
    · rename_i refs w2 heq2
      rw [heq2] at q2
      have h3 := (StepEffect.of_quiet q2).sthen
        (Queue.triggerSlidesService_step env post hpost w2
          (Queue.queuedJob id theme files settings w.now) refs)
      split
      · rename_i err w3 heq3
        rw [heq3] at h3
        exact h3.sthen (StepEffect.of_quiet
          (Queue.producerUpdate_quiet env w3 _ StatusFailed _ "" (by decide)))
      · rename_i w3 heq3
        rw [heq3] at h3
        exact h3

theorem workerDo_step (doErr : Option String) (wenv : WorkerEnv) (url : String)
    (p : TaskPayload) (v : World) : StepEffect v (workerDo doErr wenv url p v).2 := by
  unfold workerDo
  cases doErr with
  | some e => exact StepEffect.idle v
  | none =>
    have h := Controllers.ProcessSlidesDuring_step id (fun v => Quiet.same v) wenv (.ok p) v
    rw [Controllers.ProcessSlidesDuring_id] at h
    exact h

theorem submit_step (env : ProducerEnv) (doErr : Option String) (wenv : WorkerEnv)
    (w : World) (id theme : String) (files : List File) (settings : SlideSettings) :
    StepEffect w (submit env doErr wenv w id theme files settings).2 :=
  Queue.AddJob_step env _ (workerDo_step doErr wenv) w id theme files settings

theorem workerEntry_quiet (env : ProducerEnv) (w : World) (id theme : String)
    (files : List File) (settings : SlideSettings) :
    Quiet w (workerEntry env w id theme files settings) := by
  unfold workerEntry stagedWorld
  exact (((advance_quiet w).qthen (docSetJob_queued_quiet _ _ _ _)).qthen
    (Queue.stageLoop_quiet _ _ _ _ _ _ _)).qthen
    (log_quiet _ _ (fun k => by simp [Event.statusWritten]))

theorem submitTimedOut_step (env : ProducerEnv) (err : String) (calls : Nat)
    (wenv : WorkerEnv) (w : World) (id theme : String) (files : List File)
    (settings : SlideSettings) :
    StepEffect w (submitTimedOut env err calls wenv w id theme files settings) := by
  unfold submitTimedOut
  split
  · simp only
    have h1 := (StepEffect.of_quiet (workerEntry_quiet env w id theme files settings)).sthen
      (Controllers.ProcessSlidesDuring_step
        (clientTimeout env (Queue.queuedJob id theme files settings w.now) err
          ((workerEntry env w id theme files settings).trace.length + calls))
        (fun v => clientTimeout_quiet _ _ _ _ v) wenv
        (.ok (dispatchedPayload id theme files settings))
        (workerEntry env w id theme files settings))
    split
    · exact h1.sthen (StepEffect.of_quiet (Queue.dispatchFailed_quiet _ _ _ _))
    · exact h1
  · exact submit_step env (some err) wenv w id theme files settings

/-- Every reachable world is a step away from an empty one. -/
theorem reachable_step (w : World) (h : Reachable w) :
    ∃ clock, StepEffect (World.empty clock) w := by
  induction h with
  | empty clock => exact ⟨clock, StepEffect.idle _⟩
  | submitted env doErr wenv w id theme files settings _ ih =>
    obtain ⟨clock, hs⟩ := ih
    exact ⟨clock, hs.sthen (submit_step env doErr wenv w id theme files settings)⟩
  | timedOut env err calls wenv w id theme files settings _ ih =>
    obtain ⟨clock, hs⟩ := ih
    exact ⟨clock, hs.sthen (submitTimedOut_step env err calls wenv w id theme files settings)⟩
  | processed wenv body w _ ih =>
    obtain ⟨clock, hs⟩ := ih
    have h := Controllers.ProcessSlidesDuring_step id (fun v => Quiet.same v) wenv body w
    rw [Controllers.ProcessSlidesDuring_id] at h
    exact ⟨clock, hs.sthen h⟩
  | gotJob env w id _ ih =>
    obtain ⟨clock, hs⟩ := ih
    exact ⟨clock, hs.sthen (StepEffect.of_quiet (Queue.GetJob_quiet env w id))⟩
  | gotResult env w id _ ih =>
    obtain ⟨clock, hs⟩ := ih
    exact ⟨clock, hs.sthen (Queue.GetResult_step env w id)⟩
  | watched env w id feed _ ih =>
    obtain ⟨clock, hs⟩ := ih
    refine ⟨clock, hs.sthen ?_⟩
    rw [Queue.WatchJob_world]
    exact StepEffect.of_quiet (Queue.GetJob_quiet env w id)

/-! ## A dispatch that times out: the moves of the status -/

theorem timedEv_of_worker {id : String} {e : Event} (h : WorkerEv id e) : TimedEv id e := by
  cases e <;> simp_all [WorkerEv, TimedEv]
  rename_i a _ _ _ _ _ _ _
  cases a <;> simp_all [WorkerEv, TimedEv]

theorem created_of_unstarted {id : String} {w : World} (h : Unstarted id w) : Created id w := by
  rcases h with h | h
  · exact Or.inl h
  · exact Or.inr (Or.inr (Or.inr h))

theorem created_of_running {id : String} {w : World} (h : Running id w) : Created id w := by
  rcases h with h | h
  · exact Or.inr (Or.inl h)
  · exact Or.inr (Or.inr (Or.inr h))

theorem Interrupts.timed {id : String} {intr : World → World} (hi : Interrupts id intr)
    {v : World} (hc : Created id v) : Extends (TimedEv id) v (intr v) := (hi v hc).1

theorem Interrupts.running {id : String} {intr : World → World} (hi : Interrupts id intr)
    {v : World} (hr : Running id v) : Running id (intr v) :=
  (hi v (created_of_running hr)).2.2.2 hr

theorem Queue.dispatchFailed_timed (env : ProducerEnv) (job : Job) (err : String)
    (v : World) (hc : Created job.ID v) :
    Extends (TimedEv job.ID) v (Queue.dispatchFailed env job err v) ∧
    Created job.ID (Queue.dispatchFailed env job err v) ∧
    (Unstarted job.ID v → Unstarted job.ID (Queue.dispatchFailed env job err v)) ∧
    (Running job.ID v → Running job.ID (Queue.dispatchFailed env job err v)) := by
  have hst := Queue.updateJobStatus_status env v job StatusFailed
    ("Failed to trigger slides service: " ++
      ("failed to send http request to slides service: " ++ err)) ""
  refine ⟨Extends.one (Queue.updateJobStatus_trace _ _ _ _ _ _) ?_, ?_, ?_, ?_⟩
  · exact ⟨rfl, rfl, hc⟩
  · rcases hst with h | h
    · exact Or.inr (Or.inr (Or.inr h))
    · unfold Created Queue.dispatchFailed
      rw [h]
      exact hc
  · intro hu
    rcases hst with h | h
    · exact Or.inr h
    · unfold Unstarted Queue.dispatchFailed
      rw [h]
      exact hu
  · intro hr
    rcases hst with h | h
    · exact Or.inr h
    · unfold Running Queue.dispatchFailed
      rw [h]
      exact hr

theorem clientTimeout_interrupts (env : ProducerEnv) (job : Job) (err : String)
    (point : Nat) : Interrupts job.ID (clientTimeout env job err point) := by
  intro v hc
  unfold clientTimeout
  split
  · exact Queue.dispatchFailed_timed env job err v hc
  · exact ⟨⟨[], by simp, by simp⟩, hc, fun h => h, fun h => h⟩

namespace Controllers

/-- One status update of the Worker on a record it finds with a status from which
the update is one of the timed moves. -/
theorem updateJobStatus_timed (f : Option String) (v : World) (id st msg url : String)
    (hA : WAllowed (v.status id) st ∨
      (v.status id = some "failed" ∧
        (st = "processing" ∨ st = "completed" ∨ st = "failed"))) :
    Extends (TimedEv id) v (updateJobStatus f v id st msg url).2 ∧
    (((updateJobStatus f v id st msg url).1 = none ∧
        (updateJobStatus f v id st msg url).2.status id = some st) ∨
     ((updateJobStatus f v id st msg url).1 ≠ none ∧
        (updateJobStatus f v id st msg url).2.status id = v.status id)) := by
  refine ⟨Extends.one (docUpdateJob_trace _ _ _ _ _ _ _ _) ?_, ?_⟩
  · exact ⟨rfl, hA⟩
  · unfold updateJobStatus
    by_cases h : (docUpdateJob .worker f id st msg v.now none v.advance).1 = none
    · exact Or.inl ⟨h, docUpdateJob_ok _ _ _ _ _ _ _ _ h⟩
    · refine Or.inr ⟨h, ?_⟩
      simp only [World.status, docUpdateJob_err _ _ _ _ _ _ _ _ h]
      rfl

theorem setJobCompleted_timed (f : Option String) (v : World) (id msg url : String)
    (hr : Running id v) :
    Extends (TimedEv id) v (setJobCompleted f v id msg url).2 ∧
    Created id (setJobCompleted f v id msg url).2 := by
  refine ⟨Extends.one (docUpdateJob_trace _ _ _ _ _ _ _ _) ?_, ?_⟩
  · refine ⟨rfl, ?_⟩
    rcases hr with h | h
    · exact Or.inl (Or.inr ⟨h, Or.inr (Or.inl rfl)⟩)
    · exact Or.inr ⟨h, Or.inr (Or.inl rfl)⟩
  · unfold setJobCompleted
    by_cases h : (docUpdateJob .worker f id "completed" msg v.now (some (v.now + 300))
        v.advance).1 = none
    · exact Or.inr (Or.inr (Or.inl (docUpdateJob_ok _ _ _ _ _ _ _ _ h)))
    · unfold Created
      simp only [World.status, docUpdateJob_err _ _ _ _ _ _ _ _ h]
      exact created_of_running hr

/-- The Worker marks a running job failed. -/
theorem updateJobStatus_failed_timed (f : Option String) (v : World) (id msg url : String)
    (hr : Running id v) :
    Extends (TimedEv id) v (updateJobStatus f v id "failed" msg url).2 ∧
    Created id (updateJobStatus f v id "failed" msg url).2 := by
  have hA : WAllowed (v.status id) "failed" ∨
      (v.status id = some "failed" ∧
        ("failed" = "processing" ∨ "failed" = "completed" ∨ "failed" = "failed")) := by
    rcases hr with h | h
    · exact Or.inl (Or.inr ⟨h, Or.inr (Or.inr rfl)⟩)
    · exact Or.inr ⟨h, Or.inr (Or.inr rfl)⟩
  obtain ⟨e, hst⟩ := updateJobStatus_timed f v id "failed" msg url hA
  refine ⟨e, ?_⟩
  rcases hst with ⟨_, h⟩ | ⟨_, h⟩
  · exact Or.inr (Or.inr (Or.inr h))
  · unfold Created
    rw [h]
    exact created_of_running hr

/-- The Worker reports progress on a running job. -/
theorem updateJobStatus_progress_timed (f : Option String) (v : World) (id msg url : String)
    (hr : Running id v) :
    Extends (TimedEv id) v (updateJobStatus f v id "processing" msg url).2 ∧
    Running id (updateJobStatus f v id "processing" msg url).2 := by
  have hA : WAllowed (v.status id) "processing" ∨
      (v.status id = some "failed" ∧
        ("processing" = "processing" ∨ "processing" = "completed" ∨
          "processing" = "failed")) := by
    rcases hr with h | h
    · exact Or.inl (Or.inr ⟨h, Or.inl rfl⟩)
    · exact Or.inr ⟨h, Or.inl rfl⟩
  obtain ⟨e, hst⟩ := updateJobStatus_timed f v id "processing" msg url hA
  refine ⟨e, ?_⟩
  rcases hst with ⟨_, h⟩ | ⟨_, h⟩
  · exact Or.inl h
  · unfold Running
    rw [h]
    exact hr

theorem running_of_jobs {id : String} {v v2 : World} (hj : v2.jobs = v.jobs)
    (hr : Running id v) : Running id v2 := by
  unfold Running World.status
  rw [hj]
  exact hr

theorem readLoopDuring_timed (intr : World → World) (id : String)
    (hi : Interrupts id intr) (env : WorkerEnv) (refs : List FileReference) :
    ∀ (i : Nat) (files : List File) (w : World), Running id w →
      Extends (TimedEv id) w (readLoopDuring intr env id refs i files w).2 ∧
      Created id (readLoopDuring intr env id refs i files w).2 ∧
      (∀ fs, (readLoopDuring intr env id refs i files w).1 = .ok fs →
        Running id (readLoopDuring intr env id refs i files w).2) := by
  induction refs with
  | nil =>
    intro i files w hr
    exact ⟨Extends.refl _ _, created_of_running hr, fun _ _ => hr⟩
  | cons r rest ih =>
    intro i files w hr
    have e0 := hi.timed (created_of_running hr)
    have r0 := hi.running hr
    obtain ⟨e1, j1, _⟩ := osReadFile_effect id (env.readErr i) r.LocalPath (intr w)
    have r1 : Running id (osReadFile (env.readErr i) r.LocalPath (intr w)).2 :=
      running_of_jobs j1 r0
    have e01 := e0.trans (e1.mono (fun _ => timedEv_of_worker))
    unfold readLoopDuring
    split
    · rename_i err w1 heq
      rw [heq] at e01 r1
      simp only at e01 r1
      have e2 := hi.timed (created_of_running r1)
      obtain ⟨e3, c3⟩ := updateJobStatus_failed_timed env.failedErr (intr w1) id
        ("Failed to read local file " ++ r.Filename ++ ": " ++ err) "" (hi.running r1)
      exact ⟨(e01.trans e2).trans e3, c3, fun fs h => by simp at h⟩
    · rename_i d w1 heq
      rw [heq] at e01 r1
      simp only at e01 r1
      obtain ⟨e2, c2, h2⟩ := ih (i + 1)
        (files ++ [{ Filename := r.Filename, Data := d, Typ := r.Typ }]) w1 r1
      exact ⟨e01.trans e2, c2, h2⟩

theorem runRenderDuring_timed (intr : World → World) (id : String)
    (hi : Interrupts id intr) (env : WorkerEnv) (rd : Render) :
    ∀ (n : Nat) (w : World), Running id w →
      Extends (TimedEv id) w (runRenderDuring intr env id rd n w).2 ∧
      Running id (runRenderDuring intr env id rd n w).2 := by
  induction rd with
  | done pdf html => intro n w hr; exact ⟨Extends.refl _ _, hr⟩
  | fail err => intro n w hr; exact ⟨Extends.refl _ _, hr⟩
  | progress msg next ih =>
    intro n w hr
    have e0 := hi.timed (created_of_running hr)
    obtain ⟨e1, r1⟩ := updateJobStatus_progress_timed (env.progressErr n) (intr w) id msg ""
      (hi.running hr)
    obtain ⟨e2, r2⟩ := ih _ (n + 1) _ r1
    exact ⟨(e0.trans e1).trans e2, r2⟩

theorem cleanupLoopDuring_timed (intr : World → World) (id : String)
    (hi : Interrupts id intr) (env : WorkerEnv) (refs : List FileReference) :
    ∀ (i : Nat) (w : World), Running id w →
      Extends (TimedEv id) w (cleanupLoopDuring intr env refs i w) ∧
      Running id (cleanupLoopDuring intr env refs i w) := by
  induction refs with
  | nil => intro i w hr; exact ⟨Extends.refl _ _, hr⟩
  | cons r rest ih =>
    intro i w hr
    have e0 := hi.timed (created_of_running hr)
    obtain ⟨e1, j1, _⟩ := osRemove_effect id (env.removeErr i) r.LocalPath (intr w)
    obtain ⟨e2, r2⟩ := ih (i + 1) (osRemove (env.removeErr i) r.LocalPath (intr w)).2
      (running_of_jobs j1 (hi.running hr))
    exact ⟨(e0.trans (e1.mono (fun _ => timedEv_of_worker))).trans e2, r2⟩

/-- One run of the handler for a job it finds unstarted, with the Producer's failed
write falling anywhere in between: only timed calls are logged, and the record
still has one of the four statuses afterwards. -/
theorem ProcessSlidesDuring_timed (intr : World → World) (env : WorkerEnv)
    (p : TaskPayload) (hi : Interrupts p.JobID intr) (w : World)
    (hu : Unstarted p.JobID w) :
    Extends (TimedEv p.JobID) w (ProcessSlidesDuring intr env (.ok p) w).2 ∧
    Created p.JobID (ProcessSlidesDuring intr env (.ok p) w).2 := by
  unfold ProcessSlidesDuring
  simp only
  have e0 := hi.timed (created_of_unstarted hu)
  have u0 : Unstarted p.JobID (intr w) := (hi w (created_of_unstarted hu)).2.2.1 hu
  have hA : WAllowed ((intr w).status p.JobID) "processing" ∨
      ((intr w).status p.JobID = some "failed" ∧
        ("processing" = "processing" ∨ "processing" = "completed" ∨
          "processing" = "failed")) := by
    rcases u0 with h | h
    · exact Or.inl (Or.inl ⟨h, rfl⟩)
    · exact Or.inr ⟨h, Or.inl rfl⟩
  obtain ⟨e1, h1⟩ := updateJobStatus_timed env.processingErr (intr w) p.JobID "processing"
    "Processing slides" "" hA
  have e01 := e0.trans e1
  split
  · -- the processing write failed
    rename_i err w1 heq
    rw [heq] at e01 h1
    simp only [reduceCtorEq, false_and, ne_eq, not_false_eq_true, true_and, false_or] at h1
    refine ⟨e01, ?_⟩
    unfold Created
    rw [h1]
    exact created_of_unstarted u0
  · rename_i w1 heq
    rw [heq] at e01 h1
    simp only [true_and, ne_eq, not_true_eq_false, false_and, or_false] at h1
    have r1 : Running p.JobID w1 := Or.inl h1
    obtain ⟨e2, c2, h2⟩ := readLoopDuring_timed intr p.JobID hi env p.Files 0 [] w1 r1
    have e012 := e01.trans e2
    split
    · rename_i resp w2 heq2
      rw [heq2] at e012 c2
      exact ⟨e012, c2⟩
    · rename_i files w2 heq2
      rw [heq2] at e012 h2
      have r2 : Running p.JobID w2 := h2 files rfl
      have e3 := hi.timed (created_of_running r2)
      have r3 : Running p.JobID
          ((intr w2).log (.generateSlides p.Theme files p.Settings)) :=
        running_of_jobs rfl (hi.running r2)
      have e3' : Extends (TimedEv p.JobID) (intr w2)
          ((intr w2).log (.generateSlides p.Theme files p.Settings)) :=
        Extends.one rfl (by simp [TimedEv])
      obtain ⟨e4, r4⟩ := runRenderDuring_timed intr p.JobID hi env
        (env.render p.Theme files p.Settings) 0
        ((intr w2).log (.generateSlides p.Theme files p.Settings)) r3
      have e0124 := ((e012.trans e3).trans e3').trans e4
      split
      · -- the render failed
        rename_i err w3 heq3
        rw [heq3] at e0124 r4
        obtain ⟨e5, c5⟩ := updateJobStatus_failed_timed env.failedErr (intr w3) p.JobID
          ("Failed to generate slides: " ++ err) "" (hi.running r4)
        exact ⟨(e0124.trans (hi.timed (created_of_running r4))).trans e5, c5⟩
      · rename_i pdf html w3 heq3
        rw [heq3] at e0124 r4
        simp only at r4
        obtain ⟨e5, j5, _⟩ := storeResult_effect env.storeErr (intr w3)
          p.JobID ("/results/" ++ p.JobID) pdf html
        have r5 : Running p.JobID (storeResult env.storeErr (intr w3) p.JobID
            ("/results/" ++ p.JobID) pdf html).2 := running_of_jobs j5 (hi.running r4)
        have e05 := (e0124.trans (hi.timed (created_of_running r4))).trans
          (e5.mono (fun _ => timedEv_of_worker))
        split
        · -- the result write failed
          rename_i err w4 heq4
          rw [heq4] at e05 r5
          simp only at e05 r5
          obtain ⟨e6, c6⟩ := updateJobStatus_failed_timed env.failedErr (intr w4) p.JobID
            ("Failed to store result: " ++ err) "" (hi.running r5)
          exact ⟨(e05.trans (hi.timed (created_of_running r5))).trans e6, c6⟩
        · rename_i w4 heq4
          rw [heq4] at e05 r5
          simp only at e05 r5
          obtain ⟨e6, r6⟩ := cleanupLoopDuring_timed intr p.JobID hi env p.Files 0 w4 r5
          obtain ⟨e7, j7, _⟩ := osRemoveAll_effect p.JobID env.removeAllErr
            (filepathJoin ["/shared", p.JobID]) (intr (cleanupLoopDuring intr env p.Files 0 w4))
          have r7 : Running p.JobID (osRemoveAll env.removeAllErr
              (filepathJoin ["/shared", p.JobID])
              (intr (cleanupLoopDuring intr env p.Files 0 w4))).2 :=
            running_of_jobs j7 (hi.running r6)
          obtain ⟨e8, c8⟩ := setJobCompleted_timed env.completedErr
            (intr (osRemoveAll env.removeAllErr (filepathJoin ["/shared", p.JobID])
              (intr (cleanupLoopDuring intr env p.Files 0 w4))).2) p.JobID
            "Slides generated successfully" ("/results/" ++ p.JobID) (hi.running r7)
          have eall := ((((e05.trans e6).trans (hi.timed (created_of_running r6))).trans
            (e7.mono (fun _ => timedEv_of_worker))).trans
            (hi.timed (created_of_running r7))).trans e8
          split
          · rename_i err w7 heq7
            rw [heq7] at eall c8
            exact ⟨eall, c8⟩
          · rename_i w7 heq7
            rw [heq7] at eall c8
            exact ⟨eall, c8⟩

end Controllers

theorem timedMove_of_forward {e : Event} (h : Forward e) : TimedMove e := by
  cases e <;> simp_all [Forward, TimedMove, TimedAllowed]

theorem timedMove_of_timedEv {id : String} {e : Event} (h : TimedEv id e) : TimedMove e := by
  cases e with
  | jobUpdate a id2 st msg t x prev ok =>
    cases a with
    | worker =>
      obtain ⟨_, hw | ⟨hp, hs | hs | hs⟩⟩ := h
      · exact Or.inl (Or.inr (Or.inl hw))
      · exact Or.inr (Or.inr ⟨rfl, hp, Or.inl hs⟩)
      · exact Or.inr (Or.inr ⟨rfl, hp, Or.inr hs⟩)
      · exact Or.inl (Or.inr (Or.inr (Or.inr ⟨hp, hs⟩)))
    | producer =>
      obtain ⟨_, hs, hp | hp | hp | hp⟩ := h
      · exact Or.inl (Or.inr (Or.inr (Or.inl ⟨hp, hs⟩)))
      · exact Or.inl (Or.inr (Or.inl (Or.inr ⟨hp, Or.inr (Or.inr hs)⟩)))
      · exact Or.inr (Or.inl ⟨rfl, hp, hs⟩)
      · exact Or.inl (Or.inr (Or.inr (Or.inr ⟨hp, hs⟩)))
  | _ => simp_all [TimedEv, TimedMove]

theorem stageEvents_timedMove (id : String) (files : List File) :
    ∀ e ∈ stageEvents id files, TimedMove e := by
  induction files with
  | nil => intro e he; simp [stageEvents] at he
  | cons f rest ih =>
    intro e he
    simp only [stageEvents, List.mem_cons] at he
    rcases he with h | h | h
    · rw [h]; trivial
    · rw [h]; trivial
    · exact ih e h

/-- A submission for a new job id whose dispatch times out while the Worker runs logs
timed moves only. -/
theorem submitTimedOut_moves (env : ProducerEnv) (err : String) (calls : Nat)
    (wenv : WorkerEnv) (w : World) (id theme : String) (files : List File)
    (settings : SlideSettings) (hfresh : w.jobs id = none) :
    Extends TimedMove w (submitTimedOut env err calls wenv w id theme files settings) := by
  unfold submitTimedOut
  split
  · rename_i hsent
    obtain ⟨hset, hstage, _, _⟩ := requestSent_spec env files hsent
    obtain ⟨_, hq, _, _, _, htr⟩ := Queue.stagedWorld_spec env w id theme files settings
      hset hstage
    have hnone : w.status id = none := by simp [World.status, hfresh]
    have e0 : Extends TimedMove w (workerEntry env w id theme files settings) := by
      refine ⟨[.jobSet (Queue.queuedRecord id w.now) (w.status id) true] ++
        stageEvents id files ++ [.httpPost (env.serviceURL ++ "/tasks/process-slides")
          (dispatchedPayload id theme files settings)], ?_, ?_⟩
      · simp only [workerEntry, World.log, htr, List.append_assoc]
      · intro e he
        simp only [List.append_assoc, List.mem_append, List.mem_singleton] at he
        rcases he with h | h | h
        · rw [h, hnone]
          exact Or.inl (Or.inl ⟨rfl, rfl⟩)
        · exact stageEvents_timedMove id files e h
        · rw [h]; trivial
    have hu : Unstarted id (workerEntry env w id theme files settings) := Or.inl hq
    obtain ⟨e1, c1⟩ := Controllers.ProcessSlidesDuring_timed
      (clientTimeout env (Queue.queuedJob id theme files settings w.now) err
        ((workerEntry env w id theme files settings).trace.length + calls)) wenv
      (dispatchedPayload id theme files settings)
      (clientTimeout_interrupts env (Queue.queuedJob id theme files settings w.now) err _)
      (workerEntry env w id theme files settings) hu
    have e01 := e0.trans (e1.mono (fun _ => timedMove_of_timedEv))
    simp only
    split
    · exact e01.trans
        ((Queue.dispatchFailed_timed env (Queue.queuedJob id theme files settings w.now) err
          _ c1).1.mono (fun _ => timedMove_of_timedEv))
    · exact e01
  · exact (submit_effect env (some err) wenv w id theme files settings hfresh).1.mono
      (fun _ => timedMove_of_forward)

/-! ## C1: the status only moves forward -/

/-- C1, counterexample: four submissions of `notesFile` as job "j1".  In the first
the Worker cannot read the staged file, marks the job failed and answers 500;
`AddJob` then writes status failed to the record whose current status is already
failed.  In the other three the dispatch call times out while the Worker is at
work, which does not stop the Worker.  When the timeout comes after the Worker's
last call, `AddJob` writes failed to the record the Worker has completed (this run
is also the run of `AddJob` with a dispatch call that lets the handler run to its
end and then returns the transport error); when it comes before the Worker's first
call or in the middle of its run, the Worker writes processing and then completed to
the record `AddJob` has marked failed. -/
theorem submit_writes_failed_over_failed :
    Event.jobUpdate .producer "j1" "failed"
        ("Failed to trigger slides service: slides service returned non-success status 500: "
          ++ "error=Failed to read local file: input/output error")
        1003 none (some "failed") true ∈
      (submit okProducerEnv none unreadableEnv freshWorld "j1" "default" [notesFile]
        mediumGeneral).2.trace ∧
    statusHistory "j1" (submit okProducerEnv none unreadableEnv freshWorld "j1" "default"
        [notesFile] mediumGeneral).2.trace =
      ["queued", "processing", "failed", "failed"] ∧
    statusHistory "j1" (submitTimedOut okProducerEnv "timeout" 8 okWorkerEnv freshWorld "j1"
        "default" [notesFile] mediumGeneral).trace =
      ["queued", "processing", "processing", "completed", "failed"] ∧
    (Queue.AddJob okProducerEnv (lateTimeoutDo "timeout" okWorkerEnv) freshWorld "j1"
        "default" [notesFile] mediumGeneral).2.trace =
      (submitTimedOut okProducerEnv "timeout" 8 okWorkerEnv freshWorld "j1" "default"
        [notesFile] mediumGeneral).trace ∧
    Event.jobUpdate .producer "j1" "failed"
        ("Failed to trigger slides service: failed to send http request to slides service: "
          ++ "timeout")
        1005 none (some "completed") true ∈
      (submitTimedOut okProducerEnv "timeout" 8 okWorkerEnv freshWorld "j1" "default"
        [notesFile] mediumGeneral).trace ∧
    statusHistory "j1" (submitTimedOut okProducerEnv "timeout" 0 okWorkerEnv freshWorld "j1"
        "default" [notesFile] mediumGeneral).trace =
      ["queued", "failed", "processing", "processing", "completed"] ∧
    statusHistory "j1" (submitTimedOut okProducerEnv "timeout" 2 okWorkerEnv freshWorld "j1"
        "default" [notesFile] mediumGeneral).trace =
      ["queued", "processing", "failed", "processing", "completed"] ∧
    Event.jobUpdate .worker "j1" "processing" "Generating slides" 1003 none (some "failed")
        true ∈
      (submitTimedOut okProducerEnv "timeout" 2 okWorkerEnv freshWorld "j1" "default"
        [notesFile] mediumGeneral).trace := by
  refine ⟨by decide, by rfl, by rfl, by decide, by decide, by rfl, by rfl, by decide⟩

/-- C1, amended: in the history of one job record produced by one submission for a
new job id (the Producer's `AddJob` with the Worker's `ProcessSlides` behind the
dispatch call), no write stores queued except the one that creates the record, and
no write moves a record from processing back to queued.  When the dispatch call
is answered by the Worker or does not reach it, every job-record write finds and
writes statuses along queued -> processing -> {completed, failed}, or writes
processing over processing, or failed over failed: no write is issued to a completed
record and no write changes the status of a failed record.  When the dispatch call
returns a transport error to the Producer while the Worker is at work, at whatever
point of its run, three more moves occur and no others: the Producer's failed write
on a record the Worker has completed, and the Worker's updates to processing and to
completed on a record the Producer has marked failed; so a completed record is
written to by the Producer only, with status failed, and the Producer never changes
the status of a failed record. -/
theorem submit_status_forward (env : ProducerEnv) (wenv : WorkerEnv) (w : World)
    (id theme : String) (files : List File) (settings : SlideSettings)
    (hfresh : w.jobs id = none) :
    (∀ doErr : Option String,
      ∃ evs, (submit env doErr wenv w id theme files settings).2.trace = w.trace ++ evs ∧
        ∀ e ∈ evs, ∀ prev status, e.move = some (prev, status) →
          Allowed prev status ∧ prev ≠ some "completed" ∧
          (prev = some "failed" → status = "failed") ∧
          (status = "queued" → prev = none)) ∧
    (∀ (err : String) (calls : Nat),
      ∃ evs, (submitTimedOut env err calls wenv w id theme files settings).trace =
          w.trace ++ evs ∧
        ∀ e ∈ evs, ∀ writer prev status, e.writer = some writer →
          e.move = some (prev, status) →
            TimedAllowed writer prev status ∧
            (status = "queued" → prev = none) ∧
            (prev = some "completed" → writer = .producer ∧ status = "failed") ∧
            (prev = some "failed" → writer = .producer → status = "failed")) := by
  refine ⟨fun doErr => ?_, fun err calls => ?_⟩
  · obtain ⟨evs, htr, hfw⟩ :=
      (submit_effect env doErr wenv w id theme files settings hfresh).1
    refine ⟨evs, htr, ?_⟩
    intro e he prev status hmove
    have hA : Allowed prev status := by
      have := hfw e he
      cases e <;> simp_all [Event.move, Forward]
    refine ⟨hA, ?_, ?_, ?_⟩
    · rintro rfl
      simp [Allowed, WAllowed] at hA
    · rintro rfl
      simpa [Allowed, WAllowed] using hA
    · rintro rfl
      simpa [Allowed, WAllowed] using hA
  · obtain ⟨evs, htr, hmv⟩ :=
      submitTimedOut_moves env err calls wenv w id theme files settings hfresh
    refine ⟨evs, htr, ?_⟩
    intro e he writer prev status hw hmove
    have hT : TimedAllowed writer prev status := by
      have := hmv e he
      cases e <;> simp_all [Event.move, Event.writer, TimedMove]
    refine ⟨hT, ?_, ?_, ?_⟩
    · rintro rfl
      simpa [TimedAllowed, Allowed, WAllowed] using hT
    · rintro rfl
      simpa [TimedAllowed, Allowed, WAllowed] using hT
    · rintro rfl rfl
      simpa [TimedAllowed, Allowed, WAllowed] using hT

/-- C1, witness: a submission of two files into the empty world whose dispatch times
out after the Worker's third call; every job-record write it logs, by whichever
writer, is a timed move. -/
theorem submit_status_forward_witness :
    ∃ evs, (submitTimedOut okProducerEnv "timeout" 3 okWorkerEnv freshWorld "j1" "default"
        [notesFile, paperFile] mediumGeneral).trace = freshWorld.trace ++ evs ∧
      ∀ e ∈ evs, ∀ writer prev status, e.writer = some writer →
        e.move = some (prev, status) →
          TimedAllowed writer prev status ∧
          (status = "queued" → prev = none) ∧
          (prev = some "completed" → writer = .producer ∧ status = "failed") ∧
          (prev = some "failed" → writer = .producer → status = "failed") :=
  (submit_status_forward okProducerEnv okWorkerEnv freshWorld "j1" "default"
    [notesFile, paperFile] mediumGeneral rfl).2 "timeout" 3

/-! ## C2: result records and completed jobs -/

/-- C2, counterexample: first, the render and the result write succeed and the final
completion write fails: the result record exists although the status of the job was
never completed, and `GetResult` returns the record, not "result not found".
Second, a job is completed with its result stored, and `GetResult` is called after
the result record has expired: it deletes the record, so no result record exists
although the status of the job has been set to completed (and still is). -/
theorem submit_result_without_completed :
    ((submit okProducerEnv none completionDownEnv freshWorld "j1" "default" [notesFile]
        mediumGeneral).2.results "j1").isSome = true ∧
    statusHistory "j1" (submit okProducerEnv none completionDownEnv freshWorld "j1"
        "default" [notesFile] mediumGeneral).2.trace =
      ["queued", "processing", "processing", "failed"] ∧
    (Queue.GetResult okReadEnv (submit okProducerEnv none completionDownEnv freshWorld "j1"
        "default" [notesFile] mediumGeneral).2 "j1").1 =
      .ok { ID := "j1", ResultURL := "/results/j1", PDFData := [37, 80],
            HTMLData := [60, 104], CreatedAt := 1003, ExpiresAt := 4603 } ∧
    statusHistory "j1" (submit okProducerEnv none okWorkerEnv lateWorld "j1" "default"
        [notesFile] mediumGeneral).2.trace =
      ["queued", "processing", "processing", "completed"] ∧
    (Queue.GetResult okReadEnv (submit okProducerEnv none okWorkerEnv lateWorld "j1"
        "default" [notesFile] mediumGeneral).2 "j1").1 = .error "result has expired" ∧
    (Queue.GetResult okReadEnv (submit okProducerEnv none okWorkerEnv lateWorld "j1"
        "default" [notesFile] mediumGeneral).2 "j1").2.results "j1" = none ∧
    (Queue.GetResult okReadEnv (submit okProducerEnv none okWorkerEnv lateWorld "j1"
        "default" [notesFile] mediumGeneral).2 "j1").2.status "j1" = some "completed" := by
  refine ⟨by rfl, by rfl, by rfl, by rfl, by rfl, by rfl, by rfl⟩

/-- C2, amended: in every state reachable from an empty store by operations of the
Producer and the Worker, each run to its end (submissions for any job id, with the
dispatch answered, not delivered, or timing out at any point of the Worker's run;
`GetJob`; `GetResult`; `WatchJob`): a result record that exists for a job id carries
the result URL of that job, and the status of that job has been set to completed or
the completion write for that job was rejected by the store; conversely, when the
status of a job has been set to completed, its result record exists or has been
deleted; and `GetResult`, when its own read of the store does not fail, returns the
"result not found" error for every job whose status was never set to completed and
for which no completion write was rejected. -/
theorem reachable_result_iff_completed (w : World) (h : Reachable w) :
    ∀ id : String,
      (∀ res, w.results id = some res →
        res.ResultURL = "/results/" ++ id ∧
        ("completed" ∈ statusHistory id w.trace ∨ CompletionFailed id w.trace)) ∧
      ("completed" ∈ statusHistory id w.trace →
        (w.results id).isSome ∨ ResultDeleted id w.trace) ∧
      ("completed" ∉ statusHistory id w.trace → ¬ CompletionFailed id w.trace →
        ∀ renv : ReadEnv, renv.resultGetErr = none →
          (Queue.GetResult renv w id).1 = .error "result not found") := by
  obtain ⟨clock, evs, ht, hk⟩ := reachable_step w h
  have hevs : w.trace = evs := by
    rw [ht]
    simp [World.empty]
  intro id
  obtain ⟨a, _, c⟩ := hk id
  rw [← hevs] at a c
  have hA : ∀ res, w.results id = some res →
      res.ResultURL = "/results/" ++ id ∧
      ("completed" ∈ statusHistory id w.trace ∨ CompletionFailed id w.trace) := by
    intro res hres
    rcases a res hres with h0 | h1
    · simp [World.empty] at h0
    · exact h1
  refine ⟨hA, c, ?_⟩
  intro hne hncf renv hg
  have hnone : w.results id = none := by
    cases hres : w.results id with
    | none => rfl
    | some r =>
      rcases (hA r hres).2 with hc | hc
      · exact absurd hc hne
      · exact absurd hc hncf
  simp [Queue.GetResult, hg, hnone]

/-- C2, witness: the state after a submission that timed out after the Worker's last
call, followed by a `GetJob` and a `GetResult`: the result record of job "j1"
exists and carries "/results/j1", and the status of the job has been set to
completed. -/
theorem reachable_result_iff_completed_witness :
    timedOutThenRead.results "j1" =
      some { ID := "j1", ResultURL := "/results/j1", PDFData := [37, 80],
             HTMLData := [60, 104], CreatedAt := 1003, ExpiresAt := 4603 } ∧
    ("/results/j1" = "/results/" ++ "j1" ∧
      ("completed" ∈ statusHistory "j1" timedOutThenRead.trace ∨
        CompletionFailed "j1" timedOutThenRead.trace)) :=
  ⟨by rfl, (reachable_result_iff_completed timedOutThenRead
    (Reachable.gotResult okReadEnv _ "j1"
      (Reachable.gotJob okReadEnv _ "j1"
        (Reachable.timedOut okProducerEnv "timeout" 100 okWorkerEnv freshWorld "j1" "default"
          [notesFile] mediumGeneral (Reachable.empty _)))) "j1").1 _ (by rfl)⟩

/-! ## C3: when the submission returns -/

/-- C3, the code at a valid submission (one file, no call fails): `AddJob` returns
without error and with a handle that says queued, but by then the renderer has been
called and the completion write has been made, and a `GetJob` on the same id right
after the return yields status completed, not queued. -/
theorem submit_returns_after_render :
    ((submit okProducerEnv none okWorkerEnv freshWorld "j1" "default" [notesFile]
        mediumGeneral).1.2 = none ∧
     (submit okProducerEnv none okWorkerEnv freshWorld "j1" "default" [notesFile]
        mediumGeneral).1.1.map Job.Status = some "queued") ∧
    Event.generateSlides "default" [notesFile] mediumGeneral ∈
      (submit okProducerEnv none okWorkerEnv freshWorld "j1" "default" [notesFile]
        mediumGeneral).2.trace ∧
    statusHistory "j1" (submit okProducerEnv none okWorkerEnv freshWorld "j1" "default"
        [notesFile] mediumGeneral).2.trace =
      ["queued", "processing", "processing", "completed"] ∧
    (Queue.GetJob okReadEnv (submit okProducerEnv none okWorkerEnv freshWorld "j1" "default"
        [notesFile] mediumGeneral).2 "j1").1.map Job.Status = some "completed" := by
  refine ⟨⟨by rfl, by rfl⟩, by decide, by rfl, by rfl⟩

/-! ## C4: the successful submission -/

/-- C4: when the store write, the staging of every file and the dispatch succeed,
`AddJob` returns without error a handle with status queued, message "Job added to
queue" and `CreatedAt = UpdatedAt = now`, and leaves the world as the dispatch left
it; the job-record writes it has issued are exactly one, the `Set` of the record with
the given id, status queued, that message and `createdAt = updatedAt = now`; in
particular it issues no update to processing. -/
theorem submit_success (env : ProducerEnv) (doErr : Option String) (wenv : WorkerEnv)
    (w : World) (id theme : String) (files : List File) (settings : SlideSettings)
    (hset : env.setErr = none)
    (hstage : ∀ i < files.length, env.mkdirErr i = none ∧ env.writeErr i = none)
    (hdisp : (dispatchOutcome env (workerDo doErr wenv) w id theme files settings).1 = none) :
    (∃ job, (submit env doErr wenv w id theme files settings).1 = (some job, none) ∧
      job.ID = id ∧ job.Status = "queued" ∧ job.Message = "Job added to queue" ∧
      job.CreatedAt = w.now ∧ job.UpdatedAt = w.now) ∧
    (submit env doErr wenv w id theme files settings).2 =
      (dispatchOutcome env (workerDo doErr wenv) w id theme files settings).2 ∧
    producerJobWrites (submit env doErr wenv w id theme files settings).2.trace =
      producerJobWrites w.trace ++
        [.jobSet { ID := id, Status := "queued", Message := "Job added to queue",
                   CreatedAt := w.now, UpdatedAt := w.now, ExpiresAt := 0 }
          (w.status id) true] ∧
    (∀ m t x p ok, Event.jobUpdate .producer id "processing" m t x p ok ∈
        (submit env doErr wenv w id theme files settings).2.trace →
      Event.jobUpdate .producer id "processing" m t x p ok ∈ w.trace) := by
  obtain ⟨hpair, hq, _, _, _, htr⟩ := Queue.stagedWorld_spec env w id theme files settings
    hset hstage
  obtain ⟨eT, _⟩ := Queue.triggerSlidesService_effect env doErr wenv
    (stagedWorld env w id theme files settings)
    (Queue.queuedJob id theme files settings w.now) (files.map (stagedRef id)) hq
  have hsub : submit env doErr wenv w id theme files settings =
      ((some (Queue.queuedJob id theme files settings w.now), none),
        (dispatchOutcome env (workerDo doErr wenv) w id theme files settings).2) := by
    have hS : docSetJob env.setErr id (Queue.queuedRecord id w.now) w.advance =
        (none, (docSetJob env.setErr id (Queue.queuedRecord id w.now) w.advance).2) := by
      simp [docSetJob, hset]
    have hT := pair_of_fst hdisp
    unfold dispatchOutcome at hT
    unfold submit Queue.AddJob
    simp only
    rw [hS]
    simp only
    rw [hpair]
    simp only
    rw [hT]
    rfl
  have hwrites : producerJobWrites (submit env doErr wenv w id theme files settings).2.trace =
      producerJobWrites w.trace ++
        [.jobSet (Queue.queuedRecord id w.now) (w.status id) true] := by
    rw [hsub]
    simp only [producerJobWrites, dispatchOutcome]
    rw [eT.filter _ (fun e he => dispatchEv_not_producer he), htr]
    have := stageEvents_not_producer id files
    simp only [producerJobWrites] at this
    simp only [List.filter_append, this, List.append_nil]
    rfl
  refine ⟨⟨_, by rw [hsub], rfl, rfl, rfl, rfl, rfl⟩, by rw [hsub], hwrites, ?_⟩
  intro m t x p ok hmem
  have h1 : Event.jobUpdate .producer id "processing" m t x p ok ∈
      producerJobWrites (submit env doErr wenv w id theme files settings).2.trace := by
    simp only [producerJobWrites, List.mem_filter]
    exact ⟨hmem, rfl⟩
  rw [hwrites] at h1
  simp only [List.mem_append, List.mem_singleton, reduceCtorEq, or_false] at h1
  simp only [producerJobWrites, List.mem_filter] at h1
  exact h1.1

/-- C4, witness: one file, no call fails, the Worker answers 200. -/
theorem submit_success_witness :
    (∃ job, (submit okProducerEnv none okWorkerEnv freshWorld "j1" "default" [notesFile]
        mediumGeneral).1 = (some job, none) ∧
      job.ID = "j1" ∧ job.Status = "queued" ∧ job.Message = "Job added to queue" ∧
      job.CreatedAt = 1000 ∧ job.UpdatedAt = 1000) ∧
    producerJobWrites (submit okProducerEnv none okWorkerEnv freshWorld "j1" "default"
        [notesFile] mediumGeneral).2.trace =
      [.jobSet { ID := "j1", Status := "queued", Message := "Job added to queue",
                 CreatedAt := 1000, UpdatedAt := 1000, ExpiresAt := 0 } none true] :=
  have h := submit_success okProducerEnv none okWorkerEnv freshWorld "j1" "default"
    [notesFile] mediumGeneral rfl (fun _ _ => ⟨rfl, rfl⟩) (by rfl)
  ⟨h.1, h.2.2.1⟩

/-! ## C5: a staging failure -/

/-- C5: when the record is stored, staging succeeds for the files before index `k`
and fails for the file at index `k` (its `MkdirAll` or its `WriteFile` fails), then
`AddJob` returns a non-nil error and a handle marked failed, and the calls it has
logged are exactly: the `Set` of the queued record, the staging of the files before
index `k`, the failing staging calls of file `k`, and one update of the job record
to status failed whose message names that file.  No later file is staged, no
dispatch call is made, and the record is failed when that update goes through. -/
theorem AddJob_staging_fails (env : ProducerEnv) (post : HttpDo) (w : World)
    (id theme : String) (files : List File) (settings : SlideSettings) (k : Nat)
    (file : File) (hset : env.setErr = none) (hfile : files[k]? = some file)
    (hok : ∀ m < k, env.mkdirErr m = none ∧ env.writeErr m = none)
    (hfail : env.mkdirErr k ≠ none ∨ env.writeErr k ≠ none) :
    ∃ err evs ok,
      StagingFailure env k id file err evs ∧
      (∃ job, (Queue.AddJob env post w id theme files settings).1 =
          (some job, some ("failed to save file locally: " ++ err)) ∧
        job.ID = id ∧ job.Status = "failed" ∧
        job.Message = "Failed to save file " ++ file.Filename ++ " locally: " ++ err) ∧
      (Queue.AddJob env post w id theme files settings).2.trace =
        w.trace ++
          [.jobSet (Queue.queuedRecord id w.now) (w.status id) true] ++
          stageEvents id (files.take k) ++ evs ++
          [.jobUpdate .producer id "failed"
            ("Failed to save file " ++ file.Filename ++ " locally: " ++ err)
            (w.clock (w.tick + 1)) none (some "queued") ok] ∧
      (env.updateErr = none →
        (Queue.AddJob env post w id theme files settings).2.status id = some "failed") := by
  obtain ⟨err, evs, wk, hevs, hj, _, hc, ht, htr, hloop⟩ := Queue.stageLoop_fail env id
    (Queue.queuedJob id theme files settings w.now) files 0 []
    (docSetJob env.setErr id (Queue.queuedRecord id w.now) w.advance).2 k file hfile
    (by simpa using hok) (by simpa using hfail)
  rw [Nat.zero_add] at hevs
  have hS : docSetJob env.setErr id (Queue.queuedRecord id w.now) w.advance =
      (none, (docSetJob env.setErr id (Queue.queuedRecord id w.now) w.advance).2) := by
    simp [docSetJob, hset]
  have hjob : wk.jobs id = some (Queue.queuedRecord id w.now) := by
    rw [hj]; simp [docSetJob, hset, setKey]
  have hst : wk.status id = some "queued" := by
    simp [World.status, hjob, Queue.queuedRecord]
  have hnow : wk.now = w.clock (w.tick + 1) := by
    simp only [World.now, hc, ht]
    simp [docSetJob, hset, World.advance]
  have hadd : Queue.AddJob env post w id theme files settings =
      ((some (Queue.updateJobStatus env wk (Queue.queuedJob id theme files settings w.now)
          StatusFailed ("Failed to save file " ++ file.Filename ++ " locally: " ++ err) "").1,
        some ("failed to save file locally: " ++ err)),
       (Queue.updateJobStatus env wk (Queue.queuedJob id theme files settings w.now)
          StatusFailed ("Failed to save file " ++ file.Filename ++ " locally: " ++ err) "").2) := by
    unfold Queue.AddJob
    simp only
    rw [hS]
    simp only
    rw [hloop]
  rw [hadd]
  refine ⟨err, evs,
    (docUpdateJob .producer env.updateErr id StatusFailed
      ("Failed to save file " ++ file.Filename ++ " locally: " ++ err) wk.now none
      wk.advance).1.isNone, hevs, ?_, ?_, ?_⟩
  · refine ⟨(Queue.updateJobStatus env wk (Queue.queuedJob id theme files settings w.now)
      StatusFailed ("Failed to save file " ++ file.Filename ++ " locally: " ++ err) "").1,
      rfl, ?_, ?_, ?_⟩
    · rw [Queue.updateJobStatus_fst]; rfl
    · rw [Queue.updateJobStatus_fst]
    · rw [Queue.updateJobStatus_fst]
  · simp only
    rw [Queue.updateJobStatus_trace, htr]
    simp only [Queue.queuedJob, hst, hnow]
    simp [docSetJob, hset, World.advance, World.status]
  · intro hu
    exact Queue.updateJobStatus_status_ok env wk
      (Queue.queuedJob id theme files settings w.now) StatusFailed
      ("Failed to save file " ++ file.Filename ++ " locally: " ++ err) "" hu (by
        simp only [Queue.queuedJob, hjob]; rfl)

/-- C5, witness: two files, the write of the second one fails. -/
theorem AddJob_staging_fails_witness :
    ∃ err evs ok,
      StagingFailure diskFullEnv 1 "j1" paperFile err evs ∧
      (∃ job, (Queue.AddJob diskFullEnv (workerDo none okWorkerEnv) freshWorld "j1"
          "default" [notesFile, paperFile] mediumGeneral).1 =
          (some job, some ("failed to save file locally: " ++ err)) ∧
        job.ID = "j1" ∧ job.Status = "failed" ∧
        job.Message = "Failed to save file " ++ paperFile.Filename ++ " locally: " ++ err) ∧
      (Queue.AddJob diskFullEnv (workerDo none okWorkerEnv) freshWorld "j1" "default"
          [notesFile, paperFile] mediumGeneral).2.trace =
        freshWorld.trace ++
          [.jobSet (Queue.queuedRecord "j1" freshWorld.now) (freshWorld.status "j1") true] ++
          stageEvents "j1" ([notesFile, paperFile].take 1) ++ evs ++
          [.jobUpdate .producer "j1" "failed"
            ("Failed to save file " ++ paperFile.Filename ++ " locally: " ++ err)
            (freshWorld.clock (freshWorld.tick + 1)) none (some "queued") ok] ∧
      (diskFullEnv.updateErr = none →
        (Queue.AddJob diskFullEnv (workerDo none okWorkerEnv) freshWorld "j1" "default"
          [notesFile, paperFile] mediumGeneral).2.status "j1" = some "failed") :=
  AddJob_staging_fails diskFullEnv (workerDo none okWorkerEnv) freshWorld "j1" "default"
    [notesFile, paperFile] mediumGeneral 1 paperFile rfl rfl
    (fun m hm => by
      have : m = 0 := by omega
      subst this
      exact ⟨rfl, rfl⟩)
    (Or.inr (by simp [diskFullEnv]))

/-! ## C6: which responses count as a successful dispatch -/

/-- C6, counterexample: for a response with status code 101, which is no 2xx code,
`triggerSlidesService` reports success (returns nil). -/
theorem triggerSlidesService_accepts_101 :
    (Queue.triggerSlidesService okProducerEnv answer101 freshWorld
        (Queue.queuedJob "j1" "default" [notesFile] mediumGeneral 1000) []).1 = none ∧
      ¬ (200 ≤ (101 : Int) ∧ (101 : Int) ≤ 299) := by
  refine ⟨by rfl, by decide⟩

/-- C6, amended: `triggerSlidesService` returns nil if and only if the payload and
the request could be built, the transport call succeeded and the status code is below
300; for every status code of 300 or more and for every transport error it returns a
non-nil error. -/
theorem triggerSlidesService_nil_iff (env : ProducerEnv) (post : HttpDo) (w : World)
    (job : Job) (fileRefs : List FileReference) :
    (Queue.triggerSlidesService env post w job fileRefs).1 = none ↔
      env.marshalErr = none ∧ env.requestErr = none ∧
      ∃ resp,
        (post (env.serviceURL ++ "/tasks/process-slides")
          { JobID := job.ID, Theme := job.Theme, Files := fileRefs, Settings := job.Settings }
          (w.log (.httpPost (env.serviceURL ++ "/tasks/process-slides")
            { JobID := job.ID, Theme := job.Theme, Files := fileRefs,
              Settings := job.Settings }))).1 = .ok resp ∧
        resp.StatusCode < 300 := by
  unfold Queue.triggerSlidesService
  simp only
  split
  · simp [*]
  · split
    · simp [*]
    · split
      · rename_i err w1 heq
        simp [*]
      · rename_i resp w1 heq
        split
        · rename_i hc
          simp [*]
        · rename_i hc
          simp [*]
          omega

/-! ## C7: a dispatch failure -/

/-- C7: when the record is stored and all files are staged, and the dispatch fails
with error text `derr` (a transport error or a response such as HTTP 500), then
`AddJob` issues, after the dispatch, one update of the job record to status failed
whose message ends in `derr`, and returns the handle marked failed together with a
non-nil error that ends in `derr`; the record is failed when that update goes
through. -/
theorem AddJob_dispatch_fails (env : ProducerEnv) (post : HttpDo) (w : World)
    (id theme : String) (files : List File) (settings : SlideSettings) (derr : String)
    (hset : env.setErr = none)
    (hstage : ∀ i < files.length, env.mkdirErr i = none ∧ env.writeErr i = none)
    (hdisp : (dispatchOutcome env post w id theme files settings).1 = some derr) :
    (∃ job, (Queue.AddJob env post w id theme files settings).1 =
        (some job, some ("failed to trigger slides service: " ++ derr)) ∧
      job.ID = id ∧ job.Status = "failed" ∧
      job.Message = "Failed to trigger slides service: " ++ derr) ∧
    (∃ ok, (Queue.AddJob env post w id theme files settings).2.trace =
      (dispatchOutcome env post w id theme files settings).2.trace ++
        [.jobUpdate .producer id "failed" ("Failed to trigger slides service: " ++ derr)
          (dispatchOutcome env post w id theme files settings).2.now none
          ((dispatchOutcome env post w id theme files settings).2.status id) ok]) ∧
    (env.updateErr = none →
      ((dispatchOutcome env post w id theme files settings).2.jobs id).isSome →
      (Queue.AddJob env post w id theme files settings).2.status id = some "failed") := by
  obtain ⟨hpair, _, _, _, _, _⟩ := Queue.stagedWorld_spec env w id theme files settings
    hset hstage
  have hS : docSetJob env.setErr id (Queue.queuedRecord id w.now) w.advance =
      (none, (docSetJob env.setErr id (Queue.queuedRecord id w.now) w.advance).2) := by
    simp [docSetJob, hset]
  have hT := pair_of_fst hdisp
  have hadd : Queue.AddJob env post w id theme files settings =
      ((some (Queue.updateJobStatus env (dispatchOutcome env post w id theme files settings).2
          (Queue.queuedJob id theme files settings w.now)
          StatusFailed ("Failed to trigger slides service: " ++ derr) "").1,
        some ("failed to trigger slides service: " ++ derr)),
       (Queue.updateJobStatus env (dispatchOutcome env post w id theme files settings).2
          (Queue.queuedJob id theme files settings w.now)
          StatusFailed ("Failed to trigger slides service: " ++ derr) "").2) := by
    unfold dispatchOutcome at hT ⊢
    unfold Queue.AddJob
    simp only
    rw [hS]
    simp only
    rw [hpair]
    simp only
    rw [hT]
  rw [hadd]
  refine ⟨?_, ?_, ?_⟩
  · refine ⟨(Queue.updateJobStatus env (dispatchOutcome env post w id theme files settings).2
        (Queue.queuedJob id theme files settings w.now)
        StatusFailed ("Failed to trigger slides service: " ++ derr) "").1, rfl, ?_, ?_, ?_⟩
    · rw [Queue.updateJobStatus_fst]; rfl
    · rw [Queue.updateJobStatus_fst]
    · rw [Queue.updateJobStatus_fst]
  · simp only
    rw [Queue.updateJobStatus_trace]
    exact ⟨_, rfl⟩
  · intro hu hj
    exact Queue.updateJobStatus_status_ok env _
      (Queue.queuedJob id theme files settings w.now) StatusFailed
      ("Failed to trigger slides service: " ++ derr) "" hu hj

/-- C7, witness: one file is staged and the Worker endpoint answers HTTP 500. -/
theorem AddJob_dispatch_fails_witness :
    (∃ job, (Queue.AddJob okProducerEnv answer500 freshWorld "j1" "default" [notesFile]
        mediumGeneral).1 =
        (some job, some ("failed to trigger slides service: " ++
          "slides service returned non-success status 500: boom")) ∧
      job.ID = "j1" ∧ job.Status = "failed" ∧
      job.Message = "Failed to trigger slides service: " ++
        "slides service returned non-success status 500: boom") ∧
    (Queue.AddJob okProducerEnv answer500 freshWorld "j1" "default" [notesFile]
        mediumGeneral).2.status "j1" = some "failed" :=
  have h := AddJob_dispatch_fails okProducerEnv answer500 freshWorld "j1" "default"
    [notesFile] mediumGeneral "slides service returned non-success status 500: boom" rfl
    (fun _ _ => ⟨rfl, rfl⟩) (by rfl)
  ⟨h.1, h.2.2 rfl (by rfl)⟩

/-! ## C8: failure of the first store write -/

/-- C8: if the initial job-record write fails, `AddJob` returns a nil handle and a
non-nil error, and nothing else happens: the collections and the volume are as
before, and the log has grown by the failed write alone (no staging call, no
dispatch call, no further store write). -/
theorem AddJob_store_write_fails (env : ProducerEnv) (post : HttpDo) (w : World)
    (id theme : String) (fileData : List File) (settings : SlideSettings) (e : String)
    (hset : env.setErr = some e) :
    (Queue.AddJob env post w id theme fileData settings).1 =
        (none, some ("failed to store job: " ++ e)) ∧
    (Queue.AddJob env post w id theme fileData settings).2.jobs = w.jobs ∧
    (Queue.AddJob env post w id theme fileData settings).2.results = w.results ∧
    (Queue.AddJob env post w id theme fileData settings).2.files = w.files ∧
    (Queue.AddJob env post w id theme fileData settings).2.dirs = w.dirs ∧
    (Queue.AddJob env post w id theme fileData settings).2.trace =
      w.trace ++ [.jobSet (Queue.queuedRecord id w.now) (w.status id) false] := by
  simp [Queue.AddJob, docSetJob, hset, World.log, World.advance, World.status]

/-- C8, witness: a submission of two files against a store that rejects the write. -/
theorem AddJob_store_write_fails_witness :
    storeDownEnv.setErr = some "unavailable" ∧
    (Queue.AddJob storeDownEnv (workerDo none okWorkerEnv) freshWorld "j1" "default"
        [notesFile, paperFile] mediumGeneral).1 =
      (none, some ("failed to store job: " ++ "unavailable")) ∧
    (Queue.AddJob storeDownEnv (workerDo none okWorkerEnv) freshWorld "j1" "default"
        [notesFile, paperFile] mediumGeneral).2.files = freshWorld.files ∧
    (Queue.AddJob storeDownEnv (workerDo none okWorkerEnv) freshWorld "j1" "default"
        [notesFile, paperFile] mediumGeneral).2.trace =
      freshWorld.trace ++
        [.jobSet (Queue.queuedRecord "j1" freshWorld.now) (freshWorld.status "j1") false] :=
  have h := AddJob_store_write_fails storeDownEnv (workerDo none okWorkerEnv) freshWorld
    "j1" "default" [notesFile, paperFile] mediumGeneral "unavailable" rfl
  ⟨rfl, h.1, h.2.2.2.1, h.2.2.2.2.2⟩

/-! ## C9: lazy expiry of job records -/

/-- C9, counterexample: the stored record expired at 900 and the clock shows 1000,
but the store rejects the delete: `GetJob` reports not-found and the record is
still in the store afterwards. -/
theorem GetJob_expired_delete_fails :
    (Queue.GetJob deleteDownEnv (staleWorld 900) "j1").1 = none ∧
    (Queue.GetJob deleteDownEnv (staleWorld 900) "j1").2.jobs "j1" ≠ none := by
  refine ⟨by rfl, by decide⟩

/-- C9, amended: for a stored record that is read and decoded, with `expiresAt > 0`
and `now > expiresAt`, `GetJob` reports not-found; the record is absent afterwards
when the delete succeeds (a failed delete leaves it), and a second `GetJob` reports
not-found again when the delete succeeded or the clock has not gone back.  With
`expiresAt` zero (or absent) or `now <= expiresAt`, `GetJob` returns the job and
leaves the job collection as it was. -/
theorem GetJob_lazy_expiry (env env2 : ReadEnv) (w : World) (id : String)
    (j : FirestoreJob) (hget : env.getErr = none) (hdec : env.decodeErr = none)
    (hj : w.jobs id = some j) :
    (j.ExpiresAt > 0 ∧ w.now > j.ExpiresAt →
      (Queue.GetJob env w id).1 = none ∧
      (env.deleteErr = none → (Queue.GetJob env w id).2.jobs id = none) ∧
      (env.deleteErr = none ∨ w.clock w.tick ≤ w.clock (w.tick + 1) →
        (Queue.GetJob env2 (Queue.GetJob env w id).2 id).1 = none)) ∧
    (¬ (j.ExpiresAt > 0 ∧ w.now > j.ExpiresAt) →
      (∃ job, (Queue.GetJob env w id).1 = some job ∧ job.ID = j.ID ∧
        job.Status = j.Status ∧ job.Message = j.Message ∧
        job.CreatedAt = j.CreatedAt ∧ job.UpdatedAt = j.UpdatedAt) ∧
      (Queue.GetJob env w id).2.jobs = w.jobs) := by
  constructor
  · intro hexp
    have h1 : Queue.GetJob env w id = (none, (docDeleteJob env.deleteErr id w.advance).2) := by
      simp [Queue.GetJob, hget, hdec, hj, hexp]
    rw [h1]
    refine ⟨rfl, ?_, ?_⟩
    · intro hd
      simp [docDeleteJob, hd, setKey]
    · intro hd
      cases hde : env.deleteErr with
      | none =>
        simp only [Queue.GetJob, docDeleteJob, setKey, if_true]
        cases env2.getErr <;> rfl
      | some e =>
        rw [hde] at hd
        simp only [reduceCtorEq, false_or] at hd
        have hlt : j.ExpiresAt < w.clock (w.tick + 1) := by
          have := hexp.2
          simp only [World.now] at this
          omega
        simp only [Queue.GetJob, docDeleteJob, World.log, World.advance, World.now, hj]
        cases env2.getErr with
        | some e => rfl
        | none =>
          cases env2.decodeErr with
          | some e => rfl
          | none => simp [hexp.1, hlt]
  · intro hexp
    unfold Queue.GetJob
    simp only [hget, hdec, hj, hexp, if_false]
    exact ⟨⟨_, rfl, rfl, rfl, rfl, rfl, rfl⟩, rfl⟩

/-- C9, witness: an expired record (expiry 900, clock 1000) is deleted and reported
not-found twice; the same record without expiry is returned and left in place. -/
theorem GetJob_lazy_expiry_witness :
    ((Queue.GetJob okReadEnv (staleWorld 900) "j1").1 = none ∧
     (Queue.GetJob okReadEnv (staleWorld 900) "j1").2.jobs "j1" = none ∧
     (Queue.GetJob okReadEnv (Queue.GetJob okReadEnv (staleWorld 900) "j1").2 "j1").1 = none) ∧
    ((∃ job, (Queue.GetJob okReadEnv (staleWorld 0) "j1").1 = some job ∧ job.ID = "j1" ∧
        job.Status = "completed" ∧ job.Message = "Slides generated successfully" ∧
        job.CreatedAt = 100 ∧ job.UpdatedAt = 200) ∧
     (Queue.GetJob okReadEnv (staleWorld 0) "j1").2.jobs = (staleWorld 0).jobs) :=
  have h := (GetJob_lazy_expiry okReadEnv okReadEnv (staleWorld 900) "j1"
    { ID := "j1", Status := "completed", Message := "Slides generated successfully",
      CreatedAt := 100, UpdatedAt := 200, ExpiresAt := 900 } rfl rfl (by rfl)).1
      (by decide)
  have h0 := (GetJob_lazy_expiry okReadEnv okReadEnv (staleWorld 0) "j1"
    { ID := "j1", Status := "completed", Message := "Slides generated successfully",
      CreatedAt := 100, UpdatedAt := 200, ExpiresAt := 0 } rfl rfl (by rfl)).2
      (by decide)
  ⟨⟨h.1, h.2.1 rfl, h.2.2 (Or.inl rfl)⟩, h0⟩

/-! ## C10: the result URL of a job that is read -/

/-- C10, counterexample: the job record is completed and unexpired (expiry 1200,
clock 1000) while its result record expired at 900, and `GetJob` still returns the
stored result URL, not the empty one. -/
theorem GetJob_expired_result_url :
    ((Queue.GetJob okReadEnv (staleWorld 1200) "j1").1.map Job.ResultURL) =
      some "/results/j1" ∧
    ((staleWorld 1200).results "j1").map FirestoreResult.ExpiresAt = some 900 ∧
    (staleWorld 1200).now = 1000 := by
  refine ⟨by rfl, by rfl, by rfl⟩

/-- C10, amended: for an unexpired job record that is read and decoded, `GetJob`
returns the job, whatever the result lookup does.  With status completed its
`ResultURL` is the stored `resultUrl` when the result record is read and decoded,
expired or not, and empty when the result lookup fails, the record is missing or it
cannot be decoded; with any other status the `ResultURL` is empty. -/
theorem GetJob_result_url (env : ReadEnv) (w : World) (id : String) (j : FirestoreJob)
    (hget : env.getErr = none) (hdec : env.decodeErr = none) (hj : w.jobs id = some j)
    (hlive : ¬ (j.ExpiresAt > 0 ∧ w.now > j.ExpiresAt)) :
    ∃ job, (Queue.GetJob env w id).1 = some job ∧ job.ID = j.ID ∧ job.Status = j.Status ∧
      (j.Status = "completed" → ∀ r, w.results id = some r →
        env.resultGetErr = none → env.resultDecodeErr = none →
          job.ResultURL = r.ResultURL) ∧
      (j.Status = "completed" →
        (env.resultGetErr ≠ none ∨ w.results id = none ∨ env.resultDecodeErr ≠ none) →
          job.ResultURL = "") ∧
      (j.Status ≠ "completed" → job.ResultURL = "") := by
  unfold Queue.GetJob
  simp only [hget, hdec, hj, hlive, if_false]
  refine ⟨_, rfl, rfl, rfl, ?_, ?_, ?_⟩
  · intro hc r hr hg hd
    simp [Queue.jobOfRecord, Queue.lookupResultURL, hc, hr, hg, hd, World.advance]
  · intro hc hfail
    simp only [Queue.jobOfRecord, Queue.lookupResultURL, hc, World.advance, if_true]
    rcases hfail with h | h | h
    · cases hg : env.resultGetErr with
      | none => exact absurd hg h
      | some e => rfl
    · cases env.resultGetErr with
      | none => simp [h]
      | some e => rfl
    · cases env.resultGetErr with
      | some e => rfl
      | none =>
        cases w.results id with
        | none => rfl
        | some r =>
          cases hd : env.resultDecodeErr with
          | none => exact absurd hd h
          | some e => rfl
  · intro hc
    simp [Queue.jobOfRecord, hc]

/-- C10, witness: the completed job of the stale world, read while unexpired. -/
theorem GetJob_result_url_witness :
    ∃ job, (Queue.GetJob okReadEnv (staleWorld 1200) "j1").1 = some job ∧
      job.Status = "completed" ∧ job.ResultURL = "/results/j1" := by
  obtain ⟨job, h1, _, h3, h4, _, _⟩ := GetJob_result_url okReadEnv (staleWorld 1200) "j1"
    { ID := "j1", Status := "completed", Message := "Slides generated successfully",
      CreatedAt := 100, UpdatedAt := 200, ExpiresAt := 1200 } rfl rfl (by rfl) (by decide)
  exact ⟨job, h1, h3, h4 rfl _ (by rfl) rfl rfl⟩

/-! ## C11: result retrieval -/

/-- C11, counterexample: the result record expired at 900 and the clock shows 1000,
but the store rejects the delete: `GetResult` returns "result has expired" and the
record is still in the store. -/
theorem GetResult_expired_delete_fails :
    (Queue.GetResult deleteDownEnv (staleWorld 0) "j1").1 = .error "result has expired" ∧
    (Queue.GetResult deleteDownEnv (staleWorld 0) "j1").2.results "j1" ≠ none := by
  refine ⟨by rfl, by decide⟩

/-- C11, amended: when the read of the store does not fail, `GetResult` returns the
"result not found" error for a job id without result record and leaves the store as
it is; for a record that is decoded, with `expiresAt > 0` and `now > expiresAt`, it
returns the distinct "result has expired" error, and the record is deleted when the
delete succeeds (a failed delete leaves it); otherwise it returns the stored record
unchanged and leaves both collections as they are. -/
theorem GetResult_cases (env : ReadEnv) (w : World) (jobID : String)
    (hget : env.resultGetErr = none) :
    (w.results jobID = none →
      Queue.GetResult env w jobID = (.error "result not found", w)) ∧
    (∀ result, w.results jobID = some result → env.resultDecodeErr = none →
      result.ExpiresAt > 0 ∧ w.now > result.ExpiresAt →
        (Queue.GetResult env w jobID).1 = .error "result has expired" ∧
        (env.deleteErr = none → (Queue.GetResult env w jobID).2.results jobID = none) ∧
        (Queue.GetResult env w jobID).2.jobs = w.jobs) ∧
    (∀ result, w.results jobID = some result → env.resultDecodeErr = none →
      ¬ (result.ExpiresAt > 0 ∧ w.now > result.ExpiresAt) →
        (Queue.GetResult env w jobID).1 = .ok result ∧
        (Queue.GetResult env w jobID).2.results = w.results ∧
        (Queue.GetResult env w jobID).2.jobs = w.jobs) ∧
    ("result has expired" ≠ "result not found") := by
  refine ⟨?_, ?_, ?_, by decide⟩
  · intro hnone
    simp [Queue.GetResult, hget, hnone]
  · intro result hr hdec hexp
    have h1 : Queue.GetResult env w jobID =
        (.error "result has expired", (docDeleteResult env.deleteErr jobID w.advance).2) := by
      simp [Queue.GetResult, hget, hr, hdec, hexp]
    rw [h1]
    refine ⟨rfl, ?_, ?_⟩
    · intro hd
      simp [docDeleteResult, hd, setKey]
    · unfold docDeleteResult
      cases env.deleteErr <;> rfl
  · intro result hr hdec hlive
    have h1 : Queue.GetResult env w jobID = (.ok result, w.advance) := by
      simp [Queue.GetResult, hget, hr, hdec, hlive]
    rw [h1]
    exact ⟨rfl, rfl, rfl⟩

/-- C11, witness: no record in the empty world; the record of the stale world is
expired at clock 1000 and deleted. -/
theorem GetResult_cases_witness :
    Queue.GetResult okReadEnv freshWorld "j1" = (.error "result not found", freshWorld) ∧
    (Queue.GetResult okReadEnv (staleWorld 0) "j1").1 = .error "result has expired" ∧
    (Queue.GetResult okReadEnv (staleWorld 0) "j1").2.results "j1" = none :=
  have h0 := GetResult_cases okReadEnv freshWorld "j1" rfl
  have h1 := (GetResult_cases okReadEnv (staleWorld 0) "j1" rfl).2.1
    { ID := "j1", ResultURL := "/results/j1", PDFData := [37, 80], HTMLData := [60, 104],
      CreatedAt := 150, ExpiresAt := 900 } (by rfl) rfl (by decide)
  ⟨h0.1 rfl, h1.1, h1.2.1 rfl⟩

/-! ## C12: which failures of the Worker are written to the job record -/

/-- C12, counterexample: the initial processing write succeeds and only the final
completion write is rejected; the handler answers 500, and the statuses it has
written are processing, processing and completed: no update to failed is issued. -/
theorem ProcessSlides_completion_fails_silently :
    (Controllers.markProcessing completionDownEnv notesPayload notesEntry).1 = none ∧
    (Controllers.ProcessSlides completionDownEnv (.ok notesPayload) notesEntry).1.StatusCode =
      500 ∧
    (eventsSince notesEntry
        (Controllers.ProcessSlides completionDownEnv (.ok notesPayload) notesEntry).2).filterMap
      (fun e => e.move.map Prod.snd) = ["processing", "processing", "completed"] ∧
    (eventsSince notesEntry
        (Controllers.ProcessSlides completionDownEnv (.ok notesPayload) notesEntry).2).filter
      Event.isWorkerFailedWrite = [] := by
  refine ⟨by rfl, by rfl, by rfl, by rfl⟩

/-- C12, amended: when the initial processing write succeeded and `ProcessSlides`
ends with an error response, then either a file read, the renderer or the result
write failed, and the last call the handler makes before it returns is an update of
the job to status failed whose message ends in the error detail, the response
carrying the same detail; or the final completion write failed, and the handler
returns the error response without issuing any update to failed. -/
theorem ProcessSlides_error_paths (env : WorkerEnv) (p : TaskPayload) (w : World)
    (hp : (Controllers.markProcessing env p w).1 = none)
    (herr : (Controllers.ProcessSlides env (.ok p) w).1.StatusCode ≠ 200) :
    (∃ k ref err, p.Files[k]? = some ref ∧ ReadFailure env w.files k ref err ∧
      (Controllers.ProcessSlides env (.ok p) w).1 =
        Controllers.errorResponse env ("Failed to read local file: " ++ err) ∧
      EndsWithFailedWrite p.JobID
        ("Failed to read local file " ++ ref.Filename ++ ": " ++ err)
        (eventsSince w (Controllers.ProcessSlides env (.ok p) w).2)) ∨
    (∃ files err, (Controllers.readAll env p w).1 = .ok files ∧
      (Controllers.rendered env p w files).1 = .error err ∧
      (Controllers.ProcessSlides env (.ok p) w).1 =
        Controllers.errorResponse env ("Failed to generate slides: " ++ err) ∧
      EndsWithFailedWrite p.JobID ("Failed to generate slides: " ++ err)
        (eventsSince w (Controllers.ProcessSlides env (.ok p) w).2)) ∨
    (∃ files pdf html err, (Controllers.readAll env p w).1 = .ok files ∧
      (Controllers.rendered env p w files).1 = .ok (pdf, html) ∧
      (Controllers.persisted env p w files pdf html).1 = some err ∧
      (Controllers.ProcessSlides env (.ok p) w).1 =
        Controllers.errorResponse env ("Failed to store result: " ++ err) ∧
      EndsWithFailedWrite p.JobID ("Failed to store result: " ++ err)
        (eventsSince w (Controllers.ProcessSlides env (.ok p) w).2)) ∨
    (∃ files pdf html err, (Controllers.readAll env p w).1 = .ok files ∧
      (Controllers.rendered env p w files).1 = .ok (pdf, html) ∧
      (Controllers.persisted env p w files pdf html).1 = none ∧
      (Controllers.markedCompleted env p w files pdf html).1 = some err ∧
      (Controllers.ProcessSlides env (.ok p) w).1 =
        Controllers.errorResponse env ("Failed to mark job as completed: " ++ err) ∧
      (eventsSince w (Controllers.ProcessSlides env (.ok p) w).2).filter
        Event.isWorkerFailedWrite = []) := by
  have t0 := (Controllers.markProcessing_spec env p w).1
  cases hr : (Controllers.readAll env p w).1 with
  | error resp =>
    left
    obtain ⟨k, ref, err, hk, _, hfail, hresp, hworld⟩ := Controllers.readAll_fails env p w resp hr
    rw [Controllers.ProcessSlides_read_fails env p w resp hp hr]
    refine ⟨k, ref, err, hk, hfail, hresp, ?_⟩
    simp only
    rw [hworld]
    exact endsWithFailedWrite_of_update _ _ _ _ _
      (.jobUpdate .worker p.JobID "processing" "Processing slides" w.now none
          (w.status p.JobID) (Controllers.markProcessing env p w).1.isNone ::
        readEvents (p.Files.take k) ++ [.readFile ref.LocalPath false])
      (by simp [t0])
  | ok files =>
    right
    obtain ⟨pevs, cevs, okr, hpevs, hcevs, tr, ts, tc⟩ :=
      Controllers.stage_traces env p w files [] [] hr
    cases hg : (Controllers.rendered env p w files).1 with
    | error err =>
      left
      rw [Controllers.ProcessSlides_render_fails env p w files err hp hr hg]
      exact ⟨files, err, rfl, hg, rfl, endsWithFailedWrite_of_update _ _ _ _ _ _ tr⟩
    | ok out =>
      right
      obtain ⟨pdf, html⟩ := out
      obtain ⟨pevs, cevs, okr, hpevs, hcevs, tr, ts, tc⟩ :=
        Controllers.stage_traces env p w files pdf html hr
      cases hs : (Controllers.persisted env p w files pdf html).1 with
      | some err =>
        left
        rw [Controllers.ProcessSlides_store_fails env p w files pdf html err hp hr hg hs]
        exact ⟨files, pdf, html, err, rfl, hg, hs, rfl,
          endsWithFailedWrite_of_update _ _ _ _ _ _ ts⟩
      | none =>
        right
        cases hc : (Controllers.markedCompleted env p w files pdf html).1 with
        | none =>
          rw [Controllers.ProcessSlides_succeeds env p w files pdf html hp hr hg hs hc] at herr
          exact absurd rfl herr
        | some err =>
          rw [Controllers.ProcessSlides_completion_fails env p w files pdf html err hp hr hg
            hs hc]
          refine ⟨files, pdf, html, err, rfl, hg, hs, hc, rfl, ?_⟩
          rw [eventsSince_append tc]
          refine success_path_classes rfl ?_ rfl ?_ hpevs rfl ?_ hcevs rfl rfl
          · intro e he
            obtain ⟨path, rfl⟩ := readEvents_mem he
            rfl
          · rintro e _ ⟨m, t, pr, ok, rfl⟩
            rfl
          · rintro e _ ⟨path, ok, rfl⟩
            rfl

/-- C12, witness: every read fails; the handler answers 500 after an update to failed
that names the file and the error. -/
theorem ProcessSlides_error_paths_witness :
    (Controllers.ProcessSlides unreadableEnv (.ok notesPayload) notesEntry).1 =
      Controllers.errorResponse unreadableEnv "Failed to read local file: input/output error" ∧
    EndsWithFailedWrite "j1" "Failed to read local file notes.txt: input/output error"
      (eventsSince notesEntry
        (Controllers.ProcessSlides unreadableEnv (.ok notesPayload) notesEntry).2) := by
  have hread : (Controllers.readAll unreadableEnv notesPayload notesEntry).1 =
      .error (Controllers.errorResponse unreadableEnv
        "Failed to read local file: input/output error") := by rfl
  rcases ProcessSlides_error_paths unreadableEnv notesPayload notesEntry (by rfl)
    (by decide) with h | h | h | h
  · obtain ⟨k, ref, err, hk, hfail, hresp, hends⟩ := h
    have hk0 : k = 0 := by
      cases k with
      | zero => rfl
      | succ n => simp [notesPayload, dispatchedPayload] at hk
    subst hk0
    have href : ref = stagedRef "j1" notesFile := by
      simp [notesPayload, dispatchedPayload] at hk
      exact hk.symm
    subst href
    have herr : err = "input/output error" := by
      rcases hfail with h1 | h1
      · simpa [unreadableEnv] using h1.symm
      · simp [unreadableEnv] at h1
    subst herr
    exact ⟨hresp, hends⟩
  · obtain ⟨files, err, hr, _⟩ := h
    rw [hread] at hr
    cases hr
  · obtain ⟨files, pdf, html, err, hr, _⟩ := h
    rw [hread] at hr
    cases hr
  · obtain ⟨files, pdf, html, err, hr, _⟩ := h
    rw [hread] at hr
    cases hr

/-! ## C13: the renderer runs only on the complete file set -/

/-- C13: in every execution of `ProcessSlides`, a call of the renderer or a write of
a result record is logged only if the initial processing write succeeded and every
file reference of the payload was read successfully, and the renderer is only ever
called with the files of all references.  If the initial write fails, that write is
the only call made: no file is read.  If the read at index `k` is the first to fail,
the calls are the initial write, the reads of the references before `k`, the failed
read and an update to failed whose message names the file (after which the record
has status failed, when the store accepts the update): no later file is read and the
renderer is not called. -/
theorem ProcessSlides_render_guard (env : WorkerEnv) (p : TaskPayload) (w : World) :
    ((∃ e ∈ eventsSince w (Controllers.ProcessSlides env (.ok p) w).2,
        e.isRenderOrResult = true) →
      (Controllers.markProcessing env p w).1 = none ∧
      ∀ m ref, p.Files[m]? = some ref → ∃ d, ReadSuccess env w.files m ref d) ∧
    (∀ theme files settings,
      Event.generateSlides theme files settings ∈
          eventsSince w (Controllers.ProcessSlides env (.ok p) w).2 →
        files = filesRead w.files p.Files ∧ files.length = p.Files.length) ∧
    (∀ err, (Controllers.markProcessing env p w).1 = some err →
      eventsSince w (Controllers.ProcessSlides env (.ok p) w).2 =
        [.jobUpdate .worker p.JobID "processing" "Processing slides" w.now none
          (w.status p.JobID) false]) ∧
    (∀ k ref err, (Controllers.markProcessing env p w).1 = none → p.Files[k]? = some ref →
      (∀ m r, m < k → p.Files[m]? = some r → ∃ d, ReadSuccess env w.files m r d) →
      ReadFailure env w.files k ref err →
        ∃ ok, eventsSince w (Controllers.ProcessSlides env (.ok p) w).2 =
          .jobUpdate .worker p.JobID "processing" "Processing slides" w.now none
              (w.status p.JobID) true ::
            readEvents (p.Files.take k) ++
            [.readFile ref.LocalPath false,
             .jobUpdate .worker p.JobID "failed"
               ("Failed to read local file " ++ ref.Filename ++ ": " ++ err)
               (w.clock (w.tick + 1)) none (some "processing") ok] ∧
          (env.failedErr = none →
            (Controllers.ProcessSlides env (.ok p) w).2.status p.JobID = some "failed")) := by
  obtain ⟨t0, f0, _, _, c0, k0⟩ := Controllers.markProcessing_spec env p w
  -- the log when the initial write fails
  have hfailP : ∀ err, (Controllers.markProcessing env p w).1 = some err →
      eventsSince w (Controllers.ProcessSlides env (.ok p) w).2 =
        [.jobUpdate .worker p.JobID "processing" "Processing slides" w.now none
          (w.status p.JobID) false] := by
    intro err hp
    rw [Controllers.ProcessSlides_processing_fails env p w err hp]
    apply eventsSince_append
    rw [t0, hp]
    rfl
  -- the log when the read at index k is the first to fail
  have hfailR : ∀ k ref err, (Controllers.markProcessing env p w).1 = none →
      p.Files[k]? = some ref →
      (∀ m r, m < k → p.Files[m]? = some r → ∃ d, ReadSuccess env w.files m r d) →
      ReadFailure env w.files k ref err →
        ∃ ok, eventsSince w (Controllers.ProcessSlides env (.ok p) w).2 =
          .jobUpdate .worker p.JobID "processing" "Processing slides" w.now none
              (w.status p.JobID) true ::
            readEvents (p.Files.take k) ++
            [.readFile ref.LocalPath false,
             .jobUpdate .worker p.JobID "failed"
               ("Failed to read local file " ++ ref.Filename ++ ": " ++ err)
               (w.clock (w.tick + 1)) none (some "processing") ok] ∧
          (env.failedErr = none →
            (Controllers.ProcessSlides env (.ok p) w).2.status p.JobID = some "failed") := by
    intro k ref err hp hk hbefore hfail
    have hbefore' : ∀ m r, m < k → p.Files[m]? = some r →
        ∃ d, ReadSuccess env (Controllers.markProcessing env p w).2.files (0 + m) r d := by
      rw [f0]; simpa using hbefore
    have hfail' : ReadFailure env (Controllers.markProcessing env p w).2.files (0 + k)
        ref err := by
      rw [f0]; simpa using hfail
    have heq := Controllers.readLoop_first_failure env p.JobID p.Files 0 []
      (Controllers.markProcessing env p w).2 k ref err hk hbefore' hfail'
    have hr : (Controllers.readAll env p w).1 =
        .error (Controllers.errorResponse env ("Failed to read local file: " ++ err)) := by
      unfold Controllers.readAll
      rw [heq]
    have hworld : (Controllers.readAll env p w).2 =
        (Controllers.updateJobStatus env.failedErr
          { (Controllers.markProcessing env p w).2 with
            trace := (Controllers.markProcessing env p w).2.trace ++
              readEvents (p.Files.take k) ++ [.readFile ref.LocalPath false] }
          p.JobID "failed"
          ("Failed to read local file " ++ ref.Filename ++ ": " ++ err) "").2 := by
      unfold Controllers.readAll
      rw [heq]
    rw [Controllers.ProcessSlides_read_fails env p w _ hp hr]
    have ht := (Controllers.updateJobStatus_spec env.failedErr
      { (Controllers.markProcessing env p w).2 with
        trace := (Controllers.markProcessing env p w).2.trace ++ readEvents (p.Files.take k) ++
          [.readFile ref.LocalPath false] }
      p.JobID "failed" ("Failed to read local file " ++ ref.Filename ++ ": " ++ err) "").1
    have hst := Controllers.markProcessing_status env p w hp
    generalize (Controllers.updateJobStatus env.failedErr
      { (Controllers.markProcessing env p w).2 with
        trace := (Controllers.markProcessing env p w).2.trace ++ readEvents (p.Files.take k) ++
          [.readFile ref.LocalPath false] }
      p.JobID "failed" ("Failed to read local file " ++ ref.Filename ++ ": " ++ err)
      "").1.isNone = ok at ht
    have hstate : env.failedErr = none →
        (Controllers.readAll env p w).2.status p.JobID = some "failed" := by
      intro hf
      have hsome : ((Controllers.markProcessing env p w).2.jobs p.JobID).isSome := by
        have h1 := hst
        simp only [World.status, Option.map_eq_some'] at h1
        obtain ⟨j, hj, _⟩ := h1
        simp [hj]
      rw [hworld]
      exact docUpdateJob_ok .worker env.failedErr p.JobID "failed" _ _ none _
        ((docUpdateJob_none_iff _ _ _ _ _ _ _ _).mpr ⟨hf, hsome⟩)
    refine ⟨ok, ?_, hstate⟩
    apply eventsSince_append
    simp only
    rw [hworld, ht]
    show ((Controllers.markProcessing env p w).2.trace ++ readEvents (p.Files.take k) ++
        [Event.readFile ref.LocalPath false]) ++
      [Event.jobUpdate .worker p.JobID "failed"
        ("Failed to read local file " ++ ref.Filename ++ ": " ++ err)
        ((Controllers.markProcessing env p w).2.clock (Controllers.markProcessing env p w).2.tick)
        none ((Controllers.markProcessing env p w).2.status p.JobID) ok] = _
    rw [t0, c0, k0, hst, hp]
    simp
  -- the log when every read succeeds
  have hok : ∀ files, (Controllers.markProcessing env p w).1 = none →
      (Controllers.readAll env p w).1 = .ok files →
      ∀ theme fs settings,
        Event.generateSlides theme fs settings ∈
            eventsSince w (Controllers.ProcessSlides env (.ok p) w).2 →
          fs = files := by
    intro files hp hr theme fs settings hmem
    obtain ⟨tail, htr, htail⟩ := Controllers.ProcessSlides_after_reads env p w files hp hr
    rw [eventsSince_append htr] at hmem
    simp only [List.mem_cons, List.mem_append, reduceCtorEq, false_or] at hmem
    rcases hmem with h | h | h
    · obtain ⟨path, hpath⟩ := readEvents_mem h
      cases hpath
    · simp only [Event.generateSlides.injEq] at h
      exact h.2.1
    · have := (htail _ h).1
      simp [Event.isRender] at this
  refine ⟨?_, ?_, hfailP, hfailR⟩
  · rintro ⟨e, he, hre⟩
    cases hp : (Controllers.markProcessing env p w).1 with
    | some err =>
      rw [hfailP err hp] at he
      rw [List.mem_singleton.mp he] at hre
      simp [Event.isRenderOrResult] at hre
    | none =>
      refine ⟨rfl, ?_⟩
      rcases Controllers.read_cases env w.files p.Files 0 with hall | ⟨k, ref, err, hk, hbefore, hfail⟩
      · simpa using hall
      · obtain ⟨ok, htr, _⟩ := hfailR k ref err hp hk (by simpa using hbefore)
          (by simpa using hfail)
        rw [htr] at he
        simp only [List.cons_append, List.mem_cons, List.mem_append, List.mem_singleton,
          List.not_mem_nil, or_false] at he
        rcases he with h | h | h | h
        · rw [h] at hre; simp [Event.isRenderOrResult] at hre
        · obtain ⟨path, hpath⟩ := readEvents_mem h
          rw [hpath] at hre; simp [Event.isRenderOrResult] at hre
        · rw [h] at hre; simp [Event.isRenderOrResult] at hre
        · rw [h] at hre; simp [Event.isRenderOrResult] at hre
  · intro theme fs settings hmem
    cases hp : (Controllers.markProcessing env p w).1 with
    | some err =>
      rw [hfailP err hp] at hmem
      simp at hmem
    | none =>
      cases hr : (Controllers.readAll env p w).1 with
      | ok files =>
        have hfs := hok files hp hr theme fs settings hmem
        have hfiles := (Controllers.readAll_ok env p w files hr).2.1
        rw [hfs, hfiles]
        exact ⟨rfl, by simp [filesRead]⟩
      | error resp =>
        obtain ⟨k, ref, err, hk, hbefore, hfail, _, _⟩ :=
          Controllers.readAll_fails env p w resp hr
        obtain ⟨ok, htr, _⟩ := hfailR k ref err hp hk hbefore hfail
        rw [htr] at hmem
        simp only [List.cons_append, List.mem_cons, List.mem_append, List.mem_singleton,
          List.not_mem_nil, or_false, reduceCtorEq, false_or] at hmem
        obtain ⟨path, hpath⟩ := readEvents_mem hmem
        cases hpath

/-- C13, witness: with two references of which the first cannot be read, the
handler logs the initial write, the failed read of the first file and the update to
failed that names it, and the job is failed afterwards; the second file is not read
and the renderer is not called. -/
theorem ProcessSlides_render_guard_witness :
    (∃ ok, eventsSince (workerEntry okProducerEnv freshWorld "j1" "default"
          [notesFile, paperFile] mediumGeneral)
        (Controllers.ProcessSlides firstReadFailsEnv
          (.ok (dispatchedPayload "j1" "default" [notesFile, paperFile] mediumGeneral))
          (workerEntry okProducerEnv freshWorld "j1" "default" [notesFile, paperFile]
            mediumGeneral)).2 =
      [.jobUpdate .worker "j1" "processing" "Processing slides" 1001 none (some "queued") true,
       .readFile "/shared/j1/notes.txt" false,
       .jobUpdate .worker "j1" "failed"
         "Failed to read local file notes.txt: input/output error" 1002 none
         (some "processing") ok]) ∧
    (Controllers.ProcessSlides firstReadFailsEnv
      (.ok (dispatchedPayload "j1" "default" [notesFile, paperFile] mediumGeneral))
      (workerEntry okProducerEnv freshWorld "j1" "default" [notesFile, paperFile]
        mediumGeneral)).2.status "j1" = some "failed" :=
  match (ProcessSlides_render_guard firstReadFailsEnv
    (dispatchedPayload "j1" "default" [notesFile, paperFile] mediumGeneral)
    (workerEntry okProducerEnv freshWorld "j1" "default" [notesFile, paperFile]
      mediumGeneral)).2.2.2 0 (stagedRef "j1" notesFile) "input/output error" (by rfl) (by rfl)
    (fun m r hm => absurd hm (by omega)) (Or.inl (by rfl)) with
  | ⟨ok, h1, h2⟩ => ⟨⟨ok, h1⟩, h2 rfl⟩

/-! ## C14: the result record -/

/-- C14: when the render succeeds with the buffers `pdf` and `html`, the handler
issues one `Set` on the results collection, with the record `id = jobID`,
`resultUrl = "/results/" ++ jobID`, `pdfData = pdf`, `htmlData = html`,
`createdAt = now` (the clock reading of `storeResult`) and
`expiresAt = createdAt + 3600`; when the store accepts the write, that record is
what the results collection holds under the key `jobID` when the handler returns. -/
theorem ProcessSlides_persists_result (env : WorkerEnv) (p : TaskPayload) (w : World)
    (files : List File) (pdf html : Bytes)
    (hp : (Controllers.markProcessing env p w).1 = none)
    (hr : (Controllers.readAll env p w).1 = .ok files)
    (hg : (Controllers.rendered env p w files).1 = .ok (pdf, html)) :
    (eventsSince w (Controllers.ProcessSlides env (.ok p) w).2).filter
        Event.isResultWrite =
      [.resultSet
        { ID := p.JobID, ResultURL := "/results/" ++ p.JobID, PDFData := pdf,
          HTMLData := html, CreatedAt := w.clock (Controllers.rendered env p w files).2.tick,
          ExpiresAt := w.clock (Controllers.rendered env p w files).2.tick + 3600 }
        (decide (env.storeErr = none))] ∧
    (env.storeErr = none →
      (Controllers.ProcessSlides env (.ok p) w).2.results p.JobID =
        some { ID := p.JobID, ResultURL := "/results/" ++ p.JobID, PDFData := pdf,
               HTMLData := html,
               CreatedAt := w.clock (Controllers.rendered env p w files).2.tick,
               ExpiresAt := w.clock (Controllers.rendered env p w files).2.tick + 3600 }) := by
  obtain ⟨pevs, cevs, okr, hpevs, hcevs, tr, ts, tc⟩ :=
    Controllers.stage_traces env p w files pdf html hr
  have hnow := (Controllers.stage_clock env p w files pdf html hr).1
  have hiff := (Controllers.persisted_spec env p w files pdf html).2.2.2.2.2.2
  have hisNone : (Controllers.persisted env p w files pdf html).1.isNone =
      decide (env.storeErr = none) := by
    by_cases h : env.storeErr = none
    · simp [h, hiff.mpr h]
    · have h2 : (Controllers.persisted env p w files pdf html).1 ≠ none := fun hn => h (hiff.mp hn)
      cases hv : (Controllers.persisted env p w files pdf html).1 with
      | none => exact absurd hv h2
      | some e => simp [h]
  rw [hnow, hisNone] at ts tc
  have hreads : (readEvents p.Files).filter Event.isResultWrite = [] := by
    apply filter_nil_of_forall
    intro e he
    obtain ⟨path, rfl⟩ := readEvents_mem he
    rfl
  have hprog : pevs.filter Event.isResultWrite = [] := by
    apply filter_nil_of_forall
    intro e he
    obtain ⟨m, t, pr, ok, rfl⟩ := hpevs e he
    rfl
  have hrem : cevs.filter Event.isResultWrite = [] := by
    apply filter_nil_of_forall
    intro e he
    obtain ⟨path, ok, rfl⟩ := hcevs e he
    rfl
  cases hs : (Controllers.persisted env p w files pdf html).1 with
  | some err =>
    rw [Controllers.ProcessSlides_store_fails env p w files pdf html err hp hr hg hs]
    have ht := (Controllers.updateJobStatus_spec env.failedErr
      (Controllers.persisted env p w files pdf html).2 p.JobID "failed"
      ("Failed to store result: " ++ err) "").1
    rw [ts, List.append_assoc] at ht
    refine ⟨?_, ?_⟩
    · rw [eventsSince_append ht]
      simp only [List.cons_append, List.filter_append, List.filter_cons, hreads, hprog,
        List.filter_nil, List.nil_append, List.append_nil]
      rfl
    · intro hnone
      rw [hiff.mpr hnone] at hs
      cases hs
  | none =>
    have hworld : (Controllers.ProcessSlides env (.ok p) w).2 =
        (Controllers.markedCompleted env p w files pdf html).2 := by
      cases hc : (Controllers.markedCompleted env p w files pdf html).1 with
      | none => rw [Controllers.ProcessSlides_succeeds env p w files pdf html hp hr hg hs hc]
      | some err =>
        rw [Controllers.ProcessSlides_completion_fails env p w files pdf html err hp hr hg hs hc]
    rw [hworld]
    refine ⟨?_, ?_⟩
    · rw [eventsSince_append tc]
      simp only [List.cons_append, List.filter_append, List.filter_cons, hreads, hprog, hrem,
        List.filter_nil, List.nil_append, List.append_nil]
      rfl
    · intro _
      rw [(Controllers.markedCompleted_spec env p w files pdf html).2.2.2.1,
        (Controllers.cleanedUp_spec env p w files pdf html).2.2.1,
        Controllers.persisted_result env p w files pdf html hs, hnow]

/-- C14, witness: the run for `notesFile` stores the two buffers of the renderer
under "j1", created at 1003 and expiring at 4603. -/
theorem ProcessSlides_persists_result_witness :
    (Controllers.ProcessSlides okWorkerEnv (.ok notesPayload) notesEntry).2.results "j1" =
      some { ID := "j1", ResultURL := "/results/j1", PDFData := [37, 80],
             HTMLData := [60, 104], CreatedAt := 1003, ExpiresAt := 4603 } :=
  (ProcessSlides_persists_result okWorkerEnv notesPayload notesEntry
    [{ Filename := "notes.txt", Data := [104, 105], Typ := "text/plain" }] [37, 80] [60, 104]
    (by rfl) (by rfl) (by rfl)).2 rfl

/-! ## C15: the completion write and the two expiry times -/

/-- C15, counterexample: the clock of `jumpWorld` is non-decreasing and jumps from
1003 to 6004 between the reading of `storeResult` and the reading of
`setJobCompleted`; the run succeeds, the job record expires at 6304 and the result
record at 4603: the job record does not expire earlier. -/
theorem submit_job_expires_after_result :
    (∀ a b, a ≤ b → jumpWorld.clock a ≤ jumpWorld.clock b) ∧
    (submit okProducerEnv none okWorkerEnv jumpWorld "j1" "default" [notesFile]
      mediumGeneral).1.2 = none ∧
    ((submit okProducerEnv none okWorkerEnv jumpWorld "j1" "default" [notesFile]
      mediumGeneral).2.jobs "j1").map FirestoreJob.ExpiresAt = some 6304 ∧
    ((submit okProducerEnv none okWorkerEnv jumpWorld "j1" "default" [notesFile]
      mediumGeneral).2.results "j1").map FirestoreResult.ExpiresAt = some 4603 := by
  refine ⟨?_, by rfl, by rfl, by rfl⟩
  intro a b hab
  simp only [jumpWorld, World.empty]
  split_ifs <;> omega

/-- C15, amended: on the success path of `ProcessSlides` the completion write is the
last call, an update of the job to status completed with the message "Slides
generated successfully", `updatedAt = now` and `expiresAt = now + 300`, and the job
record then holds these values; the result record stored for the job expires at
`createdAt + 3600`, where `createdAt` is the clock reading just before `now`.  For a
non-decreasing clock `createdAt ≤ now`, and the job record expires strictly earlier
than the result record exactly when fewer than 3300 seconds lie between the two
readings. -/
theorem ProcessSlides_expiry_order (env : WorkerEnv) (p : TaskPayload) (w : World)
    (h200 : (Controllers.ProcessSlides env (.ok p) w).1.StatusCode = 200)
    (hmono : ∀ a b, a ≤ b → w.clock a ≤ w.clock b) :
    ∃ n before prev j r,
      eventsSince w (Controllers.ProcessSlides env (.ok p) w).2 =
        before ++ [.jobUpdate .worker p.JobID "completed" "Slides generated successfully"
          (w.clock (n + 1)) (some (w.clock (n + 1) + 300)) prev true] ∧
      (Controllers.ProcessSlides env (.ok p) w).2.jobs p.JobID = some j ∧
      j.Status = "completed" ∧ j.Message = "Slides generated successfully" ∧
      j.UpdatedAt = w.clock (n + 1) ∧ j.ExpiresAt = w.clock (n + 1) + 300 ∧
      (Controllers.ProcessSlides env (.ok p) w).2.results p.JobID = some r ∧
      r.CreatedAt = w.clock n ∧ r.ExpiresAt = w.clock n + 3600 ∧
      w.clock n ≤ w.clock (n + 1) ∧
      (j.ExpiresAt < r.ExpiresAt ↔ w.clock (n + 1) < w.clock n + 3300) := by
  obtain ⟨files, pdf, html, hp, hr, hg, hs, hc, heq⟩ :=
    Controllers.ProcessSlides_ok_inv env p w (by omega)
  obtain ⟨_, _, _, _, _, _, ts, _⟩ := Controllers.stage_traces env p w files pdf html hr
  obtain ⟨Y, hY⟩ : ∃ Y, (Controllers.persisted env p w files pdf html).2.trace = w.trace ++ Y :=
    ⟨_, ts⟩
  obtain ⟨⟨cevs, okr, t4, _⟩, _, hres4, _⟩ := Controllers.cleanedUp_spec env p w files pdf html
  obtain ⟨t5, _, _, hres5, _⟩ := Controllers.markedCompleted_spec env p w files pdf html
  obtain ⟨hnowS, hnowC⟩ := Controllers.stage_clock env p w files pdf html hr
  obtain ⟨j, hj, hj1, hj2, hj3, hj4⟩ :=
    Controllers.markedCompleted_record env p w files pdf html hc
  have hres : (Controllers.markedCompleted env p w files pdf html).2.results p.JobID =
      some { ID := p.JobID, ResultURL := "/results/" ++ p.JobID, PDFData := pdf,
             HTMLData := html, CreatedAt := (Controllers.rendered env p w files).2.now,
             ExpiresAt := (Controllers.rendered env p w files).2.now + 3600 } := by
    rw [hres5, hres4, Controllers.persisted_result env p w files pdf html hs]
  rw [hnowC] at hj3 hj4 t5
  rw [hc] at t5
  rw [heq]
  refine ⟨(Controllers.rendered env p w files).2.tick,
    Y ++ cevs ++ [.removeAll (filepathJoin ["/shared", p.JobID]) okr],
    (Controllers.cleanedUp env p w files pdf html).status p.JobID, j,
    { ID := p.JobID, ResultURL := "/results/" ++ p.JobID, PDFData := pdf,
      HTMLData := html, CreatedAt := (Controllers.rendered env p w files).2.now,
      ExpiresAt := (Controllers.rendered env p w files).2.now + 3600 },
    ?_, hj, hj1, hj2, hj3, hj4, hres, hnowS, ?_, hmono _ _ (by omega), ?_⟩
  · apply eventsSince_append
    show (Controllers.markedCompleted env p w files pdf html).2.trace = _
    rw [t5, t4, hY]
    simp
  · show (Controllers.rendered env p w files).2.now + 3600 = _
    rw [hnowS]
  · rw [hj4]
    show _ < (Controllers.rendered env p w files).2.now + 3600 ↔ _
    rw [hnowS]
    omega

/-- C15, witness: with a clock that advances by one second per reading the
completion write is made at 1004, the job record expires at 1304 and the result
record at 4603. -/
theorem ProcessSlides_expiry_order_witness :
    ∃ n before prev j r,
      eventsSince notesEntry
          (Controllers.ProcessSlides okWorkerEnv (.ok notesPayload) notesEntry).2 =
        before ++ [.jobUpdate .worker "j1" "completed" "Slides generated successfully"
          (notesEntry.clock (n + 1)) (some (notesEntry.clock (n + 1) + 300)) prev true] ∧
      (Controllers.ProcessSlides okWorkerEnv (.ok notesPayload) notesEntry).2.jobs "j1" =
        some j ∧
      j.Status = "completed" ∧ j.Message = "Slides generated successfully" ∧
      j.UpdatedAt = notesEntry.clock (n + 1) ∧ j.ExpiresAt = notesEntry.clock (n + 1) + 300 ∧
      (Controllers.ProcessSlides okWorkerEnv (.ok notesPayload) notesEntry).2.results "j1" =
        some r ∧
      r.CreatedAt = notesEntry.clock n ∧ r.ExpiresAt = notesEntry.clock n + 3600 ∧
      notesEntry.clock n ≤ notesEntry.clock (n + 1) ∧
      (j.ExpiresAt < r.ExpiresAt ↔ notesEntry.clock (n + 1) < notesEntry.clock n + 3300) :=
  ProcessSlides_expiry_order okWorkerEnv notesPayload notesEntry (by rfl)
    (by
      intro a b hab
      show (1000 : Int) + (a : Int) ≤ 1000 + (b : Int)
      omega)

/-! ## C16: watching a job that is already terminal -/

/-- C16: for a job record that is read and decoded, has status completed or failed
and is not expired, `WatchJob` sends exactly one update, which carries the record's
id, that status, its message and its `updatedAt`; it closes the channel, does not
call `Snapshots`, takes no notification and returns nil; the collections are left as
they are. -/
theorem WatchJob_terminal_job (env : ReadEnv) (w : World) (jobID : String)
    (feed : List Queue.Notification) (j : FirestoreJob)
    (hget : env.getErr = none) (hdec : env.decodeErr = none) (hj : w.jobs jobID = some j)
    (hterm : j.Status = "completed" ∨ j.Status = "failed")
    (hlive : ¬ (j.ExpiresAt > 0 ∧ w.now > j.ExpiresAt)) :
    (∃ url, (Queue.WatchJob env w jobID feed).1 =
      { updates := [{ ID := j.ID, Status := j.Status, Message := j.Message,
                      ResultURL := url, UpdatedAt := j.UpdatedAt }],
        closed := true, subscribed := false, handled := 0, ret := some none }) ∧
    (Queue.WatchJob env w jobID feed).2.jobs = w.jobs ∧
    (Queue.WatchJob env w jobID feed).2.results = w.results := by
  have hG := Queue.GetJob_live env w jobID j hget hdec hj hlive
  have hW := Queue.WatchJob_initial_terminal env w jobID feed _ (by rw [hG]) hterm
  rw [hW, hG]
  exact ⟨⟨_, rfl⟩, rfl, rfl⟩

/-- C16, witness: the completed job of the stale world, watched while unexpired,
whatever notifications would follow. -/
theorem WatchJob_terminal_job_witness :
    ∃ url, (Queue.WatchJob okReadEnv (staleWorld 1200) "j1"
        [docNotification (j1Record "processing" "Generating slides")]).1 =
      { updates := [{ ID := "j1", Status := "completed",
                      Message := "Slides generated successfully", ResultURL := url,
                      UpdatedAt := 200 }],
        closed := true, subscribed := false, handled := 0, ret := some none } :=
  (WatchJob_terminal_job okReadEnv (staleWorld 1200) "j1"
    [docNotification (j1Record "processing" "Generating slides")]
    { ID := "j1", Status := "completed", Message := "Slides generated successfully",
      CreatedAt := 100, UpdatedAt := 200, ExpiresAt := 1200 } rfl rfl (by rfl)
    (Or.inl rfl) (by decide)).1

/-! ## C17: the statuses a watcher is sent -/

/-- C17, counterexample: job "j1" is queued when `WatchJob` is called, and the first
notification carries the record with status queued again; `WatchJob` sends both, so
the statuses delivered are queued, queued, which is no prefix of
`[queued] → processing* → (completed | failed)`. -/
theorem WatchJob_relays_repeated_queued :
    (Queue.WatchJob okReadEnv queuedWorld "j1"
        [docNotification (j1Record "queued" "Job added to queue")]).1.updates.map
      Queue.JobUpdate.Status = ["queued", "queued"] ∧
    specLifecycleAllows ["queued", "queued"] = false := by
  refine ⟨by rfl, by rfl⟩

/-- C17, amended: for every initial job state and every sequence of notifications,
the statuses `WatchJob` sends are, in order, a prefix of the initial status followed
by the statuses of the notifications that decode to a record, so they form a prefix
of `[queued] → processing* → (completed | failed)` whenever that sequence does; an
update with a terminal status is the last one sent (so there is at most one), and
after it `WatchJob` has returned nil, having taken no notification beyond those
counted: the outcome is the same whatever notifications follow them. -/
theorem WatchJob_delivery (env : ReadEnv) (w : World) (jobID : String)
    (feed : List Queue.Notification) :
    (∀ job, (Queue.GetJob env w jobID).1 = some job →
      (Queue.WatchJob env w jobID feed).1.updates.map Queue.JobUpdate.Status <+:
        job.Status :: feed.filterMap Queue.Notification.status? ∧
      (specLifecycleAllows (job.Status :: feed.filterMap Queue.Notification.status?) = true →
        specLifecycleAllows
          ((Queue.WatchJob env w jobID feed).1.updates.map Queue.JobUpdate.Status) = true)) ∧
    (∀ pre u post, (Queue.WatchJob env w jobID feed).1.updates = pre ++ u :: post →
      isTerminal u.Status = true →
        post = [] ∧ (Queue.WatchJob env w jobID feed).1.ret = some none ∧
        ∀ extra,
          (Queue.WatchJob env w jobID
            (feed.take (Queue.WatchJob env w jobID feed).1.handled ++ extra)).1 =
          (Queue.WatchJob env w jobID feed).1) := by
  cases hG : (Queue.GetJob env w jobID).1 with
  | none =>
    refine ⟨fun job hjob => (by cases hjob), ?_⟩
    intro pre u post heq
    rw [Queue.WatchJob_not_found env w jobID feed hG] at heq
    simp at heq
  | some job =>
    by_cases hterm : job.Status = StatusCompleted ∨ job.Status = StatusFailed
    · have hW := fun fd => Queue.WatchJob_initial_terminal env w jobID fd job hG hterm
      have hpre : (Queue.WatchJob env w jobID feed).1.updates.map Queue.JobUpdate.Status <+:
          job.Status :: feed.filterMap Queue.Notification.status? := by
        rw [hW feed]
        exact ⟨feed.filterMap Queue.Notification.status?, rfl⟩
      refine ⟨fun job2 hjob2 => ?_, ?_⟩
      · cases hjob2
        exact ⟨hpre, fun hl => specLifecycleFrom_mono _ _ _ hpre hl⟩
      · intro pre u post heq _
        rw [hW feed] at heq ⊢
        simp only at heq
        refine ⟨?_, rfl, fun extra => by rw [hW]⟩
        have hlen := congrArg List.length heq
        simp only [List.length_cons, List.length_nil, List.length_append] at hlen
        exact List.length_eq_zero.mp (by omega)
    · have hW := fun fd => Queue.WatchJob_subscribes env w jobID fd job hG hterm
      obtain ⟨more, hmore, hstat⟩ := Queue.watchLoop_updates jobID feed
        [Queue.initialUpdate job] 0
      have hpre : (Queue.WatchJob env w jobID feed).1.updates.map Queue.JobUpdate.Status <+:
          job.Status :: feed.filterMap Queue.Notification.status? := by
        rw [hW feed]
        simp only
        rw [hmore]
        exact List.cons_prefix_cons.mpr ⟨rfl, hstat⟩
      refine ⟨fun job2 hjob2 => ?_, ?_⟩
      · cases hjob2
        exact ⟨hpre, fun hl => specLifecycleFrom_mono _ _ _ hpre hl⟩
      · intro pre u post heq hu
        have hinit : ∀ v ∈ [Queue.initialUpdate job], isTerminal v.Status = false := by
          intro v hv
          rw [List.mem_singleton.mp hv]
          simpa [isTerminal, StatusCompleted, StatusFailed, Queue.initialUpdate] using hterm
        rw [hW feed] at heq ⊢
        obtain ⟨h1, h2, _, h4⟩ := Queue.watchLoop_terminal jobID feed
          [Queue.initialUpdate job] 0 hinit pre u post heq hu
        refine ⟨h1, h2, fun extra => ?_⟩
        rw [hW]
        exact h4 extra

/-- C17, witness: watching the queued job "j1" over a progress notification, the
completion and a further notification: the completed update is the last one sent,
`WatchJob` has returned nil and has taken two notifications. -/
theorem WatchJob_delivery_witness :
    (Queue.WatchJob okReadEnv queuedWorld "j1" watchedFeed).1.updates.map
        Queue.JobUpdate.Status = ["queued", "processing", "completed"] ∧
    (Queue.WatchJob okReadEnv queuedWorld "j1" watchedFeed).1.ret = some none ∧
    (Queue.WatchJob okReadEnv queuedWorld "j1" watchedFeed).1.handled = 2 :=
  have h := (WatchJob_delivery okReadEnv queuedWorld "j1" watchedFeed).2
    [{ ID := "j1", Status := "queued", Message := "Job added to queue", ResultURL := "",
       UpdatedAt := 1000 },
     { ID := "j1", Status := "processing", Message := "Generating slides", ResultURL := "",
       UpdatedAt := 1001 }]
    { ID := "j1", Status := "completed", Message := "Slides generated successfully",
      ResultURL := "/results/j1", UpdatedAt := 1004 } [] (by rfl) (by rfl)
  ⟨by rfl, h.2.1, by rfl⟩

/-! ## C18: the round trip of the submitted files -/

/-- C18: for a submission of `N` files in which the store write, the staging of every
file, the dispatch and the cleanup calls succeed, exactly one POST is made and its
payload carries `N` references with the names and types of the submitted files in
order; the Worker's reads are exactly one successful read per reference, in order;
the renderer is called exactly once, with `N` files of the same names and types;
and when the submission returns, none of the staged paths holds a file and the
staging directory of the job does not exist. -/
theorem submit_round_trip (env : ProducerEnv) (doErr : Option String) (wenv : WorkerEnv)
    (w : World) (id theme : String) (files : List File) (settings : SlideSettings)
    (hset : env.setErr = none)
    (hstage : ∀ i < files.length, env.mkdirErr i = none ∧ env.writeErr i = none)
    (hdisp : (dispatchOutcome env (workerDo doErr wenv) w id theme files settings).1 = none)
    (hremove : ∀ i < files.length, wenv.removeErr i = none)
    (hremoveAll : wenv.removeAllErr = none) :
    (∃ url payload,
      (eventsSince w (submit env doErr wenv w id theme files settings).2).filter
          Event.isPost = [.httpPost url payload] ∧
      payload.Files.length = files.length ∧
      payload.Files.map FileReference.nameType = files.map File.nameType) ∧
    (eventsSince w (submit env doErr wenv w id theme files settings).2).filter Event.isRead =
      (files.map (stagedRef id)).map (fun r => .readFile r.LocalPath true) ∧
    (∃ given,
      (eventsSince w (submit env doErr wenv w id theme files settings).2).filter
          Event.isRender = [.generateSlides theme given settings] ∧
      given.length = files.length ∧
      given.map File.nameType = files.map File.nameType) ∧
    (∀ f ∈ files,
      (submit env doErr wenv w id theme files settings).2.files (stagedPath id f) = none) ∧
    (submit env doErr wenv w id theme files settings).2.dirs (jobDir id) = false := by
  obtain ⟨_, _, _, _, _, hstaged⟩ := Queue.stagedWorld_spec env w id theme files settings
    hset hstage
  obtain ⟨hworld, hcode⟩ := dispatch_ok_inv env doErr wenv w id theme files settings hdisp
  obtain ⟨given, pdf, html, hp, hr, hg, hs, hc, heq⟩ := Controllers.ProcessSlides_ok_inv wenv
    (dispatchedPayload id theme files settings) (workerEntry env w id theme files settings)
    hcode
  obtain ⟨tail, htr, htail⟩ := Controllers.ProcessSlides_after_reads wenv
    (dispatchedPayload id theme files settings) (workerEntry env w id theme files settings)
    given hp hr
  have hgiven := (Controllers.readAll_ok wenv (dispatchedPayload id theme files settings)
    (workerEntry env w id theme files settings) given hr).2.1
  have hW : (submit env doErr wenv w id theme files settings).2 =
      (Controllers.ProcessSlides wenv (.ok (dispatchedPayload id theme files settings))
        (workerEntry env w id theme files settings)).2 := by
    rw [submit_of_dispatch_ok env doErr wenv w id theme files settings hset hstage hdisp]
    exact hworld
  have hentry : (workerEntry env w id theme files settings).trace =
      w.trace ++ [.jobSet (Queue.queuedRecord id w.now) (w.status id) true] ++
        stageEvents id files ++
        [.httpPost (env.serviceURL ++ "/tasks/process-slides")
          (dispatchedPayload id theme files settings)] := by
    show (stagedWorld env w id theme files settings).trace ++ _ = _
    rw [hstaged]
  have hevents : eventsSince w (submit env doErr wenv w id theme files settings).2 =
      .jobSet (Queue.queuedRecord id w.now) (w.status id) true ::
        stageEvents id files ++
        .httpPost (env.serviceURL ++ "/tasks/process-slides")
          (dispatchedPayload id theme files settings) ::
        .jobUpdate .worker id "processing" "Processing slides"
          (workerEntry env w id theme files settings).now none
          ((workerEntry env w id theme files settings).status id) true ::
        readEvents (files.map (stagedRef id)) ++
        .generateSlides theme given settings :: tail := by
    apply eventsSince_append
    rw [hW, htr, hentry]
    simp [dispatchedPayload]
  have hreadsP : (readEvents (files.map (stagedRef id))).filter Event.isPost = [] := by
    apply filter_nil_of_forall
    intro e he
    obtain ⟨path, rfl⟩ := readEvents_mem he
    rfl
  have hreadsG : (readEvents (files.map (stagedRef id))).filter Event.isRender = [] := by
    apply filter_nil_of_forall
    intro e he
    obtain ⟨path, rfl⟩ := readEvents_mem he
    rfl
  have htailP : tail.filter Event.isPost = [] :=
    filter_nil_of_forall (fun e he => (htail e he).2.2)
  have htailR : tail.filter Event.isRead = [] :=
    filter_nil_of_forall (fun e he => (htail e he).2.1)
  have htailG : tail.filter Event.isRender = [] :=
    filter_nil_of_forall (fun e he => (htail e he).1)
  have hnames : given.map File.nameType = files.map File.nameType := by
    rw [hgiven]
    simp [filesRead, dispatchedPayload, stagedRef, File.nameType, Function.comp_def]
  have hlen : given.length = files.length := by
    have := congrArg List.length hnames
    simpa using this
  refine ⟨⟨env.serviceURL ++ "/tasks/process-slides",
    dispatchedPayload id theme files settings, ?_, ?_, ?_⟩, ?_, ⟨given, ?_, hlen, hnames⟩,
    ?_, ?_⟩
  · rw [hevents]
    simp only [List.cons_append, List.filter_append, List.filter_cons,
      stageEvents_filter id files Event.isPost (fun _ _ => rfl) (fun _ _ _ => rfl),
      hreadsP, htailP, Event.isPost]
    rfl
  · simp [dispatchedPayload]
  · simp [dispatchedPayload, stagedRef, FileReference.nameType, File.nameType,
      Function.comp_def]
  · rw [hevents]
    simp only [List.cons_append, List.filter_append, List.filter_cons,
      stageEvents_filter id files Event.isRead (fun _ _ => rfl) (fun _ _ _ => rfl),
      readEvents_filter_isRead, htailR, Event.isRead]
    simp [readEvents]
  · rw [hevents]
    simp only [List.cons_append, List.filter_append, List.filter_cons,
      stageEvents_filter id files Event.isRender (fun _ _ => rfl) (fun _ _ _ => rfl),
      hreadsG, htailG, Event.isRender]
    rfl
  · intro f hf
    obtain ⟨_, _, _, _, _, _, hgone, _⟩ := Controllers.cleanedUp_spec wenv
      (dispatchedPayload id theme files settings) (workerEntry env w id theme files settings)
      given pdf html
    rw [hW, heq]
    show (Controllers.markedCompleted wenv _ _ given pdf html).2.files _ = none
    rw [(Controllers.markedCompleted_spec wenv _ _ given pdf html).2.1]
    exact hgone (by simpa [dispatchedPayload] using hremove) (stagedRef id f)
      (by simpa [dispatchedPayload] using ⟨f, hf, rfl⟩)
  · obtain ⟨_, _, _, _, _, _, _, hdir⟩ := Controllers.cleanedUp_spec wenv
      (dispatchedPayload id theme files settings) (workerEntry env w id theme files settings)
      given pdf html
    rw [hW, heq]
    show (Controllers.markedCompleted wenv _ _ given pdf html).2.dirs _ = false
    rw [(Controllers.markedCompleted_spec wenv _ _ given pdf html).2.2.1]
    exact hdir hremoveAll

/-- C18, witness: two files are submitted and no call fails: the reads are those of
the two staged paths, in order, and afterwards neither path holds a file and the
staging directory is gone. -/
theorem submit_round_trip_witness :
    (eventsSince freshWorld
        (submit okProducerEnv none okWorkerEnv freshWorld "j1" "default"
          [notesFile, paperFile] mediumGeneral).2).filter Event.isRead =
      [.readFile "/shared/j1/notes.txt" true, .readFile "/shared/j1/paper.pdf" true] ∧
    (∀ f ∈ [notesFile, paperFile],
      (submit okProducerEnv none okWorkerEnv freshWorld "j1" "default"
        [notesFile, paperFile] mediumGeneral).2.files (stagedPath "j1" f) = none) ∧
    (submit okProducerEnv none okWorkerEnv freshWorld "j1" "default"
      [notesFile, paperFile] mediumGeneral).2.dirs "/shared/j1" = false :=
  have h := submit_round_trip okProducerEnv none okWorkerEnv freshWorld "j1" "default"
    [notesFile, paperFile] mediumGeneral rfl (fun _ _ => ⟨rfl, rfl⟩) (by rfl)
    (fun _ _ => rfl) rfl
  ⟨h.2.1, h.2.2.2.1, h.2.2.2.2⟩

/-! ## C19: cleanup and the job state -/

/-- C19, counterexample: the calls of a run in which no call fails.  The staged file
and the staging directory are removed while the job still has status processing:
the update to completed is the last call, made after the cleanup on a record whose
status is processing. -/
theorem ProcessSlides_cleanup_before_completed :
    eventsSince notesEntry
        (Controllers.ProcessSlides okWorkerEnv (.ok notesPayload) notesEntry).2 =
      [.jobUpdate .worker "j1" "processing" "Processing slides" 1001 none (some "queued") true,
       .readFile "/shared/j1/notes.txt" true,
       .generateSlides "default"
         [{ Filename := "notes.txt", Data := [104, 105], Typ := "text/plain" }] mediumGeneral,
       .jobUpdate .worker "j1" "processing" "Generating slides" 1002 none
         (some "processing") true,
       .resultSet { ID := "j1", ResultURL := "/results/j1", PDFData := [37, 80],
                    HTMLData := [60, 104], CreatedAt := 1003, ExpiresAt := 4603 } true,
       .remove "/shared/j1/notes.txt" true,
       .removeAll "/shared/j1" true,
       .jobUpdate .worker "j1" "completed" "Slides generated successfully" 1004 (some 1304)
         (some "processing") true] := by
  rfl

/-- C19, amended: in every execution of `ProcessSlides` in which the render and the
result write succeed, the cleanup calls are made while the job still has status
processing, and the update to completed is issued right after them; the outcome of
the cleanup calls, whichever of them fail, changes neither the response, nor the
sequence of job-record writes, nor the records of the two collections. -/
theorem ProcessSlides_cleanup_frame (env : WorkerEnv) (p : TaskPayload) (w : World)
    (files : List File) (pdf html : Bytes) (r : Nat → Option String) (a : Option String)
    (hp : (Controllers.markProcessing env p w).1 = none)
    (hr : (Controllers.readAll env p w).1 = .ok files)
    (hg : (Controllers.rendered env p w files).1 = .ok (pdf, html))
    (hs : (Controllers.persisted env p w files pdf html).1 = none) :
    (∃ cevs okr updatedAt okc, (∀ e ∈ cevs, IsRemove e) ∧
      eventsSince w (Controllers.ProcessSlides env (.ok p) w).2 =
        eventsSince w (Controllers.persisted env p w files pdf html).2 ++ cevs ++
          [.removeAll (filepathJoin ["/shared", p.JobID]) okr,
           .jobUpdate .worker p.JobID "completed" "Slides generated successfully"
             updatedAt (some (updatedAt + 300)) (some "processing") okc]) ∧
    (Controllers.ProcessSlides (withCleanup env r a) (.ok p) w).1 =
      (Controllers.ProcessSlides env (.ok p) w).1 ∧
    jobWrites (eventsSince w (Controllers.ProcessSlides (withCleanup env r a) (.ok p) w).2) =
      jobWrites (eventsSince w (Controllers.ProcessSlides env (.ok p) w).2) ∧
    (Controllers.ProcessSlides (withCleanup env r a) (.ok p) w).2.jobs =
      (Controllers.ProcessSlides env (.ok p) w).2.jobs ∧
    (Controllers.ProcessSlides (withCleanup env r a) (.ok p) w).2.results =
      (Controllers.ProcessSlides env (.ok p) w).2.results := by
  have hp' : (Controllers.markProcessing (withCleanup env r a) p w).1 = none := hp
  have hr' : (Controllers.readAll (withCleanup env r a) p w).1 = .ok files := by
    rw [Controllers.readAll_cleanup]; exact hr
  have hg' : (Controllers.rendered (withCleanup env r a) p w files).1 = .ok (pdf, html) := by
    rw [Controllers.rendered_cleanup]; exact hg
  have hpe := Controllers.persisted_cleanup env r a p w files pdf html
  have hs' : (Controllers.persisted (withCleanup env r a) p w files pdf html).1 = none := by
    rw [hpe]; exact hs
  obtain ⟨hw, hresp⟩ := Controllers.ProcessSlides_after_persist env p w files pdf html hp hr hg hs
  obtain ⟨hw', hresp'⟩ := Controllers.ProcessSlides_after_persist (withCleanup env r a) p w
    files pdf html hp' hr' hg' hs'
  obtain ⟨cevs, okr, hcevs, htr⟩ :=
    Controllers.ProcessSlides_cleanup_trace env p w files pdf html hp hr hg hs
  obtain ⟨cevs', okr', hcevs', htr'⟩ :=
    Controllers.ProcessSlides_cleanup_trace (withCleanup env r a) p w files pdf html hp' hr'
      hg' hs'
  obtain ⟨_, j4, r4, c4, k4, _⟩ := Controllers.cleanedUp_spec env p w files pdf html
  obtain ⟨_, j4', r4', c4', k4', _⟩ :=
    Controllers.cleanedUp_spec (withCleanup env r a) p w files pdf html
  rw [hpe] at j4' r4' c4' k4' htr'
  obtain ⟨h1, hjobs, hnow, _⟩ := Controllers.setJobCompleted_congr env.completedErr
    (Controllers.cleanedUp (withCleanup env r a) p w files pdf html)
    (Controllers.cleanedUp env p w files pdf html) p.JobID "Slides generated successfully"
    ("/results/" ++ p.JobID) (j4'.trans j4.symm) (c4'.trans c4.symm) (k4'.trans k4.symm)
  have h1' : (Controllers.markedCompleted (withCleanup env r a) p w files pdf html).1 =
      (Controllers.markedCompleted env p w files pdf html).1 := h1
  have hjobs' : (Controllers.markedCompleted (withCleanup env r a) p w files pdf html).2.jobs =
      (Controllers.markedCompleted env p w files pdf html).2.jobs := hjobs
  have hrem : ∀ l : List Event, (∀ e ∈ l, IsRemove e) → l.filter Event.isJobWrite = [] := by
    intro l hl
    apply filter_nil_of_forall
    intro e he
    obtain ⟨path, ok, rfl⟩ := hl e he
    rfl
  refine ⟨⟨cevs, okr, _, _, hcevs, htr⟩, ?_, ?_, ?_, ?_⟩
  · rw [hresp, hresp', h1']
    rfl
  · rw [htr, htr', h1', hnow]
    simp only [jobWrites, List.filter_append, hrem cevs hcevs, hrem cevs' hcevs',
      List.append_nil, List.filter_cons, Event.isJobWrite]
    rfl
  · rw [hw, hw', hjobs']
  · rw [hw, hw', (Controllers.markedCompleted_spec env p w files pdf html).2.2.2.1,
      (Controllers.markedCompleted_spec (withCleanup env r a) p w files pdf html).2.2.2.1,
      r4, r4']

/-- C19, witness: when every cleanup call fails, the run for `notesFile` returns the
same response and issues the same job-record writes as the run in which none
fails. -/
theorem ProcessSlides_cleanup_frame_witness :
    (Controllers.ProcessSlides cleanupDownEnv (.ok notesPayload) notesEntry).1 =
      (Controllers.ProcessSlides okWorkerEnv (.ok notesPayload) notesEntry).1 ∧
    jobWrites (eventsSince notesEntry
        (Controllers.ProcessSlides cleanupDownEnv (.ok notesPayload) notesEntry).2) =
      jobWrites (eventsSince notesEntry
        (Controllers.ProcessSlides okWorkerEnv (.ok notesPayload) notesEntry).2) :=
  have h := ProcessSlides_cleanup_frame okWorkerEnv notesPayload notesEntry
    [{ Filename := "notes.txt", Data := [104, 105], Typ := "text/plain" }] [37, 80] [60, 104]
    (fun _ => some "permission denied") (some "permission denied")
    (by rfl) (by rfl) (by rfl) (by rfl)
  ⟨h.2.1, h.2.2.1⟩

/-! ## C20: the result URL of the completed update -/

/-- C20, counterexample: the Worker has completed job "j1" and its result record is
stored with the URL "/results/j1"; the watcher is notified of the completed record
while the read of the result record fails, and the completed update it sends
carries an empty result URL. -/
theorem WatchJob_completed_without_url :
    doneWorld.jobs "j1" = some doneRecord ∧
    (doneWorld.results "j1").map FirestoreResult.ResultURL = some "/results/j1" ∧
    (Queue.WatchJob okReadEnv queuedWorld "j1" [completedLookupDown]).1.updates.map
        (fun u => (u.Status, u.ResultURL)) = [("queued", ""), ("completed", "")] ∧
    (Queue.WatchJob okReadEnv queuedWorld "j1" [completedLookupDown]).1.ret = some none := by
  refine ⟨by rfl, by rfl, by rfl, by rfl⟩

/-- C20, amended: on a run of `ProcessSlides` that answers 200, the result record
with `resultUrl = "/results/" ++ jobID` is written before the cleanup calls and the
update to completed, which is the last call and is made on a record with status
processing; afterwards the job is completed and that result record is stored.  For
every call of `WatchJob` for that job, whatever the initial record and the
notifications are, every update with status completed among those it sends was
built either by the initial `GetJob` from the stored record or in the loop from a
notification that decodes to a completed record and whose send was not cancelled;
its result URL is what the result lookup made at that point returned; when that
lookup finds the result record the Worker stored, the update carries
"/results/" ++ jobID, which is not empty, if the lookup is read and decoded, and an
empty URL if the lookup fails; the update is the last one sent, and `WatchJob` has
returned nil after it. -/
theorem completed_update_result_url (wenv : WorkerEnv) (p : TaskPayload) (w : World)
    (env : ReadEnv) (w0 : World) (feed : List Queue.Notification) (u : Queue.JobUpdate)
    (h200 : (Controllers.ProcessSlides wenv (.ok p) w).1.StatusCode = 200)
    (hu : u ∈ (Queue.WatchJob env w0 p.JobID feed).1.updates)
    (hstat : u.Status = "completed") :
    (∃ before rec cevs okr updatedAt,
      rec.ResultURL = "/results/" ++ p.JobID ∧ (∀ e ∈ cevs, IsRemove e) ∧
      eventsSince w (Controllers.ProcessSlides wenv (.ok p) w).2 =
        before ++ .resultSet rec true :: cevs ++
          [.removeAll (filepathJoin ["/shared", p.JobID]) okr,
           .jobUpdate .worker p.JobID "completed" "Slides generated successfully"
             updatedAt (some (updatedAt + 300)) (some "processing") true] ∧
      (Controllers.ProcessSlides wenv (.ok p) w).2.results p.JobID = some rec ∧
      (Controllers.ProcessSlides wenv (.ok p) w).2.status p.JobID = some "completed") ∧
    (∃ lenv lworld,
      ((∃ j, w0.jobs p.JobID = some j ∧ j.Status = "completed" ∧
          u = Queue.initialUpdate (Queue.jobOfRecord j u.ResultURL) ∧
          lenv = env ∧ lworld = w0.advance) ∨
       (∃ n ∈ feed, ∃ j, n.snapshot = .doc j ∧ j.Status = "completed" ∧
          n.cancelled = none ∧ u = Queue.watchUpdate p.JobID n j ∧
          lenv = n.env ∧ lworld = n.world)) ∧
      u.ResultURL = Queue.lookupResultURL lenv lworld p.JobID ∧
      (lworld.results p.JobID =
          (Controllers.ProcessSlides wenv (.ok p) w).2.results p.JobID →
        (lenv.resultGetErr = none → lenv.resultDecodeErr = none →
          u.ResultURL = "/results/" ++ p.JobID) ∧
        (lenv.resultGetErr ≠ none ∨ lenv.resultDecodeErr ≠ none → u.ResultURL = ""))) ∧
    (Queue.WatchJob env w0 p.JobID feed).1.updates.getLast? = some u ∧
    (Queue.WatchJob env w0 p.JobID feed).1.ret = some none ∧
    "/results/" ++ p.JobID ≠ "" := by
  obtain ⟨files, pdf, html, hp, hr, hg, hs, hc, heq⟩ :=
    Controllers.ProcessSlides_ok_inv wenv p w (by omega)
  obtain ⟨pevs, _, _, _, _, tr, _, _⟩ := Controllers.stage_traces wenv p w files pdf html hr
  obtain ⟨R, hR⟩ : ∃ R, (Controllers.rendered wenv p w files).2.trace = w.trace ++ R := ⟨_, tr⟩
  have ts : eventsSince w (Controllers.persisted wenv p w files pdf html).2 =
      R ++ [.resultSet
        { ID := p.JobID, ResultURL := "/results/" ++ p.JobID, PDFData := pdf,
          HTMLData := html, CreatedAt := (Controllers.rendered wenv p w files).2.now,
          ExpiresAt := (Controllers.rendered wenv p w files).2.now + 3600 } true] := by
    apply eventsSince_append
    rw [(Controllers.persisted_spec wenv p w files pdf html).1, hR, hs, List.append_assoc]
    rfl
  obtain ⟨cevs, okr, hcevs, htr⟩ :=
    Controllers.ProcessSlides_cleanup_trace wenv p w files pdf html hp hr hg hs
  have hres : (Controllers.ProcessSlides wenv (.ok p) w).2.results p.JobID =
      some { ID := p.JobID, ResultURL := "/results/" ++ p.JobID, PDFData := pdf,
             HTMLData := html, CreatedAt := (Controllers.rendered wenv p w files).2.now,
             ExpiresAt := (Controllers.rendered wenv p w files).2.now + 3600 } := by
    rw [heq]
    show (Controllers.markedCompleted wenv p w files pdf html).2.results p.JobID = _
    rw [(Controllers.markedCompleted_spec wenv p w files pdf html).2.2.2.1,
      (Controllers.cleanedUp_spec wenv p w files pdf html).2.2.1,
      Controllers.persisted_result wenv p w files pdf html hs]
  have hstatus : (Controllers.ProcessSlides wenv (.ok p) w).2.status p.JobID =
      some "completed" := by
    rw [heq]
    exact docUpdateJob_ok _ _ _ _ _ _ _ _ hc
  have hfacts : ∀ (lenv : ReadEnv) (lworld : World),
      u.ResultURL = Queue.lookupResultURL lenv lworld p.JobID →
      lworld.results p.JobID = (Controllers.ProcessSlides wenv (.ok p) w).2.results p.JobID →
        (lenv.resultGetErr = none → lenv.resultDecodeErr = none →
          u.ResultURL = "/results/" ++ p.JobID) ∧
        (lenv.resultGetErr ≠ none ∨ lenv.resultDecodeErr ≠ none → u.ResultURL = "") := by
    intro lenv lworld hurl hstore
    rw [hres] at hstore
    obtain ⟨h1, h2⟩ := Queue.lookupResultURL_stored lenv lworld p.JobID _ hstore
    exact ⟨fun a b => by rw [hurl, h1 a b], fun a => by rw [hurl, h2 a]⟩
  obtain ⟨hlast, hret⟩ := Queue.WatchJob_completed_last env w0 p.JobID feed u hu hstat
  have hsrc : (∃ j, w0.jobs p.JobID = some j ∧ j.Status = "completed" ∧
        u = Queue.initialUpdate (Queue.jobOfRecord j u.ResultURL) ∧
        u.ResultURL = Queue.lookupResultURL env w0.advance p.JobID) ∨
      (∃ n ∈ feed, ∃ j, n.snapshot = .doc j ∧ j.Status = "completed" ∧
        n.cancelled = none ∧ u = Queue.watchUpdate p.JobID n j ∧
        u.ResultURL = Queue.lookupResultURL n.env n.world p.JobID) := by
    have hinit : ∀ job, (Queue.GetJob env w0 p.JobID).1 = some job →
        u = Queue.initialUpdate job →
        ∃ j, w0.jobs p.JobID = some j ∧ j.Status = "completed" ∧
          u = Queue.initialUpdate (Queue.jobOfRecord j u.ResultURL) ∧
          u.ResultURL = Queue.lookupResultURL env w0.advance p.JobID := by
      intro job hG hju
      obtain ⟨j, hj, hjob⟩ := Queue.GetJob_some env w0 p.JobID job hG
      have hjs : j.Status = "completed" := by
        rw [← hstat, hju, hjob]
        rfl
      have hurl : u.ResultURL = Queue.lookupResultURL env w0.advance p.JobID := by
        rw [hju, hjob]
        simp [Queue.initialUpdate, Queue.jobOfRecord, hjs, StatusCompleted]
      refine ⟨j, hj, hjs, ?_, hurl⟩
      rw [hurl, hju, hjob]
      simp [hjs, StatusCompleted]
    have hloop : ∀ n ∈ feed, ∀ j, n.snapshot = .doc j → n.cancelled = none →
        u = Queue.watchUpdate p.JobID n j →
        ∃ n ∈ feed, ∃ j, n.snapshot = .doc j ∧ j.Status = "completed" ∧
          n.cancelled = none ∧ u = Queue.watchUpdate p.JobID n j ∧
          u.ResultURL = Queue.lookupResultURL n.env n.world p.JobID := by
      intro n hn j h1 h2 h3
      have hjs : j.Status = "completed" := by
        rw [← hstat, h3]
        rfl
      refine ⟨n, hn, j, h1, hjs, h2, h3, ?_⟩
      rw [h3]
      simp [Queue.watchUpdate, hjs, StatusCompleted]
    cases hG : (Queue.GetJob env w0 p.JobID).1 with
    | none =>
      rw [Queue.WatchJob_not_found env w0 p.JobID feed hG] at hu
      simp at hu
    | some job =>
      by_cases hterm : job.Status = StatusCompleted ∨ job.Status = StatusFailed
      · rw [Queue.WatchJob_initial_terminal env w0 p.JobID feed job hG hterm] at hu
        exact Or.inl (hinit job hG (List.mem_singleton.mp hu))
      · rw [Queue.WatchJob_subscribes env w0 p.JobID feed job hG hterm] at hu
        rcases Queue.watchLoop_sent p.JobID feed _ 0 u hu with hin | ⟨n, hn, j, h1, h2, h3⟩
        · exact Or.inl (hinit job hG (List.mem_singleton.mp hin))
        · exact Or.inr (hloop n hn j h1 h2 h3)
  refine ⟨⟨R,
    { ID := p.JobID, ResultURL := "/results/" ++ p.JobID, PDFData := pdf,
      HTMLData := html, CreatedAt := (Controllers.rendered wenv p w files).2.now,
      ExpiresAt := (Controllers.rendered wenv p w files).2.now + 3600 },
    cevs, okr, (Controllers.cleanedUp wenv p w files pdf html).now, rfl, hcevs, ?_, hres,
    hstatus⟩, ?_, hlast, hret, ?_⟩
  · rw [htr, ts, hc]
    simp
  · rcases hsrc with ⟨j, hj, hjs, hju, hurl⟩ | ⟨n, hn, j, h1, hjs, h2, h3, hurl⟩
    · exact ⟨env, w0.advance, Or.inl ⟨j, hj, hjs, hju, rfl, rfl⟩, hurl,
        hfacts env w0.advance hurl⟩
    · exact ⟨n.env, n.world, Or.inr ⟨n, hn, j, h1, hjs, h2, h3, rfl, rfl⟩, hurl,
        hfacts n.env n.world hurl⟩
  · intro h
    have := congrArg String.length h
    simp [String.length_append] at this
    exact absurd this.1 (by decide)

/-- C20, witness: the watcher of the queued job "j1" is first notified of a progress
update and then of the completed record in the store of `doneWorld`; the completed
update is the last of the three it sends, and `WatchJob` has returned nil. -/
theorem completed_update_result_url_witness :
    (Queue.WatchJob okReadEnv queuedWorld "j1" watchedFeed).1.updates.getLast? =
      some { ID := "j1", Status := "completed", Message := "Slides generated successfully",
             ResultURL := "/results/j1", UpdatedAt := 1004 } ∧
    (Queue.WatchJob okReadEnv queuedWorld "j1" watchedFeed).1.ret = some none :=
  have h := completed_update_result_url okWorkerEnv notesPayload notesEntry okReadEnv
    queuedWorld watchedFeed
    { ID := "j1", Status := "completed", Message := "Slides generated successfully",
      ResultURL := "/results/j1", UpdatedAt := 1004 } (by rfl) (by decide) rfl
  ⟨h.2.2.1, h.2.2.2.1⟩

/-! ## C21: the staged path depends on the job id and the file name only -/

/-- C21: `saveFileLocally` writes a file to the join of "/shared", the job id and the
file name, and that is the `localPath` of its reference in the dispatch payload: the
path does not depend on the bytes or on the position of the file.  So for a
submission of two files with the same name, both references carry the same
`localPath`, the volume holds the bytes of the later file there when the Worker
starts, and the Worker's read loop returns the later file's bytes for both
references.  For a submission whose file names are pairwise distinct plain names,
the volume holds at the path of each reference the submitted bytes of its file, the
Worker's read loop returns exactly the submitted files, and the renderer is called
with them. -/
theorem staged_path_by_name (env : ProducerEnv) (wenv : WorkerEnv) (w : World)
    (id theme : String) (settings : SlideSettings) :
    (∀ (i : Nat) (w0 : World) (f : File), env.mkdirErr i = none → env.writeErr i = none →
      (Queue.saveFileLocally env i w0 id f).1 =
        .ok (filepathJoin ["/shared", id, f.Filename])) ∧
    (∀ f : File, (stagedRef id f).LocalPath = filepathJoin ["/shared", id, f.Filename]) ∧
    (∀ f g : File, f.Filename = g.Filename → env.setErr = none →
      (∀ i < 2, env.mkdirErr i = none ∧ env.writeErr i = none) →
        (dispatchedPayload id theme [f, g] settings).Files.map FileReference.LocalPath =
          [filepathJoin ["/shared", id, g.Filename],
           filepathJoin ["/shared", id, g.Filename]] ∧
        (workerEntry env w id theme [f, g] settings).files
            (filepathJoin ["/shared", id, g.Filename]) = some g.Data ∧
        ((∀ i < 2, wenv.readErr i = none) →
          (Controllers.readAll wenv (dispatchedPayload id theme [f, g] settings)
            (workerEntry env w id theme [f, g] settings)).1 =
            .ok [{ Filename := f.Filename, Data := g.Data, Typ := f.Typ }, g])) ∧
    (∀ files : List File, env.setErr = none →
      (∀ i < files.length, env.mkdirErr i = none ∧ env.writeErr i = none) →
      (∀ f ∈ files, PlainName f.Filename) → (files.map File.Filename).Nodup →
        (∀ f ∈ files,
          (workerEntry env w id theme files settings).files (stagedRef id f).LocalPath =
            some f.Data) ∧
        ((∀ i < files.length, wenv.readErr i = none) →
          (Controllers.readAll wenv (dispatchedPayload id theme files settings)
            (workerEntry env w id theme files settings)).1 = .ok files) ∧
        ((Controllers.markProcessing wenv (dispatchedPayload id theme files settings)
            (workerEntry env w id theme files settings)).1 = none →
          (∀ i < files.length, wenv.readErr i = none) →
          (eventsSince (workerEntry env w id theme files settings)
              (Controllers.ProcessSlides wenv
                (.ok (dispatchedPayload id theme files settings))
                (workerEntry env w id theme files settings)).2).filter Event.isRender =
            [.generateSlides theme files settings])) := by
  refine ⟨?_, fun f => stagedPath_flat id f, ?_, ?_⟩
  · intro i w0 f hm hw
    rw [Queue.saveFileLocally_ok env i w0 id f hm hw]
    exact congrArg Except.ok (stagedPath_flat id f)
  · intro f g hname hset hstage
    have hpath : stagedPath id f = stagedPath id g := by
      unfold stagedPath
      rw [hname]
    have hentry := workerEntry_files env w id theme [f, g] settings hset hstage
    have hvol : stagedFiles id [f, g] w.files (stagedPath id g) = some g.Data := by
      simp [stagedFiles, setKey]
    refine ⟨?_, ?_, ?_⟩
    · show [stagedPath id f, stagedPath id g] = _
      rw [hpath, stagedPath_flat]
    · rw [hentry, ← stagedPath_flat]
      exact hvol
    · intro hread
      rw [readAll_staged wenv env w id theme [f, g] settings hset hstage hread]
      show Except.ok
        [({ Filename := f.Filename,
            Data := (stagedFiles id [f, g] w.files (stagedPath id f)).getD [],
            Typ := f.Typ } : File),
         { Filename := g.Filename,
           Data := (stagedFiles id [f, g] w.files (stagedPath id g)).getD [],
           Typ := g.Typ }] = _
      rw [hpath, hvol]
      rfl
  · intro files hset hstage hplain hnames
    have hnd := stagedPath_nodup id files hplain hnames
    have hentry := workerEntry_files env w id theme files settings hset hstage
    have hreadAll : (∀ i < files.length, wenv.readErr i = none) →
        (Controllers.readAll wenv (dispatchedPayload id theme files settings)
          (workerEntry env w id theme files settings)).1 = .ok files := by
      intro hread
      rw [readAll_staged wenv env w id theme files settings hset hstage hread,
        filesRead_staged id files w.files hnd]
    refine ⟨?_, hreadAll, ?_⟩
    · intro f hf
      rw [hentry]
      exact stagedFiles_nodup id files w.files hnd f hf
    · intro hp hread
      obtain ⟨tail, htr, htail⟩ := Controllers.ProcessSlides_after_reads wenv
        (dispatchedPayload id theme files settings)
        (workerEntry env w id theme files settings) files hp (hreadAll hread)
      rw [eventsSince_append htr]
      have hreads : (readEvents (dispatchedPayload id theme files settings).Files).filter
          Event.isRender = [] := by
        apply filter_nil_of_forall
        intro e he
        obtain ⟨path, rfl⟩ := readEvents_mem he
        rfl
      have htailG : tail.filter Event.isRender = [] :=
        filter_nil_of_forall (fun e he => (htail e he).1)
      simp only [List.cons_append, List.filter_append, List.filter_cons, hreads, htailG,
        Event.isRender]
      rfl

/-- C21, witness: two files named "notes.txt" with different bytes are submitted as
job "j1".  Both references carry "/shared/j1/notes.txt", the volume holds the bytes
of the second file there, and the Worker reads the second file's bytes for both
references; in the full run the renderer is called with the second file twice.
With the two distinct plain names "notes.txt" and "paper.pdf" the Worker reads the
two submitted files. -/
theorem staged_path_by_name_witness :
    notesFile.Data ≠ notesRevised.Data ∧
    (dispatchedPayload "j1" "default" [notesFile, notesRevised]
        mediumGeneral).Files.map FileReference.LocalPath =
      ["/shared/j1/notes.txt", "/shared/j1/notes.txt"] ∧
    (workerEntry okProducerEnv freshWorld "j1" "default" [notesFile, notesRevised]
      mediumGeneral).files "/shared/j1/notes.txt" = some [104, 105, 33] ∧
    (Controllers.readAll okWorkerEnv
      (dispatchedPayload "j1" "default" [notesFile, notesRevised] mediumGeneral)
      (workerEntry okProducerEnv freshWorld "j1" "default" [notesFile, notesRevised]
        mediumGeneral)).1 = .ok [notesRevised, notesRevised] ∧
    (eventsSince freshWorld
        (submit okProducerEnv none okWorkerEnv freshWorld "j1" "default"
          [notesFile, notesRevised] mediumGeneral).2).filter Event.isRender =
      [.generateSlides "default" [notesRevised, notesRevised] mediumGeneral] ∧
    (Controllers.readAll okWorkerEnv
      (dispatchedPayload "j1" "default" [notesFile, paperFile] mediumGeneral)
      (workerEntry okProducerEnv freshWorld "j1" "default" [notesFile, paperFile]
        mediumGeneral)).1 = .ok [notesFile, paperFile] :=
  have h := (staged_path_by_name okProducerEnv okWorkerEnv freshWorld "j1" "default"
    mediumGeneral).2.2.1 notesFile notesRevised rfl rfl (fun _ _ => ⟨rfl, rfl⟩)
  have hplain : ∀ f ∈ [notesFile, paperFile], PlainName f.Filename := by
    intro f hf
    simp only [List.mem_cons, List.mem_singleton, List.not_mem_nil, or_false] at hf
    rcases hf with h1 | h1 <;> rw [h1] <;>
      exact ⟨⟨by decide, by decide, by decide⟩, by decide⟩
  have h2 := (staged_path_by_name okProducerEnv okWorkerEnv freshWorld "j1" "default"
    mediumGeneral).2.2.2 [notesFile, paperFile] rfl (fun _ _ => ⟨rfl, rfl⟩) hplain
    (by decide)
  ⟨by decide, h.1, h.2.1, h.2.2 (fun _ _ => rfl), by rfl, h2.2.1 (fun _ _ => rfl)⟩

/-! ## C22: reads that fail look like missing records -/

/-- C22: `GetJob` returns nil when the read of the store fails, when there is no
record and when the record cannot be decoded, and in these three cases it leaves the
world exactly as it was; it also returns nil for a decoded record that has expired.
Whenever `GetJob` returns nil, for any of these reasons, `WatchJob` returns the
error "job not found", has sent no update, has not closed the channel, has not
called `Snapshots` and has taken no notification, and leaves the world as `GetJob`
left it. -/
theorem GetJob_nil_cases (env : ReadEnv) (w : World) (id : String)
    (feed : List Queue.Notification) :
    (env.getErr ≠ none ∨ w.jobs id = none ∨ env.decodeErr ≠ none →
      Queue.GetJob env w id = (none, w)) ∧
    (∀ j, w.jobs id = some j → j.ExpiresAt > 0 ∧ w.now > j.ExpiresAt →
      (Queue.GetJob env w id).1 = none) ∧
    ((Queue.GetJob env w id).1 = none →
      Queue.WatchJob env w id feed =
        ({ updates := [], closed := false, subscribed := false, handled := 0,
           ret := some (some "job not found") }, (Queue.GetJob env w id).2)) := by
  refine ⟨?_, ?_, fun h => Queue.WatchJob_not_found env w id feed h⟩
  · intro h
    unfold Queue.GetJob
    cases hg : env.getErr with
    | some e => rfl
    | none =>
      cases hj : w.jobs id with
      | none => rfl
      | some j =>
        cases hd : env.decodeErr with
        | some e => rfl
        | none => simp [hg, hj, hd] at h
  · intro j hj hexp
    unfold Queue.GetJob
    cases hg : env.getErr with
    | some e => rfl
    | none =>
      cases hd : env.decodeErr with
      | some e => simp [hj]
      | none => simp [hj, hexp]

/-- C22, witness: the job of the stale world is stored and not expired at 1000, but
the read of the store fails: `GetJob` returns nil, the world is unchanged and
`WatchJob` returns "job not found" without sending an update; the same holds when
the record cannot be decoded, and for the record that expired at 900. -/
theorem GetJob_nil_cases_witness :
    Queue.GetJob getDownEnv (staleWorld 1200) "j1" = (none, staleWorld 1200) ∧
    Queue.GetJob decodeDownEnv (staleWorld 1200) "j1" = (none, staleWorld 1200) ∧
    (Queue.WatchJob getDownEnv (staleWorld 1200) "j1" watchedFeed).1 =
      { updates := [], closed := false, subscribed := false, handled := 0,
        ret := some (some "job not found") } ∧
    (Queue.WatchJob okReadEnv (staleWorld 900) "j1" watchedFeed).1 =
      { updates := [], closed := false, subscribed := false, handled := 0,
        ret := some (some "job not found") } :=
  have h1 := GetJob_nil_cases getDownEnv (staleWorld 1200) "j1" watchedFeed
  have h2 := GetJob_nil_cases decodeDownEnv (staleWorld 1200) "j1" watchedFeed
  have h3 := GetJob_nil_cases okReadEnv (staleWorld 900) "j1" watchedFeed
  have g1 := h1.1 (Or.inl (by decide))
  ⟨g1, h2.1 (Or.inr (Or.inr (by decide))),
    congrArg Prod.fst (h1.2.2 (congrArg Prod.fst g1)),
    congrArg Prod.fst (h3.2.2 (h3.2.1
      { ID := "j1", Status := "completed", Message := "Slides generated successfully",
        CreatedAt := 100, UpdatedAt := 200, ExpiresAt := 900 } (by rfl) (by decide)))⟩

end Slideitin
